import Mathlib

/-!
# jsoncons `basic_json` value representation

A shallow embedding of `include/jsoncons/basic_json.hpp`: the storage kinds,
the discriminated union `basic_json::variant`, its comparison operators
(`operator==`, `operator<`), `swap`, and the copy / move initialisers, followed
by theorems about them.

Conventions of the embedding.

* `int64_t` payloads are `Int`, `uint64_t` / `uint16_t` / `uint8_t` payloads are
  `Nat`; casts between them are written out with an explicit `% 2 ^ 64`.
* `double` is held as its IEEE-754 binary64 bit pattern, so that comparisons are
  exact and computable (NaN compares false with everything, `-0.0 == 0.0`).
* strings and keys are sequences of code units (`List Nat`), byte strings are
  sequences of bytes (`List Nat`).
* The active member of the C++ union is the constructor of `variant`.
* `this == &rhs` tests of the source are an explicit `same_object : Bool`.
* `JSONCONS_UNREACHABLE()` is the result `none`.
-/

namespace jsoncons

/-! ## Storage kinds and semantic tags -/

/-- The enumeration `storage_kind` (basic_json.hpp lines 248-262). -/
inductive storage_kind where
  | null_value
  | bool_value
  | int64_value
  | uint64_value
  | half_value
  | double_value
  | short_string_value
  | long_string_value
  | byte_string_value
  | array_value
  | empty_object_value
  | object_value
deriving DecidableEq, Repr

/-- The underlying `uint8_t` value of each enumerator, the `(int)storage()` of the source. -/
def storage_kind.toNat : storage_kind → Nat
  | .null_value => 0x00
  | .bool_value => 0x01
  | .int64_value => 0x02
  | .uint64_value => 0x03
  | .half_value => 0x04
  | .double_value => 0x05
  | .short_string_value => 0x06
  | .long_string_value => 0x07
  | .byte_string_value => 0x08
  | .array_value => 0x09
  | .empty_object_value => 0x0a
  | .object_value => 0x0b

/-- Modelled from the spec: the enumeration `semantic_tag` is declared in
`json_type.hpp`, outside the sources at hand; a tag is held by its underlying
`uint8_t` value, and the spec only says that it is independent of the storage
kind. -/
structure semantic_tag where
  value : Nat
deriving DecidableEq, Repr

/-- Modelled from the spec: `semantic_tag::none`, the tag of a value constructed
without a format hint. -/
def semantic_tag.none : semantic_tag := ⟨0⟩

/-! ## IEEE-754 binary64 -/

/-- A `double`, held as its 64-bit pattern (sign, 11 exponent bits, 52 fraction bits). -/
structure double where
  bits : Nat
deriving DecidableEq, Repr

namespace double

/-- The sign bit. -/
def sign (d : double) : Bool := decide ((d.bits % 2 ^ 64) / 2 ^ 63 = 1)

/-- The biased exponent field. -/
def exponent (d : double) : Nat := ((d.bits % 2 ^ 64) / 2 ^ 52) % 2 ^ 11

/-- The fraction field. -/
def fraction (d : double) : Nat := d.bits % 2 ^ 52

/-- Not-a-number: all exponent bits set and a non-zero fraction. -/
def isNaN (d : double) : Bool := decide (d.exponent = 2047) && decide (d.fraction ≠ 0)

/-- Sign-magnitude key: on non-NaN doubles the numeric order is the order of the
keys, and both zeros have key 0. -/
def key (d : double) : Int :=
  if d.sign then -((d.bits % 2 ^ 63 : Nat) : Int) else ((d.bits % 2 ^ 63 : Nat) : Int)

/-- The C++ `a < b` on doubles. -/
def lt (a b : double) : Bool := !a.isNaN && !b.isNaN && decide (a.key < b.key)

/-- The C++ `a == b` on doubles. -/
def eq (a b : double) : Bool := !a.isNaN && !b.isNaN && decide (a.key = b.key)

/-- Number of binary digits of `m`, by at most `fuel` halvings. -/
def bit_length : Nat → Nat → Nat
  | 0, _ => 0
  | fuel + 1, m => if m = 0 then 0 else bit_length fuel (m / 2) + 1

/-- The double nearest to `± m` (ties to even), for `m < 2 ^ 1024`. -/
def of_magnitude (negative : Bool) (m : Nat) : double :=
  if m = 0 then ⟨0⟩
  else
    let e := bit_length 1024 m - 1
    let s := if negative then 2 ^ 63 else 0
    if e ≤ 52 then ⟨s + (e + 1023) * 2 ^ 52 + (m * 2 ^ (52 - e) - 2 ^ 52)⟩
    else
      let q := m / 2 ^ (e - 52)
      let r := m % 2 ^ (e - 52)
      let h := 2 ^ (e - 53)
      let q1 := if h < r ∨ (r = h ∧ q % 2 = 1) then q + 1 else q
      ⟨s + (e + 1023) * 2 ^ 52 + (q1 - 2 ^ 52)⟩

/-- The conversion `static_cast<double>(int64_t)`. -/
def of_int64 (i : Int) : double := of_magnitude (decide (i < 0)) i.natAbs

/-- The conversion `static_cast<double>(uint64_t)`. -/
def of_uint64 (u : Nat) : double := of_magnitude false (u % 2 ^ 64)

end double

/-- Modelled from the spec: `jsoncons::detail::decode_half` is defined outside the
sources at hand; the spec says that a half_float is decoded to double before a
cross-kind comparison, which is the exact widening of an IEEE-754 binary16
pattern (1 sign bit, 5 exponent bits, 10 fraction bits) to binary64. -/
def decode_half (half : Nat) : double :=
  let exp := (half / 2 ^ 10) % 2 ^ 5
  let mant := half % 2 ^ 10
  let s := if (half / 2 ^ 15) % 2 = 1 then 2 ^ 63 else 0
  if exp = 0 then
    if mant = 0 then ⟨s⟩
    else
      let e := double.bit_length 10 mant - 1
      ⟨s + (e + 999) * 2 ^ 52 + (mant * 2 ^ (52 - e) - 2 ^ 52)⟩
  else if exp = 31 then
    if mant = 0 then ⟨s + 2047 * 2 ^ 52⟩ else ⟨s + 2047 * 2 ^ 52 + 2 ^ 51⟩
  else ⟨s + (exp + 1008) * 2 ^ 52 + mant * 2 ^ 42⟩

/-- The conversion `static_cast<uint64_t>(int64_t)`. -/
def static_cast_uint64 (i : Int) : Nat := (i % 2 ^ 64).toNat

/-! ## The variant -/

/-- The union `basic_json::variant` (lines 312-887): one constructor per storage
class, holding the semantic tag of its `ext_type_` byte and the payload. An
element of an array and a member value of an object is a `basic_json`, whose
only field is its `var_`; it is held here as that variant. `array_storage` and
`object_storage` own their container, given as the sequence of its elements and
of its (key, value) members in iteration order. -/
inductive variant where
  | null_storage (tag : semantic_tag)
  | empty_object_storage (tag : semantic_tag)
  | bool_storage (val_ : Bool) (tag : semantic_tag)
  | int64_storage (val_ : Int) (tag : semantic_tag)
  | uint64_storage (val_ : Nat) (tag : semantic_tag)
  | half_storage (val_ : Nat) (tag : semantic_tag)
  | double_storage (val_ : double) (tag : semantic_tag)
  | short_string_storage (tag : semantic_tag) (data_ : List Nat)
  | long_string_storage (tag : semantic_tag) (s_ : List Nat)
  | byte_string_storage (tag : semantic_tag) (bytes : List Nat)
  | array_storage (val : List variant) (tag : semantic_tag)
  | object_storage (val : List (List Nat × variant)) (tag : semantic_tag)

namespace variant

/-- The accessor `storage()` (lines 1044-1051): the kind written into `ext_type_` by the
constructor of the active storage class. -/
def storage : variant → storage_kind
  | null_storage _ => .null_value
  | empty_object_storage _ => .empty_object_value
  | bool_storage _ _ => .bool_value
  | int64_storage _ _ => .int64_value
  | uint64_storage _ _ => .uint64_value
  | half_storage _ _ => .half_value
  | double_storage _ _ => .double_value
  | short_string_storage _ _ => .short_string_value
  | long_string_storage _ _ => .long_string_value
  | byte_string_storage _ _ => .byte_string_value
  | array_storage _ _ => .array_value
  | object_storage _ _ => .object_value

/-- The accessor `tag()` (lines 1053-1060). -/
def tag : variant → semantic_tag
  | null_storage t => t
  | empty_object_storage t => t
  | bool_storage _ t => t
  | int64_storage _ t => t
  | uint64_storage _ t => t
  | half_storage _ t => t
  | double_storage _ t => t
  | short_string_storage t _ => t
  | long_string_storage t _ => t
  | byte_string_storage t _ => t
  | array_storage _ t => t
  | object_storage _ t => t

/-- The member `variant::size()` (lines 1209-1220). -/
def size : variant → Nat
  | array_storage val _ => val.length
  | object_storage val _ => val.length
  | _ => 0

end variant

/-- The algorithm `std::lexicographical_compare` on sequences of code units or of bytes. -/
def lexicographical_compare : List Nat → List Nat → Bool
  | [], [] => false
  | [], _ :: _ => true
  | _ :: _, [] => false
  | x :: xs, y :: ys => if x < y then true else if y < x then false else lexicographical_compare xs ys

/-- The `==` of `basic_string_view`, applied to the results of `as_string_view()` (lines
1222-1233): the same length and the same code units. -/
def string_view_eq (a b : List Nat) : Bool := decide (a = b)

/-- The `<` of `basic_string_view`: the lexicographic order of the code units. -/
def string_view_lt (a b : List Nat) : Bool := lexicographical_compare a b

/-- Modelled from the spec: the `==` of `byte_string_view` is defined in
`byte_string.hpp`, outside the sources at hand; byte strings are equal when their
content is. -/
def byte_string_view_eq (a b : List Nat) : Bool := decide (a = b)

/-- Modelled from the spec: the `<` of `byte_string_view` is defined in
`byte_string.hpp`, outside the sources at hand; the spec leaves it to the payload,
taken here as the lexicographic order of the bytes. -/
def byte_string_view_lt (a b : List Nat) : Bool := lexicographical_compare a b

/-! ## Equality -/

/-- The `case storage_kind::double_value` arm of `variant::operator==` (lines
1365-1379), for a left operand holding the double `d`. The `half_value` arm
reaches it through `variant(decode_half(...), semantic_tag::none) == rhs`. -/
def variant.double_eq (d : double) : variant → Bool
  | .int64_storage v _ => d.eq (double.of_int64 v)
  | .uint64_storage v _ => d.eq (double.of_uint64 v)
  | .half_storage h _ => d.eq (decode_half h)
  | .double_storage v _ => d.eq v
  | _ => false

/-- Modelled from the spec: `json_object::find` is defined in
`json_container_types.hpp`, outside the sources at hand; it yields the member
with the given key, if there is one. -/
def json_object_find (key : List Nat) : List (List Nat × variant) → Option variant
  | [] => none
  | (k, v) :: rest => if k = key then some v else json_object_find key rest

mutual
/-- The switch of `variant::operator==` (lines 1295-1436), that is, the operator on two
distinct objects. -/
def variant.eq : variant → variant → Bool
  | .null_storage _, rhs =>
    match rhs with
    | .null_storage _ => true
    | _ => false
  | .empty_object_storage _, rhs =>
    match rhs with
    | .empty_object_storage _ => true
    | .object_storage _ _ => decide (rhs.size = 0)
    | _ => false
  | .bool_storage a _, rhs =>
    match rhs with
    | .bool_storage b _ => decide (a = b)
    | _ => false
  | .int64_storage a _, rhs =>
    match rhs with
    | .int64_storage b _ => decide (a = b)
    | .uint64_storage b _ => if a ≥ 0 then decide (static_cast_uint64 a = b) else false
    | .half_storage h _ => (double.of_int64 a).eq (decode_half h)
    | .double_storage d _ => (double.of_int64 a).eq d
    | _ => false
  | .uint64_storage a _, rhs =>
    match rhs with
    | .int64_storage b _ => if b ≥ 0 then decide (a = static_cast_uint64 b) else false
    | .uint64_storage b _ => decide (a = b)
    | .half_storage h _ => (double.of_uint64 a).eq (decode_half h)
    | .double_storage d _ => (double.of_uint64 a).eq d
    | _ => false
  | .half_storage a _, rhs =>
    match rhs with
    | .half_storage b _ => decide (a = b)
    | _ => variant.double_eq (decode_half a) rhs
  | .double_storage a _, rhs => variant.double_eq a rhs
  | .short_string_storage _ a, rhs =>
    match rhs with
    | .short_string_storage _ b => string_view_eq a b
    | .long_string_storage _ b => string_view_eq a b
    | _ => false
  | .long_string_storage _ a, rhs =>
    match rhs with
    | .short_string_storage _ b => string_view_eq a b
    | .long_string_storage _ b => string_view_eq a b
    | _ => false
  | .byte_string_storage _ a, rhs =>
    match rhs with
    | .byte_string_storage _ b => byte_string_view_eq a b
    | _ => false
  | .array_storage a _, rhs =>
    match rhs with
    | .array_storage b _ => json_array_eq a b
    | _ => false
  | .object_storage a _, rhs =>
    match rhs with
    | .empty_object_storage _ => decide (a.length = 0)
    | .object_storage b _ => decide (a.length = b.length) && json_object_includes a b
    | _ => false
/-- Modelled from the spec: `json_array::operator==` is defined in
`json_container_types.hpp`, outside the sources at hand; arrays are equal when they
have the same length and are pairwise equal. -/
def json_array_eq : List variant → List variant → Bool
  | [], [] => true
  | x :: xs, y :: ys => variant.eq x y && json_array_eq xs ys
  | [], _ :: _ => false
  | _ :: _, [] => false
/-- Modelled from the spec: `json_object::operator==` is defined in
`json_container_types.hpp`, outside the sources at hand; objects are equal when
they hold the same (key, value) pairs whatever the iteration order: they have
the same size (tested in the caller) and every member of the left one has an
equal value under the same key in the right one. -/
def json_object_includes : List (List Nat × variant) → List (List Nat × variant) → Bool
  | [], _ => true
  | (k, v) :: rest, rhs =>
    (match json_object_find k rhs with
     | some w => variant.eq v w
     | none => false) && json_object_includes rest rhs
end

/-! ## Ordering -/

/-- The fallback `(int)storage() < (int)rhs.storage()` of `variant::operator<`. -/
def variant.rank_lt (lhs rhs : variant) : Bool :=
  decide (lhs.storage.toNat < rhs.storage.toNat)

mutual
/-- The switch of `variant::operator<` (lines 1450-1569), that is, the operator on two
distinct objects. The switch has no `case storage_kind::half_value`, so a left
operand of that kind takes `default: JSONCONS_UNREACHABLE()`, the result `none`. -/
def variant.lt : variant → variant → Option Bool
  | .null_storage t, rhs => some (variant.rank_lt (.null_storage t) rhs)
  | .empty_object_storage t, rhs =>
    match rhs with
    | .empty_object_storage _ => some false
    | .object_storage _ _ => some (decide (rhs.size ≠ 0))
    | _ => some (variant.rank_lt (.empty_object_storage t) rhs)
  | .bool_storage a t, rhs =>
    match rhs with
    | .bool_storage b _ => some (decide (a < b))
    | _ => some (variant.rank_lt (.bool_storage a t) rhs)
  | .int64_storage a t, rhs =>
    match rhs with
    | .int64_storage b _ => some (decide (a < b))
    | .uint64_storage b _ => some (if a ≥ 0 then decide (static_cast_uint64 a < b) else true)
    | .double_storage d _ => some ((double.of_int64 a).lt d)
    | _ => some (variant.rank_lt (.int64_storage a t) rhs)
  | .uint64_storage a t, rhs =>
    match rhs with
    | .int64_storage b _ => some (if b ≥ 0 then decide (a < static_cast_uint64 b) else true)
    | .uint64_storage b _ => some (decide (a < b))
    | .double_storage d _ => some ((double.of_uint64 a).lt d)
    | _ => some (variant.rank_lt (.uint64_storage a t) rhs)
  | .half_storage _ _, _ => none
  | .double_storage a t, rhs =>
    match rhs with
    | .int64_storage b _ => some (a.lt (double.of_int64 b))
    | .uint64_storage b _ => some (a.lt (double.of_uint64 b))
    | .double_storage b _ => some (a.lt b)
    | _ => some (variant.rank_lt (.double_storage a t) rhs)
  | .short_string_storage t a, rhs =>
    match rhs with
    | .short_string_storage _ b => some (string_view_lt a b)
    | .long_string_storage _ b => some (string_view_lt a b)
    | _ => some (variant.rank_lt (.short_string_storage t a) rhs)
  | .long_string_storage t a, rhs =>
    match rhs with
    | .short_string_storage _ b => some (string_view_lt a b)
    | .long_string_storage _ b => some (string_view_lt a b)
    | _ => some (variant.rank_lt (.long_string_storage t a) rhs)
  | .byte_string_storage t a, rhs =>
    match rhs with
    | .byte_string_storage _ b => some (byte_string_view_lt a b)
    | _ => some (variant.rank_lt (.byte_string_storage t a) rhs)
  | .array_storage a t, rhs =>
    match rhs with
    | .array_storage b _ => json_array_lt a b
    | _ => some (variant.rank_lt (.array_storage a t) rhs)
  | .object_storage a t, rhs =>
    match rhs with
    | .empty_object_storage _ => some false
    | .object_storage b _ => json_object_lt a b
    | _ => some (variant.rank_lt (.object_storage a t) rhs)
termination_by lhs rhs => sizeOf lhs + sizeOf rhs
/-- Modelled from the spec: `json_array::operator<` is defined in
`json_container_types.hpp`, outside the sources at hand; arrays are ordered by the
lexicographic comparison of their elements (`std::lexicographical_compare` with
the `<` of the elements), a proper initial segment being less. -/
def json_array_lt : List variant → List variant → Option Bool
  | [], [] => some false
  | [], _ :: _ => some true
  | _ :: _, [] => some false
  | x :: xs, y :: ys =>
    match variant.lt x y with
    | none => none
    | some true => some true
    | some false =>
      match variant.lt y x with
      | none => none
      | some true => some false
      | some false => json_array_lt xs ys
termination_by lhs rhs => sizeOf lhs + sizeOf rhs
/-- Modelled from the spec: the `<` of `key_value` is defined in
`json_container_types.hpp`, outside the sources at hand; members are ordered by
key, then by value. -/
def key_value_lt : List Nat × variant → List Nat × variant → Option Bool
  | (k1, v1), (k2, v2) =>
    if lexicographical_compare k1 k2 then some true
    else if k1 = k2 then variant.lt v1 v2
    else some false
termination_by lhs rhs => sizeOf lhs + sizeOf rhs
/-- Modelled from the spec: `json_object::operator<` is defined in
`json_container_types.hpp`, outside the sources at hand; objects are ordered by the
lexicographic comparison of their (key, value) members in iteration order, a
proper prefix being less. -/
def json_object_lt : List (List Nat × variant) → List (List Nat × variant) → Option Bool
  | [], [] => some false
  | [], _ :: _ => some true
  | _ :: _, [] => some false
  | x :: xs, y :: ys =>
    match key_value_lt x y with
    | none => none
    | some true => some true
    | some false =>
      match key_value_lt y x with
      | none => none
      | some true => some false
      | some false => json_object_lt xs ys
termination_by lhs rhs => sizeOf lhs + sizeOf rhs
end

/-! ## The operators of `variant` and of `basic_json` -/

/-- The operator `variant::operator==` (lines 1289-1437): `true` on one and the same
object, the switch otherwise. -/
def variant.operator_eq (same_object : Bool) (lhs rhs : variant) : Bool :=
  if same_object then true else variant.eq lhs rhs

/-- The operator `variant::operator<` (lines 1444-1570): `false` on one and the same
object, the switch otherwise. -/
def variant.operator_lt (same_object : Bool) (lhs rhs : variant) : Option Bool :=
  if same_object then some false else variant.lt lhs rhs

/-- The class `basic_json`: its only data member is `var_` (line 3048). -/
structure basic_json where
  var_ : variant

namespace basic_json

/-- The friend `operator==` (lines 3304-3307). -/
def eq (same_object : Bool) (lhs rhs : basic_json) : Bool :=
  variant.operator_eq same_object lhs.var_ rhs.var_

/-- The friend `operator!=` (lines 3309-3312). -/
def ne (same_object : Bool) (lhs rhs : basic_json) : Bool :=
  !(eq same_object lhs rhs)

/-- The friend `operator<` (lines 3314-3317). -/
def lt (same_object : Bool) (lhs rhs : basic_json) : Option Bool :=
  variant.operator_lt same_object lhs.var_ rhs.var_

/-- The friend `operator<=` (lines 3319-3322): `!(rhs < lhs)`. -/
def le (same_object : Bool) (lhs rhs : basic_json) : Option Bool :=
  (lt same_object rhs lhs).map (fun r => !r)

/-- The friend `operator>` (lines 3324-3327): `!(lhs <= rhs)`. -/
def gt (same_object : Bool) (lhs rhs : basic_json) : Option Bool :=
  (le same_object lhs rhs).map (fun r => !r)

/-- The friend `operator>=` (lines 3329-3332): `!(lhs < rhs)`. -/
def ge (same_object : Bool) (lhs rhs : basic_json) : Option Bool :=
  (lt same_object lhs rhs).map (fun r => !r)

end basic_json

/-! ## Copy, swap and move -/

namespace variant

/-- The initialiser `Init_(const variant&)` (lines 1634-1677): the copy constructor of the
active storage class copies `ext_type_` and the payload. The result is the newly
constructed variant. -/
def Init_ : variant → variant
  | null_storage t => null_storage t
  | empty_object_storage t => empty_object_storage t
  | bool_storage v t => bool_storage v t
  | int64_storage v t => int64_storage v t
  | uint64_storage v t => uint64_storage v t
  | half_storage v t => half_storage v t
  | double_storage v t => double_storage v t
  | short_string_storage t d => short_string_storage t d
  | long_string_storage t s => long_string_storage t s
  | byte_string_storage t b => byte_string_storage t b
  | object_storage v t => object_storage v t
  | array_storage v t => array_storage v t

/-- The member template `swap_a_b<TypeA, TypeB>` (lines 1571-1579), on the pair
(`*this`, `other`): `tmpB` is move-constructed from `other`, `other` is
re-constructed from `*this`, and `*this` from `tmpB`. A move constructor of a
storage class hands over `ext_type_` and the payload. -/
def swap_a_b (self other : variant) : variant × variant :=
  let tmpB := other
  let other1 := self
  let self1 := tmpB
  (self1, other1)

/-- The member template `swap_a<TypeA>` (lines 1581-1602): dispatch on `other.storage()`. -/
def swap_a (self other : variant) : variant × variant :=
  match other.storage with
  | .null_value => swap_a_b self other
  | .empty_object_value => swap_a_b self other
  | .bool_value => swap_a_b self other
  | .int64_value => swap_a_b self other
  | .uint64_value => swap_a_b self other
  | .half_value => swap_a_b self other
  | .double_value => swap_a_b self other
  | .short_string_value => swap_a_b self other
  | .long_string_value => swap_a_b self other
  | .byte_string_value => swap_a_b self other
  | .array_value => swap_a_b self other
  | .object_value => swap_a_b self other

/-- The member `swap` (lines 1605-1630), on the pair (`*this`, `other`): nothing
happens on one and the same object, otherwise dispatch on `storage()`. -/
def swap (same_object : Bool) (self other : variant) : variant × variant :=
  if same_object then (self, other)
  else
    match self.storage with
    | .null_value => swap_a self other
    | .empty_object_value => swap_a self other
    | .bool_value => swap_a self other
    | .int64_value => swap_a self other
    | .uint64_value => swap_a self other
    | .half_value => swap_a self other
    | .double_value => swap_a self other
    | .short_string_value => swap_a self other
    | .long_string_value => swap_a self other
    | .byte_string_value => swap_a self other
    | .array_value => swap_a self other
    | .object_value => swap_a self other

/-- The initialiser `Init_rv_(variant&&)` (lines 1710-1737) of the move constructor
`variant(variant&&)`: the result is the pair (constructed variant, `val`
afterwards). The eight kinds without a heap payload are copied by `Init_`, which
leaves `val` as it was; for the four others a null variant is constructed and
swapped with `val`. -/
def Init_rv_ (val : variant) : variant × variant :=
  match val.storage with
  | .null_value => (Init_ val, val)
  | .empty_object_value => (Init_ val, val)
  | .half_value => (Init_ val, val)
  | .double_value => (Init_ val, val)
  | .int64_value => (Init_ val, val)
  | .uint64_value => (Init_ val, val)
  | .bool_value => (Init_ val, val)
  | .short_string_value => (Init_ val, val)
  | .long_string_value => swap false (null_storage semantic_tag.none) val
  | .byte_string_value => swap false (null_storage semantic_tag.none) val
  | .array_value => swap false (null_storage semantic_tag.none) val
  | .object_value => swap false (null_storage semantic_tag.none) val

/-- The move assignment `variant::operator=(variant&&)` (lines 1035-1042), on the pair
(`*this`, `val`): a swap, unless both are one and the same object. -/
def move_assign (same_object : Bool) (self val : variant) : variant × variant :=
  if !same_object then swap same_object self val else (self, val)

end variant

namespace basic_json

/-- The member `basic_json::size()` (lines 3334-3347). -/
def size (j : basic_json) : Nat :=
  match j.var_ with
  | .empty_object_storage _ => 0
  | .object_storage val _ => val.length
  | .array_storage val _ => val.length
  | _ => 0

/-- The move constructor `basic_json(basic_json&&)` (lines 3080-3083): the pair
(constructed value, `other` afterwards). -/
def move_construct (other : basic_json) : basic_json × basic_json :=
  let r := variant.Init_rv_ other.var_
  (⟨r.1⟩, ⟨r.2⟩)

/-- The move assignment `basic_json::operator=(basic_json&&)` (lines 3282-3289), on the
pair (`*this`, `rhs`). -/
def move_assign (same_object : Bool) (self rhs : basic_json) : basic_json × basic_json :=
  if !same_object then
    let r := variant.move_assign same_object self.var_ rhs.var_
    (⟨r.1⟩, ⟨r.2⟩)
  else (self, rhs)

end basic_json

/-! ## Vocabulary of the specification -/

namespace storage_kind

/-- The numeric kinds: int64, uint64, half_float and double. -/
def is_numeric : storage_kind → Bool
  | int64_value => true
  | uint64_value => true
  | half_value => true
  | double_value => true
  | _ => false

/-- The string kinds: short_string and long_string. -/
def is_string : storage_kind → Bool
  | short_string_value => true
  | long_string_value => true
  | _ => false

/-- The object kinds: empty_object and object. -/
def is_object : storage_kind → Bool
  | empty_object_value => true
  | object_value => true
  | _ => false

/-- The kinds that own a heap payload, those released by `Destroy_` (lines 1004-1023):
long_string, byte_string, array and object. -/
def is_heap : storage_kind → Bool
  | long_string_value => true
  | byte_string_value => true
  | array_value => true
  | object_value => true
  | _ => false

/-- The pairs of kinds that have a payload comparison of their own: the same
kind, two numeric kinds, two string kinds, or two object kinds. -/
def otherwise_comparable (a b : storage_kind) : Bool :=
  decide (a = b) || (a.is_numeric && b.is_numeric) || (a.is_string && b.is_string) ||
    (a.is_object && b.is_object)

/-- The rank as the specification words it: null < empty_object/object < bool <
int64/uint64 < half/double < string kinds < byte_string < array. -/
def spec_rank : storage_kind → Nat
  | null_value => 0
  | empty_object_value => 1
  | object_value => 1
  | bool_value => 2
  | int64_value => 3
  | uint64_value => 3
  | half_value => 4
  | double_value => 4
  | short_string_value => 5
  | long_string_value => 5
  | byte_string_value => 6
  | array_value => 7

/-- The same rank with the object kinds last: null < bool < int64/uint64 <
half/double < string kinds < byte_string < array < empty_object/object. -/
def rank_objects_last : storage_kind → Nat
  | null_value => 0
  | bool_value => 1
  | int64_value => 2
  | uint64_value => 2
  | half_value => 3
  | double_value => 3
  | short_string_value => 4
  | long_string_value => 4
  | byte_string_value => 5
  | array_value => 6
  | empty_object_value => 7
  | object_value => 7

end storage_kind

/-- A quiet NaN, `std::numeric_limits<double>::quiet_NaN()`. -/
def double.quiet_NaN : double := ⟨0x7FF8000000000000⟩

/-- The double 1.0. -/
def double.one : double := ⟨0x3FF0000000000000⟩

/-- Exactly one of three booleans is true. -/
def exactly_one (x e y : Bool) : Bool :=
  (x && !e && !y) || (!x && e && !y) || (!x && !e && y)

/-! ## Failures -/

/-- The failures that `basic_json.hpp` raises with `JSONCONS_THROW`, named after the
exception thrown, and the failure of an allocation. -/
inductive json_error where
  | key_not_found
  | not_an_object
  | out_of_range
  | domain_error
  | runtime_error
  | invalid_argument
  | bad_alloc
deriving DecidableEq, Repr

/-! ## The discriminant byte -/

namespace variant

/-- The constant `major_type_shift` (line 314). -/
def major_type_shift : Nat := 0x04

/-- The constant `additional_information_mask` (line 315). -/
def additional_information_mask : Nat := (1 <<< 4) - 1

/-- The function `from_storage_and_tag` (lines 317-320); the result is a `uint8_t`. -/
def from_storage_and_tag (storage : storage_kind) (tag : semantic_tag) : Nat :=
  ((storage.toNat <<< major_type_shift) ||| (tag.value % 256)) % 256

/-- The function `to_storage` (lines 322-326): the `uint8_t` that is cast to `storage_kind`. -/
def to_storage (ext_type : Nat) : Nat :=
  ext_type >>> major_type_shift

/-- The function `to_tag` (lines 328-332). -/
def to_tag (ext_type : Nat) : semantic_tag :=
  ⟨ext_type &&& additional_information_mask⟩

/-- The member `ext_type_` that the constructor of the active storage class writes
(lines 346, 361, 374, 401, 427, 452, 478, 507, 549, 631, 723, 810). -/
def ext_type_ : variant → Nat
  | null_storage t => from_storage_and_tag .null_value t
  | empty_object_storage t => from_storage_and_tag .empty_object_value t
  | bool_storage _ t => from_storage_and_tag .bool_value t
  | int64_storage _ t => from_storage_and_tag .int64_value t
  | uint64_storage _ t => from_storage_and_tag .uint64_value t
  | half_storage _ t => from_storage_and_tag .half_value t
  | double_storage _ t => from_storage_and_tag .double_value t
  | short_string_storage t _ => from_storage_and_tag .short_string_value t
  | long_string_storage t _ => from_storage_and_tag .long_string_value t
  | byte_string_storage t _ => from_storage_and_tag .byte_string_value t
  | array_storage _ t => from_storage_and_tag .array_value t
  | object_storage _ t => from_storage_and_tag .object_value t

end variant

/-! ## Short strings and the leaf constructors -/

/-- The class `short_string_storage` (lines 495-537) without its `ext_type_`: the length
byte and the in-place buffer of `capacity` code units. -/
structure short_string_storage where
  length_ : Nat
  data_ : List Nat
deriving DecidableEq, Repr

namespace short_string_storage

/-- The constant `capacity` (line 500):
`(2*sizeof(uint64_t) - 2*sizeof(uint8_t))/sizeof(char_type)`. -/
def capacity (sizeof_char_type : Nat) : Nat := (2 * 8 - 2 * 1) / sizeof_char_type

/-- The constant `max_length` (line 504): `capacity - 1`. -/
def max_length (sizeof_char_type : Nat) : Nat := capacity sizeof_char_type - 1

/-- The constructor (lines 506-513) from the code units at `p` and the `uint8_t` `length`,
which the caller has tested against `max_length`: `length_` is set, `length` code
units are copied to the front of `data_`, and `data_[length]` is set to 0; the
cells behind stay unwritten and are given as 0. -/
def construct (sizeof_char_type : Nat) (p : List Nat) (length : Nat) : short_string_storage :=
  { length_ := length
    data_ := p.take length ++ [0] ++
      List.replicate (capacity sizeof_char_type - (length + 1)) 0 }

/-- The accessor `length()` (lines 523-526). -/
def length (s : short_string_storage) : Nat := s.length_

/-- The accessor `data()` (lines 528-531). -/
def data (s : short_string_storage) : List Nat := s.data_

/-- The view `string_view_type(data(), length())` that `as_string_view` takes of a short
string (line 1227): the first `length()` code units of the buffer. -/
def view (s : short_string_storage) : List Nat := s.data.take s.length

end short_string_storage

/-- Modelled from the spec: `heap_only_string_wrapper` is defined in
`detail/heap_only_string.hpp`, outside the sources at hand; constructed from
(data, length) it owns a copy of the `length` code units at `data`, and its
`data()` and `length()` give that copy. -/
def heap_only_string (data : List Nat) (length : Nat) : List Nat := data.take length

namespace variant

/-- The constructor `variant(semantic_tag)` (lines 889-892). -/
def of_tag (tag : semantic_tag) : variant := empty_object_storage tag

/-- The constructor `variant(null_type, semantic_tag)` (lines 894-897). -/
def of_null (tag : semantic_tag) : variant := null_storage tag

/-- The constructor `variant(bool, semantic_tag)` (lines 899-902). -/
def of_bool (val : Bool) (tag : semantic_tag) : variant := bool_storage val tag

/-- The constructor `variant(int64_t, semantic_tag)` (lines 903-906). -/
def of_int64 (val : Int) (tag : semantic_tag) : variant := int64_storage val tag

/-- The constructor `variant(uint64_t, semantic_tag)` (lines 907-910). -/
def of_uint64 (val : Nat) (tag : semantic_tag) : variant := uint64_storage val tag

/-- The constructor `variant(half_arg_t, uint16_t, semantic_tag)` (lines 912-915). -/
def of_half (val : Nat) (tag : semantic_tag) : variant := half_storage val tag

/-- The constructor `variant(double, semantic_tag)` (lines 917-920). -/
def of_double (val : double) (tag : semantic_tag) : variant := double_storage val tag

/-- The constructor `variant(const char_type*, std::size_t, semantic_tag)` (lines 922-932),
for the code units `s` at the pointer: the short storage when
`length <= short_string_storage::max_length`, the long storage otherwise. The
payload of a short string is given by what `data()` and `length()` expose. -/
def of_string (sizeof_char_type : Nat) (s : List Nat) (length : Nat) (tag : semantic_tag) :
    variant :=
  if length ≤ short_string_storage.max_length sizeof_char_type then
    short_string_storage tag
      (jsoncons.short_string_storage.construct sizeof_char_type s (length % 256)).view
  else
    long_string_storage tag (heap_only_string s length)

/-- The constructor `variant(const byte_string_view&, semantic_tag)` (lines 946-949), for the
bytes of the view. -/
def of_byte_string (bytes : List Nat) (tag : semantic_tag) : variant :=
  byte_string_storage tag bytes

/-- The member `as_string_view` (lines 1222-1233). -/
def as_string_view : variant → Except json_error (List Nat)
  | short_string_storage _ data_ => .ok data_
  | long_string_storage _ s_ => .ok s_
  | _ => .error .domain_error

end variant
/-! ## Copy assignment under allocation failure -/

/-- What the memory of a variant holds: a constructed storage class, or, when its
payload has been destroyed or its constructor has thrown, nothing but the
`ext_type_` byte that was written last, read as a kind and a tag. -/
inductive variant_memory where
  | constructed (v : variant)
  | no_payload (storage : storage_kind) (tag : semantic_tag)

namespace variant

/-- The member `Destroy_` (lines 1004-1023): the payload of a long string, byte string,
array or object is destroyed and deallocated; `ext_type_` is not touched. -/
def Destroy_ (self : variant) : variant_memory :=
  match self.storage with
  | .long_string_value => .no_payload self.storage self.tag
  | .byte_string_value => .no_payload self.storage self.tag
  | .array_value => .no_payload self.storage self.tag
  | .object_value => .no_payload self.storage self.tag
  | _ => .constructed self

/-- The initialiser `Init_(const variant&)` (lines 1634-1677) with the allocator in view:
`alloc_ok` tells whether the allocations of the copy succeed. The copy
constructor of a storage class with a heap payload first writes `ext_type_`
(lines 555, 637, 735, 822) and then allocates (lines 555, 615, 710, 797); when
the allocation fails it throws, and the memory is left with that byte and no
payload. The other kinds do not allocate. The result is the outcome and the
memory of `*this`. -/
def Init_alloc (alloc_ok : Bool) (val : variant) : Except json_error Unit × variant_memory :=
  if val.storage.is_heap && !alloc_ok then
    (.error .bad_alloc, .no_payload val.storage val.tag)
  else
    (.ok (), .constructed (Init_ val))

/-- The copy assignment `variant::operator=(const variant&)` (lines 1025-1033) with the
allocator in view: unless both are one and the same object, `Destroy_()` and then
`Init_(val)`. The result is the outcome, the memory of `*this` and `val`
afterwards. -/
def copy_assign (same_object : Bool) (alloc_ok : Bool) (self val : variant) :
    Except json_error Unit × variant_memory × variant :=
  if !same_object then
    let _destroyed := Destroy_ self
    let r := Init_alloc alloc_ok val
    (r.1, r.2, val)
  else
    (.ok (), .constructed self, val)

end variant

namespace basic_json

/-- The copy assignment `basic_json::operator=(const basic_json&)` (lines 3273-3280) with
the allocator in view. -/
def copy_assign (same_object : Bool) (alloc_ok : Bool) (self rhs : basic_json) :
    Except json_error Unit × variant_memory × basic_json :=
  if !same_object then
    let r := variant.copy_assign same_object alloc_ok self.var_ rhs.var_
    (r.1, r.2.1, ⟨r.2.2⟩)
  else
    (.ok (), .constructed self.var_, rhs)

/-- The copy constructor `basic_json(const basic_json&)` (lines 3070-3073), all
allocations succeeding: the constructed value. -/
def copy_construct (val : basic_json) : basic_json := ⟨variant.Init_ val.var_⟩

/-- The member `basic_json::swap` (lines 4686-4689), on the pair (`*this`, `b`). -/
def swap (same_object : Bool) (self b : basic_json) : basic_json × basic_json :=
  let r := variant.swap same_object self.var_ b.var_
  (⟨r.1⟩, ⟨r.2⟩)

end basic_json
/-! ## Object iterators and keyed access -/

/-- The class `detail::random_access_iterator_wrapper` (lines 42-62) over the iterators
of an object: `it_` is a position in the member sequence, or `none` for a
value-initialised iterator, and `has_value_` tells whether the wrapper holds one. -/
structure random_access_iterator_wrapper where
  it_ : Option Nat
  has_value_ : Bool
deriving DecidableEq, Repr

namespace random_access_iterator_wrapper

/-- The default constructor (lines 58-60). -/
def default : random_access_iterator_wrapper := ⟨none, false⟩

/-- The constructor from an iterator (lines 62-64). -/
def of_iterator (ptr : Nat) : random_access_iterator_wrapper := ⟨some ptr, true⟩

/-- The operator `operator==` (lines 152-162). -/
def eq (lhs rhs : random_access_iterator_wrapper) : Bool :=
  if !lhs.has_value_ || !rhs.has_value_ then
    (if lhs.has_value_ = rhs.has_value_ then true else false)
  else decide (lhs.it_ = rhs.it_)

/-- The operator `operator!=` (lines 164-167). -/
def ne (lhs rhs : random_access_iterator_wrapper) : Bool := !(eq lhs rhs)

end random_access_iterator_wrapper

/-- Modelled from the spec: `json_object::find` is defined in
`json_container_types.hpp`, outside the sources at hand; it returns an iterator to
the matching entry or the end sentinel: here the position of the first member
with the given key, or the number of members. -/
def json_object_find_position (key : List Nat) : List (List Nat × variant) → Nat
  | [] => 0
  | (k, _) :: rest => if k = key then 0 else json_object_find_position key rest + 1

namespace basic_json

/-- The member `storage()` (lines 4644-4647). -/
def storage (j : basic_json) : storage_kind := j.var_.storage

/-- The member `tag()` (lines 4649-4652). -/
def tag (j : basic_json) : semantic_tag := j.var_.tag

/-- The member `create_object_implicitly` (lines 3755-3758), for a stateless allocator:
`var_` becomes an object without members and with tag none. -/
def create_object_implicitly (_j : basic_json) : basic_json :=
  ⟨.object_storage [] semantic_tag.none⟩

/-- The member `object_value()` (lines 5478-5504), const or not: the outcome, and
`*this` afterwards, which an empty_object leaves as an object. -/
def object_value (j : basic_json) :
    Except json_error (List (List Nat × variant)) × basic_json :=
  match j.var_ with
  | .empty_object_storage _ =>
    let j1 := create_object_implicitly j
    match j1.var_ with
    | .object_storage val _ => (.ok val, j1)
    | _ => (.error .domain_error, j1)
  | .object_storage val _ => (.ok val, j)
  | _ => (.error .domain_error, j)

/-- The member `array_value()` (lines 5454-5476). -/
def array_value (j : basic_json) : Except json_error (List variant) :=
  match j.var_ with
  | .array_storage val _ => .ok val
  | _ => .error .domain_error

/-- The member `object_range()` (lines 5404-5428): the pair (`begin()`, `end()`), and
`*this` afterwards. -/
def object_range (j : basic_json) :
    Except json_error (random_access_iterator_wrapper × random_access_iterator_wrapper)
      × basic_json :=
  match j.var_.storage with
  | .empty_object_value =>
    (.ok (random_access_iterator_wrapper.default, random_access_iterator_wrapper.default), j)
  | .object_value =>
    match object_value j with
    | (.ok val, j1) =>
      (.ok (random_access_iterator_wrapper.of_iterator 0,
            random_access_iterator_wrapper.of_iterator val.length), j1)
    | (.error e, j1) => (.error e, j1)
  | _ => (.error .domain_error, j)

/-- The member `at(const string_view_type&)` (lines 4053-4074 and 4100-4121): the outcome,
which on success is the value of the member that `find` points to, and `*this`
afterwards. An iterator that is not `end()` designates a member, so the last arm
of the dereference `it->value()` is never taken. -/
def at_key (j : basic_json) (name : List Nat) : Except json_error variant × basic_json :=
  match j.var_.storage with
  | .empty_object_value => (.error .key_not_found, j)
  | .object_value =>
    match object_value j with
    | (.ok val, j1) =>
      let it := json_object_find_position name val
      match object_range j1 with
      | (.ok r, j2) =>
        if random_access_iterator_wrapper.eq (.of_iterator it) r.2 then
          (.error .key_not_found, j2)
        else
          match val[it]? with
          | some kv => (.ok kv.2, j2)
          | none => (.error .out_of_range, j2)
      | (.error e, j2) => (.error e, j2)
    | (.error e, j1) => (.error e, j1)
  | _ => (.error .not_an_object, j)

/-- The member `at(std::size_t)` (lines 4123-4155): the outcome and `*this` afterwards.
`json_object::at(std::size_t)`, which the object arm calls, is defined in
`json_container_types.hpp`, outside the sources at hand, and is the parameter
`json_object_at`. The element access `array_value().operator[](i)` follows the
bounds test, so its last arm is never taken. -/
def at_index (json_object_at : List (List Nat × variant) → Nat → Except json_error variant)
    (j : basic_json) (i : Nat) : Except json_error variant × basic_json :=
  match j.var_.storage with
  | .array_value =>
    match array_value j with
    | .ok val =>
      if i ≥ val.length then (.error .out_of_range, j)
      else
        match val[i]? with
        | some x => (.ok x, j)
        | none => (.error .out_of_range, j)
    | .error e => (.error e, j)
  | .object_value =>
    match object_value j with
    | (.ok val, j1) => (json_object_at val i, j1)
    | (.error e, j1) => (.error e, j1)
  | _ => (.error .domain_error, j)

/-- The member `find` (lines 4157-4185): the outcome and `*this` afterwards. -/
def find (j : basic_json) (name : List Nat) :
    Except json_error random_access_iterator_wrapper × basic_json :=
  match j.var_.storage with
  | .empty_object_value =>
    match object_range j with
    | (.ok r, j1) => (.ok r.2, j1)
    | (.error e, j1) => (.error e, j1)
  | .object_value =>
    match object_value j with
    | (.ok val, j1) =>
      (.ok (random_access_iterator_wrapper.of_iterator (json_object_find_position name val)), j1)
    | (.error e, j1) => (.error e, j1)
  | _ => (.error .not_an_object, j)

/-- The member `contains` (lines 3574-3587): the outcome and `*this` afterwards. -/
def contains (j : basic_json) (key : List Nat) : Except json_error Bool × basic_json :=
  match j.var_.storage with
  | .object_value =>
    match object_value j with
    | (.ok val, j1) =>
      let it := random_access_iterator_wrapper.of_iterator (json_object_find_position key val)
      match object_range j1 with
      | (.ok r, j2) => (.ok (random_access_iterator_wrapper.ne it r.2), j2)
      | (.error e, j2) => (.error e, j2)
    | (.error e, j1) => (.error e, j1)
  | _ => (.ok false, j)

/-- The member `empty` (lines 3709-3729): the outcome and `*this` afterwards. -/
def empty (j : basic_json) : Except json_error Bool × basic_json :=
  match j.var_ with
  | .byte_string_storage _ bytes => (.ok (decide (bytes.length = 0)), j)
  | .short_string_storage _ data_ => (.ok (decide (data_.length = 0)), j)
  | .long_string_storage _ s_ => (.ok (decide (s_.length = 0)), j)
  | .array_storage _ _ =>
    match array_value j with
    | .ok val => (.ok (decide (val.length = 0)), j)
    | .error e => (.error e, j)
  | .empty_object_storage _ => (.ok true, j)
  | .object_storage _ _ =>
    match object_value j with
    | (.ok val, j1) => (.ok (decide (val.length = 0)), j1)
    | (.error e, j1) => (.error e, j1)
  | _ => (.ok false, j)

/-- The member template `as_integer<T>` (lines 3907-3939). The type `T` is given by its
conversion `cast` from a mathematical integer; `detail::to_integer<T>` and the
conversion of a double to `T` are outside the sources at hand and are the
parameters `to_integer` and `double_cast`. -/
def as_integer (cast : Int → Int) (to_integer : List Nat → Option Int)
    (double_cast : double → Int) (j : basic_json) : Except json_error Int :=
  match j.var_ with
  | .short_string_storage _ s =>
    match to_integer s with
    | some r => .ok r
    | none => .error .runtime_error
  | .long_string_storage _ s =>
    match to_integer s with
    | some r => .ok r
    | none => .error .runtime_error
  | .half_storage v _ => .ok (cast (v : Int))
  | .double_storage v _ => .ok (double_cast v)
  | .int64_storage v _ => .ok (cast v)
  | .uint64_storage v _ => .ok (cast (v : Int))
  | .bool_storage v _ => .ok (cast (if v then 1 else 0))
  | _ => .error .domain_error

/-- The conversion `static_cast<uint64_t>` of a mathematical integer. -/
def cast_uint64 (i : Int) : Int := i % 2 ^ 64

/-- The conversion `static_cast<int64_t>` of a mathematical integer. -/
def cast_int64 (i : Int) : Int := (i + 2 ^ 63) % 2 ^ 64 - 2 ^ 63

/-- The predicate `is_null` (lines 3544-3547). -/
def is_null (j : basic_json) : Bool := decide (j.var_.storage = .null_value)

/-- The predicate `is_string` (lines 3620-3623). -/
def is_string (j : basic_json) : Bool :=
  decide (j.var_.storage = .long_string_value) || decide (j.var_.storage = .short_string_value)

/-- The predicate `is_string_view` (lines 3625-3628). -/
def is_string_view (j : basic_json) : Bool := is_string j

/-- The predicate `is_byte_string` (lines 3630-3633). -/
def is_byte_string (j : basic_json) : Bool := decide (j.var_.storage = .byte_string_value)

/-- The predicate `is_byte_string_view` (lines 3635-3638). -/
def is_byte_string_view (j : basic_json) : Bool := is_byte_string j

/-- The predicate `is_bignum` (lines 3640-3653); `detail::is_base10` is outside the sources
at hand and is the parameter `is_base10`. -/
def is_bignum (is_base10 : List Nat → Bool) (j : basic_json) : Except json_error Bool :=
  match j.storage with
  | .short_string_value =>
    match j.var_.as_string_view with
    | .ok s => .ok (is_base10 s)
    | .error e => .error e
  | .long_string_value =>
    match j.var_.as_string_view with
    | .ok s => .ok (is_base10 s)
    | .error e => .error e
  | .int64_value => .ok true
  | .uint64_value => .ok true
  | _ => .ok false

/-- The predicate `is_bool` (lines 3655-3658). -/
def is_bool (j : basic_json) : Bool := decide (j.var_.storage = .bool_value)

/-- The predicate `is_object` (lines 3660-3663). -/
def is_object (j : basic_json) : Bool :=
  decide (j.var_.storage = .object_value) || decide (j.var_.storage = .empty_object_value)

/-- The predicate `is_array` (lines 3665-3668). -/
def is_array (j : basic_json) : Bool := decide (j.var_.storage = .array_value)

/-- The predicate `is_int64` (lines 3670-3673); `as_integer<uint64_t>()` is evaluated only
behind the test for the uint64 kind. -/
def is_int64 (to_integer : List Nat → Option Int) (double_cast : double → Int)
    (j : basic_json) : Except json_error Bool :=
  if j.var_.storage = .int64_value then .ok true
  else if j.var_.storage = .uint64_value then
    match as_integer cast_uint64 to_integer double_cast j with
    | .ok v => .ok (decide (v ≤ cast_uint64 (2 ^ 63 - 1)))
    | .error e => .error e
  else .ok false

/-- The predicate `is_uint64` (lines 3675-3678); `as_integer<int64_t>()` is evaluated only
behind the test for the int64 kind. -/
def is_uint64 (to_integer : List Nat → Option Int) (double_cast : double → Int)
    (j : basic_json) : Except json_error Bool :=
  if j.var_.storage = .uint64_value then .ok true
  else if j.var_.storage = .int64_value then
    match as_integer cast_int64 to_integer double_cast j with
    | .ok v => .ok (decide (v ≥ 0))
    | .error e => .error e
  else .ok false

/-- The predicate `is_half` (lines 3680-3683). -/
def is_half (j : basic_json) : Bool := decide (j.var_.storage = .half_value)

/-- The predicate `is_double` (lines 3685-3688). -/
def is_double (j : basic_json) : Bool := decide (j.var_.storage = .double_value)

/-- The predicate `is_number` (lines 3690-3707); the enumerators `bigint`, `bigdec` and
`bigfloat` of `semantic_tag` are outside the sources at hand and are parameters. -/
def is_number (bigint bigdec bigfloat : semantic_tag) (j : basic_json) : Bool :=
  match j.var_.storage with
  | .int64_value => true
  | .uint64_value => true
  | .half_value => true
  | .double_value => true
  | .short_string_value =>
    decide (j.var_.tag = bigint) || decide (j.var_.tag = bigdec) || decide (j.var_.tag = bigfloat)
  | .long_string_value =>
    decide (j.var_.tag = bigint) || decide (j.var_.tag = bigdec) || decide (j.var_.tag = bigfloat)
  | _ => false

end basic_json

/-! ## Values that compare equal to themselves -/

mutual
/-- A value is regular when no double in it, at any depth, is a NaN, and no object in
it has two members with the same key. -/
def variant.regular : variant → Bool
  | .double_storage d _ => !d.isNaN
  | .array_storage val _ => regular_elements val
  | .object_storage val _ => decide ((val.map Prod.fst).Nodup) && regular_members val
  | _ => true
/-- All elements of an array are regular. -/
def regular_elements : List variant → Bool
  | [] => true
  | x :: xs => x.regular && regular_elements xs
/-- All member values of an object are regular. -/
def regular_members : List (List Nat × variant) → Bool
  | [] => true
  | (_, v) :: rest => v.regular && regular_members rest
end
/-! ## Values in memory and the deep copy -/

/-- A variant as it lies in memory (lines 495-887). The eight kinds without a heap
payload hold their whole representation in place. `long_string_storage` holds
the pointer of its `heap_only_string_wrapper`, and `byte_string_storage`,
`array_storage` and `object_storage` hold `ptr_`: the address of the payload. -/
inductive stored_variant where
  | in_place (v : variant)
  | long_string_storage (tag : semantic_tag) (s_ : Nat)
  | byte_string_storage (tag : semantic_tag) (ptr_ : Nat)
  | array_storage (ptr_ : Nat) (tag : semantic_tag)
  | object_storage (ptr_ : Nat) (tag : semantic_tag)

/-- What lies at an address of the heap: the code units of a long string, the
bytes of a byte string, the elements of a `json_array` or the members of a
`json_object`. -/
inductive heap_object where
  | chars (s : List Nat)
  | bytes (s : List Nat)
  | json_array (elements_ : List stored_variant)
  | json_object (members_ : List (List Nat × stored_variant))

/-- The heap: the objects allocated so far, each at the address that is its
position; an allocation takes the next address. -/
abbrev heap := List heap_object

namespace stored_variant

/-- The accessor `storage()` of a variant in memory. -/
def storage : stored_variant → storage_kind
  | in_place v => v.storage
  | long_string_storage _ _ => .long_string_value
  | byte_string_storage _ _ => .byte_string_value
  | array_storage _ _ => .array_value
  | object_storage _ _ => .object_value

/-- The accessor `tag()` of a variant in memory. -/
def tag : stored_variant → semantic_tag
  | in_place v => v.tag
  | long_string_storage t _ => t
  | byte_string_storage t _ => t
  | array_storage _ t => t
  | object_storage _ t => t

/-- The values of a sequence of elements, each read by `read`. -/
def read_elements (read : stored_variant → Option variant) :
    List stored_variant → Option (List variant)
  | [] => some []
  | x :: xs =>
    match read x with
    | none => none
    | some v =>
      match read_elements read xs with
      | none => none
      | some vs => some (v :: vs)

/-- The values of a sequence of members, each value read by `read`. -/
def read_members (read : stored_variant → Option variant) :
    List (List Nat × stored_variant) → Option (List (List Nat × variant))
  | [] => some []
  | (k, x) :: rest =>
    match read x with
    | none => none
    | some v =>
      match read_members read rest with
      | none => none
      | some vs => some ((k, v) :: vs)

/-- The value that a variant in memory stands for: its kind, tag and content,
followed through the heap to at most `fuel` levels. There is none when a pointer
does not lead to a payload of its kind, or when the levels run out. -/
def read : Nat → heap → stored_variant → Option variant
  | 0, _, _ => none
  | _ + 1, _, in_place v => if v.storage.is_heap then none else some v
  | _ + 1, h, long_string_storage t p =>
    match h[p]? with
    | some (.chars s) => some (.long_string_storage t s)
    | _ => none
  | _ + 1, h, byte_string_storage t p =>
    match h[p]? with
    | some (.bytes s) => some (.byte_string_storage t s)
    | _ => none
  | fuel + 1, h, array_storage p t =>
    match h[p]? with
    | some (.json_array xs) =>
      match read_elements (read fuel h) xs with
      | some vs => some (.array_storage vs t)
      | none => none
    | _ => none
  | fuel + 1, h, object_storage p t =>
    match h[p]? with
    | some (.json_object ms) =>
      match read_members (read fuel h) ms with
      | some vs => some (.object_storage vs t)
      | none => none
    | _ => none

/-- Modelled from the spec: the copy constructor of `json_array` is defined in
`json_container_types.hpp`, outside the sources at hand; it copy-constructs every
element in turn, which `copy` does for one element on the heap so far. -/
def copy_elements (copy : heap → stored_variant → Option (stored_variant × heap)) :
    heap → List stored_variant → Option (List stored_variant × heap)
  | h, [] => some ([], h)
  | h, x :: xs =>
    match copy h x with
    | none => none
    | some (y, h1) =>
      match copy_elements copy h1 xs with
      | none => none
      | some (ys, h2) => some (y :: ys, h2)

/-- Modelled from the spec: the copy constructor of `json_object` is defined in
`json_container_types.hpp`, outside the sources at hand; it copies every key and
copy-constructs every member value in turn. -/
def copy_members (copy : heap → stored_variant → Option (stored_variant × heap)) :
    heap → List (List Nat × stored_variant) → Option (List (List Nat × stored_variant) × heap)
  | h, [] => some ([], h)
  | h, (k, x) :: rest =>
    match copy h x with
    | none => none
    | some (y, h1) =>
      match copy_members copy h1 rest with
      | none => none
      | some (ys, h2) => some ((k, y) :: ys, h2)

/-- The initialiser `Init_(const variant&)` (lines 1634-1677) on variants in memory, all
allocations succeeding: the constructed variant and the heap afterwards. The copy
constructors of the storage classes with a heap payload (lines 554-557, 636-640,
734-738, 821-825) copy `ext_type_` and `create` a new payload, copy-constructed
from the payload of `val`, at a newly allocated address; the other kinds are
copied in place. The recursion through the elements is bounded by `fuel`. -/
def Init_ : Nat → heap → stored_variant → Option (stored_variant × heap)
  | 0, _, _ => none
  | _ + 1, h, in_place v => some (in_place v, h)
  | _ + 1, h, long_string_storage t p =>
    match h[p]? with
    | some (.chars s) => some (long_string_storage t h.length, h ++ [.chars s])
    | _ => none
  | _ + 1, h, byte_string_storage t p =>
    match h[p]? with
    | some (.bytes s) => some (byte_string_storage t h.length, h ++ [.bytes s])
    | _ => none
  | fuel + 1, h, array_storage p t =>
    match h[p]? with
    | some (.json_array xs) =>
      match copy_elements (Init_ fuel) h xs with
      | some (ys, h1) => some (array_storage h1.length t, h1 ++ [.json_array ys])
      | none => none
    | _ => none
  | fuel + 1, h, object_storage p t =>
    match h[p]? with
    | some (.json_object ms) =>
      match copy_members (Init_ fuel) h ms with
      | some (ys, h1) => some (object_storage h1.length t, h1 ++ [.json_object ys])
      | none => none
    | _ => none

/-- What the copy of one variant, reading as `v`, yields on the heap `h`: a variant
`b` and new objects behind `h`, such that `b` reads as `v` in every heap that agrees
with the result on the new addresses. -/
def copies_to (fuel : Nat) (h : heap) (a : stored_variant) (v : variant) : Prop :=
  ∃ (b : stored_variant) (new : heap),
    Init_ fuel h a = some (b, h ++ new) ∧
    ∀ h2 : heap,
      (∀ p, h.length ≤ p → p < (h ++ new).length → h2[p]? = (h ++ new)[p]?) →
      read fuel h2 b = some v

end stored_variant

/-- The heap of the example of a nested array: `[1, 2]` at address 0 and
`[[1, 2], 3]` at address 1. -/
def nested_array_heap : heap :=
  [.json_array [.in_place (.int64_storage 1 semantic_tag.none),
      .in_place (.int64_storage 2 semantic_tag.none)],
   .json_array [.array_storage 0 semantic_tag.none,
      .in_place (.int64_storage 3 semantic_tag.none)]]

/-- The value `[[1, 2], 3]`. -/
def nested_array_value : variant :=
  .array_storage [.array_storage [.int64_storage 1 semantic_tag.none,
      .int64_storage 2 semantic_tag.none] semantic_tag.none,
    .int64_storage 3 semantic_tag.none] semantic_tag.none

/-- The heap of the example after the copy: the copy of the nested array at
address 2 and the copy of the outer array at address 3. -/
def nested_array_heap_copied : heap :=
  nested_array_heap ++
    [.json_array [.in_place (.int64_storage 1 semantic_tag.none),
        .in_place (.int64_storage 2 semantic_tag.none)],
     .json_array [.array_storage 2 semantic_tag.none,
        .in_place (.int64_storage 3 semantic_tag.none)]]

/-- The heap of the example after the element 1 inside the nested array of the copy
has been replaced by 9. -/
def nested_array_heap_mutated : heap :=
  nested_array_heap_copied.set 2
    (.json_array [.in_place (.int64_storage 9 semantic_tag.none),
        .in_place (.int64_storage 2 semantic_tag.none)])

/-! ## Byte-string view and array mutations -/

namespace variant

/-- The member `as_byte_string_view` (lines 1278-1287). -/
def as_byte_string_view : variant → Except json_error (List Nat)
  | byte_string_storage _ bytes => .ok bytes
  | _ => .error .domain_error

end variant

/-- Modelled from the spec: `json_array::push_back` is defined in
`json_container_types.hpp`, outside the sources at hand; it appends the value. -/
def json_array_push_back (elements : List variant) (val : variant) : List variant :=
  elements ++ [val]

/-- Modelled from the spec: `json_array::insert(pos, val)` is defined in
`json_container_types.hpp`, outside the sources at hand; it inserts the value in
front of the position and returns the position of the new element. -/
def json_array_insert (elements : List variant) (pos : Nat) (val : variant) :
    Nat × List variant :=
  (pos, elements.take pos ++ [val] ++ elements.drop pos)

/-- Modelled from the spec: `json_array::erase(pos)` is defined in
`json_container_types.hpp`, outside the sources at hand; it removes the element at
the position. -/
def json_array_erase (elements : List variant) (pos : Nat) : List variant :=
  elements.eraseIdx pos

/-- Modelled from the spec: `json_array::resize(n)` is defined in
`json_container_types.hpp`, outside the sources at hand; it cuts the sequence to `n`
elements or fills it up to `n` with default-constructed values, which are empty
objects with tag none (lines 3050-3053). -/
def json_array_resize (elements : List variant) (n : Nat) : List variant :=
  elements.take n ++
    List.replicate (n - elements.length) (variant.empty_object_storage semantic_tag.none)

namespace basic_json

/-- The default constructor `basic_json()` (lines 3050-3053). -/
def default_construct : basic_json := ⟨variant.of_tag semantic_tag.none⟩

/-- The member `push_back` (lines 4696-4709): the outcome and `*this` afterwards. -/
def push_back (j : basic_json) (val : variant) : Except json_error Unit × basic_json :=
  match j.var_ with
  | .array_storage elements t => (.ok (), ⟨.array_storage (json_array_push_back elements val) t⟩)
  | _ => (.error .domain_error, j)

/-- The member `insert(const_array_iterator, T&&)` (lines 4553-4567): the outcome, which
on success is the position of the new element, and `*this` afterwards. -/
def insert (j : basic_json) (pos : Nat) (val : variant) : Except json_error Nat × basic_json :=
  match j.var_ with
  | .array_storage elements t =>
    (.ok (json_array_insert elements pos val).1,
      ⟨.array_storage (json_array_insert elements pos val).2 t⟩)
  | _ => (.error .domain_error, j)

/-- The member `erase(const_array_iterator)` (lines 4310-4321): the outcome and `*this`
afterwards. -/
def erase (j : basic_json) (pos : Nat) : Except json_error Unit × basic_json :=
  match j.var_ with
  | .array_storage elements t => (.ok (), ⟨.array_storage (json_array_erase elements pos) t⟩)
  | _ => (.error .domain_error, j)

/-- The member `resize(std::size_t)` (lines 3783-3793): the outcome and `*this`
afterwards. -/
def resize (j : basic_json) (n : Nat) : Except json_error Unit × basic_json :=
  match j.var_ with
  | .array_storage elements t => (.ok (), ⟨.array_storage (json_array_resize elements n) t⟩)
  | _ => (.ok (), j)

/-- The member `clear` (lines 4265-4278): the outcome and `*this` afterwards;
`json_array::clear` and `json_object::clear` leave the container without elements. -/
def clear (j : basic_json) : Except json_error Unit × basic_json :=
  match j.var_ with
  | .array_storage _ t => (.ok (), ⟨.array_storage [] t⟩)
  | .object_storage _ t => (.ok (), ⟨.object_storage [] t⟩)
  | _ => (.ok (), j)

end basic_json
/-! ## Object mutations -/

/-- The ordering policy of the object container, fixed at the type level: keys kept
sorted, or kept in the order of first insertion. -/
inductive ordering_policy where
  | sorted
  | preserve_order
deriving DecidableEq, Repr

/-- Modelled from the spec: where a new member goes. Under the sorted policy it is
put in front of the first member with a greater key; under the preserve-order
policy it is put at the end. -/
def json_object_insert_new (policy : ordering_policy) (key : List Nat) (value : variant) :
    List (List Nat × variant) → List (List Nat × variant)
  | [] => [(key, value)]
  | (k, v) :: rest =>
    match policy with
    | .sorted =>
      if lexicographical_compare key k then (key, value) :: (k, v) :: rest
      else (k, v) :: json_object_insert_new policy key value rest
    | .preserve_order => (k, v) :: json_object_insert_new policy key value rest

/-- Modelled from the spec: the update in place of the member with the given key; its
position does not change. -/
def json_object_assign (key : List Nat) (value : variant) :
    List (List Nat × variant) → List (List Nat × variant)
  | [] => []
  | (k, v) :: rest =>
    if k = key then (k, value) :: rest else (k, v) :: json_object_assign key value rest

/-- Modelled from the spec: `json_object::insert_or_assign` is defined in
`json_container_types.hpp`, outside the sources at hand; it returns the position of
the member and `true` if a new member was created, `false` if the value of an
existing member was overwritten. The result is that pair and the members
afterwards. -/
def json_object_insert_or_assign (policy : ordering_policy) (key : List Nat) (value : variant)
    (members : List (List Nat × variant)) : (Nat × Bool) × List (List Nat × variant) :=
  match json_object_find key members with
  | some _ =>
    ((json_object_find_position key members, false), json_object_assign key value members)
  | none =>
    ((json_object_find_position key (json_object_insert_new policy key value members), true),
      json_object_insert_new policy key value members)

/-- Modelled from the spec: `json_object::try_emplace` is defined in
`json_container_types.hpp`, outside the sources at hand; it constructs a new member
only if the key is absent and never changes the value of an existing member. -/
def json_object_try_emplace (policy : ordering_policy) (key : List Nat) (value : variant)
    (members : List (List Nat × variant)) : (Nat × Bool) × List (List Nat × variant) :=
  match json_object_find key members with
  | some _ => ((json_object_find_position key members, false), members)
  | none =>
    ((json_object_find_position key (json_object_insert_new policy key value members), true),
      json_object_insert_new policy key value members)

/-- Modelled from the spec: `json_object::merge` is defined in
`json_container_types.hpp`, outside the sources at hand; it adds the members of the
source whose keys are not already present and leaves existing keys untouched. -/
def json_object_merge (policy : ordering_policy) (members : List (List Nat × variant)) :
    List (List Nat × variant) → List (List Nat × variant)
  | [] => members
  | (k, v) :: rest =>
    json_object_merge policy (json_object_try_emplace policy k v members).2 rest

/-- Modelled from the spec: `json_object::merge_or_update` is defined in
`json_container_types.hpp`, outside the sources at hand; it adds the members of the
source for missing keys and overwrites the values for existing keys. -/
def json_object_merge_or_update (policy : ordering_policy)
    (members : List (List Nat × variant)) :
    List (List Nat × variant) → List (List Nat × variant)
  | [] => members
  | (k, v) :: rest =>
    json_object_merge_or_update policy (json_object_insert_or_assign policy k v members).2 rest

namespace basic_json

/-- The member `insert_or_assign` (lines 4353-4368): the outcome, which on success is the
iterator to the member and the flag `inserted`, and `*this` afterwards. -/
def insert_or_assign (policy : ordering_policy) (j : basic_json) (name : List Nat)
    (val : variant) :
    Except json_error (random_access_iterator_wrapper × Bool) × basic_json :=
  match j.var_.storage with
  | .empty_object_value =>
    match object_value (create_object_implicitly j) with
    | (.ok members, j1) =>
      let r := json_object_insert_or_assign policy name val members
      (.ok (.of_iterator r.1.1, r.1.2), ⟨.object_storage r.2 j1.var_.tag⟩)
    | (.error e, j1) => (.error e, j1)
  | .object_value =>
    match object_value j with
    | (.ok members, j1) =>
      let r := json_object_insert_or_assign policy name val members
      (.ok (.of_iterator r.1.1, r.1.2), ⟨.object_storage r.2 j1.var_.tag⟩)
    | (.error e, j1) => (.error e, j1)
  | _ => (.error .not_an_object, j)

/-- The member `merge(const basic_json&)` (lines 4389-4403): the outcome, `*this`
afterwards and `source` afterwards. An empty_object receiver is made an object
before `source.object_value()` is evaluated. -/
def merge (policy : ordering_policy) (j source : basic_json) :
    Except json_error Unit × basic_json × basic_json :=
  match j.var_.storage with
  | .empty_object_value =>
    match object_value (create_object_implicitly j) with
    | (.ok members, j1) =>
      match object_value source with
      | (.ok other, s1) =>
        (.ok (), ⟨.object_storage (json_object_merge policy members other) j1.var_.tag⟩, s1)
      | (.error e, s1) => (.error e, j1, s1)
    | (.error e, j1) => (.error e, j1, source)
  | .object_value =>
    match object_value j with
    | (.ok members, j1) =>
      match object_value source with
      | (.ok other, s1) =>
        (.ok (), ⟨.object_storage (json_object_merge policy members other) j1.var_.tag⟩, s1)
      | (.error e, s1) => (.error e, j1, s1)
    | (.error e, j1) => (.error e, j1, source)
  | _ => (.error .domain_error, j, source)

/-- The member `merge_or_update(const basic_json&)` (lines 4455-4469): the outcome, `*this`
afterwards and `source` afterwards. An empty_object receiver is made an object
before `source.object_value()` is evaluated. -/
def merge_or_update (policy : ordering_policy) (j source : basic_json) :
    Except json_error Unit × basic_json × basic_json :=
  match j.var_.storage with
  | .empty_object_value =>
    match object_value (create_object_implicitly j) with
    | (.ok members, j1) =>
      match object_value source with
      | (.ok other, s1) =>
        (.ok (),
          ⟨.object_storage (json_object_merge_or_update policy members other) j1.var_.tag⟩, s1)
      | (.error e, s1) => (.error e, j1, s1)
    | (.error e, j1) => (.error e, j1, source)
  | .object_value =>
    match object_value j with
    | (.ok members, j1) =>
      match object_value source with
      | (.ok other, s1) =>
        (.ok (),
          ⟨.object_storage (json_object_merge_or_update policy members other) j1.var_.tag⟩, s1)
      | (.error e, s1) => (.error e, j1, s1)
    | (.error e, j1) => (.error e, j1, source)
  | _ => (.error .domain_error, j, source)

/-- The keyed assignment `v[name] = val`: the non-const `operator[]` (lines 3359-3373) makes an
empty_object an object and returns a proxy on `*this` and the key, or fails with
not_an_object; the assignment to the proxy (lines 2184-2189) calls
`insert_or_assign(key_, val)` on `parent_.evaluate_with_default()`, which for a
`basic_json` parent is `*this` (lines 4081-4084). The result is the outcome and
`*this` afterwards. -/
def subscript_assign (policy : ordering_policy) (j : basic_json) (name : List Nat)
    (val : variant) : Except json_error Unit × basic_json :=
  match j.var_.storage with
  | .empty_object_value =>
    match insert_or_assign policy (create_object_implicitly j) name val with
    | (.ok _, j1) => (.ok (), j1)
    | (.error e, j1) => (.error e, j1)
  | .object_value =>
    match insert_or_assign policy j name val with
    | (.ok _, j1) => (.ok (), j1)
    | (.error e, j1) => (.error e, j1)
  | _ => (.error .not_an_object, j)

end basic_json

/-- The number of members of an object that have the given key. -/
def json_object_count (key : List Nat) (members : List (List Nat × variant)) : Nat :=
  members.countP (fun kv => decide (kv.1 = key))

/-- The entries that a value holds: the members of its object, and none for an
empty_object or any other kind (lines 5404-5428: the range of an empty_object is
empty). -/
def basic_json.entries (j : basic_json) : List (List Nat × variant) :=
  match j.var_ with
  | .object_storage val _ => val
  | _ => []

/-! ## Objects whose keys are distinct -/

mutual
/-- The keys of every object in the value, at any depth, are distinct: the
invariant that the object container keeps. -/
def variant.unique_keys : variant → Bool
  | .array_storage val _ => unique_keys_elements val
  | .object_storage val _ => decide ((val.map Prod.fst).Nodup) && unique_keys_members val
  | _ => true
/-- All elements of an array have distinct keys in their objects. -/
def unique_keys_elements : List variant → Bool
  | [] => true
  | x :: xs => x.unique_keys && unique_keys_elements xs
/-- All member values of an object have distinct keys in their objects. -/
def unique_keys_members : List (List Nat × variant) → Bool
  | [] => true
  | (_, v) :: rest => v.unique_keys && unique_keys_members rest
end

/-! ## Implicit creation of the object -/

/-- Modelled from the spec: `json_object::reserve` is defined in
`json_container_types.hpp`, outside the sources at hand; it changes the capacity
and no member. -/
def json_object_reserve (members : List (List Nat × variant)) (_n : Nat) :
    List (List Nat × variant) :=
  members

/-- Modelled from the spec: `json_array::reserve` is defined in
`json_container_types.hpp`, outside the sources at hand; it changes the capacity
and no element. -/
def json_array_reserve (elements : List variant) (_n : Nat) : List variant :=
  elements

namespace basic_json

/-- The member `try_emplace(name, args...)` (lines 4370-4385): the outcome, which on success is
the iterator to the member and the flag `inserted`, and `*this` afterwards. -/
def try_emplace (policy : ordering_policy) (j : basic_json) (name : List Nat)
    (val : variant) :
    Except json_error (random_access_iterator_wrapper × Bool) × basic_json :=
  match j.var_.storage with
  | .empty_object_value =>
    match object_value (create_object_implicitly j) with
    | (.ok members, j1) =>
      let r := json_object_try_emplace policy name val members
      (.ok (.of_iterator r.1.1, r.1.2), ⟨.object_storage r.2 j1.var_.tag⟩)
    | (.error e, j1) => (.error e, j1)
  | .object_value =>
    match object_value j with
    | (.ok members, j1) =>
      let r := json_object_try_emplace policy name val members
      (.ok (.of_iterator r.1.1, r.1.2), ⟨.object_storage r.2 j1.var_.tag⟩)
    | (.error e, j1) => (.error e, j1)
  | _ => (.error .not_an_object, j)

/-- The member `reserve` (lines 3760-3782): the outcome and `*this` afterwards. -/
def reserve (j : basic_json) (n : Nat) : Except json_error Unit × basic_json :=
  match j.var_ with
  | .array_storage val t => (.ok (), ⟨.array_storage (json_array_reserve val n) t⟩)
  | .empty_object_storage _ =>
    match object_value (create_object_implicitly j) with
    | (.ok members, j1) => (.ok (), ⟨.object_storage (json_object_reserve members n) j1.var_.tag⟩)
    | (.error e, j1) => (.error e, j1)
  | .object_storage val t => (.ok (), ⟨.object_storage (json_object_reserve val n) t⟩)
  | _ => (.ok (), j)

/-- The non-const `operator[](const string_view_type&)` (lines 3359-3373): the outcome, which
on success is the proxy on `*this`, held here by its key, and `*this` afterwards. -/
def subscript (j : basic_json) (name : List Nat) : Except json_error (List Nat) × basic_json :=
  match j.var_.storage with
  | .empty_object_value => (.ok name, create_object_implicitly j)
  | .object_value => (.ok name, j)
  | _ => (.error .not_an_object, j)

/-- The member `as_double` (lines 3941-3963); `detail::string_to_double` is outside the
sources at hand and is the parameter `to_double`, which fails with
`std::invalid_argument`. -/
def as_double (to_double : List Nat → Option double) (j : basic_json) :
    Except json_error double :=
  match j.var_ with
  | .short_string_storage _ s =>
    match to_double s with
    | some r => .ok r
    | none => .error .invalid_argument
  | .long_string_storage _ s =>
    match to_double s with
    | some r => .ok r
    | none => .error .invalid_argument
  | .half_storage v _ => .ok (decode_half v)
  | .double_storage v _ => .ok v
  | .int64_storage v _ => .ok (double.of_int64 v)
  | .uint64_storage v _ => .ok (double.of_uint64 v)
  | _ => .error .invalid_argument

end basic_json

/-! ## The order of the iterator wrapper and its conversion -/

namespace random_access_iterator_wrapper

/-- The `<` of the wrapped iterators, which are positions in one sequence; a
value-initialised iterator is not less than any. -/
def iterator_lt : Option Nat → Option Nat → Bool
  | some a, some b => decide (a < b)
  | _, _ => false

/-- The converting constructor (lines 71-76), from a wrapper over a convertible iterator
type: `has_value_` is set whatever `other` holds. -/
def convert (other : random_access_iterator_wrapper) : random_access_iterator_wrapper :=
  ⟨other.it_, true⟩

/-- The operator `operator<` (lines 169-179). -/
def lt (lhs rhs : random_access_iterator_wrapper) : Bool :=
  if !lhs.has_value_ || !rhs.has_value_ then
    (if lhs.has_value_ = rhs.has_value_ then false
     else (if lhs.has_value_ then false else true))
  else iterator_lt lhs.it_ rhs.it_

end random_access_iterator_wrapper

/-! ## The events of `dump` -/

/-- The calls that `dump_noflush` makes on a content handler (lines 5508-5576), each with its
arguments; the serialization context and the error code are left out. -/
inductive json_event where
  | string_value (s : List Nat) (tag : semantic_tag)
  | byte_string_value (b : List Nat) (tag : semantic_tag)
  | half_value (v : Nat) (tag : semantic_tag)
  | double_value (v : double) (tag : semantic_tag)
  | int64_value (v : Int) (tag : semantic_tag)
  | uint64_value (v : Nat) (tag : semantic_tag)
  | bool_value (v : Bool) (tag : semantic_tag)
  | null_value (tag : semantic_tag)
  | begin_object (length : Nat) (tag : semantic_tag)
  | end_object
  | key (name : List Nat)
  | begin_array (length : Nat) (tag : semantic_tag)
  | end_array
deriving DecidableEq, Repr

/-- Modelled from the spec: the class `basic_json_content_handler` is defined in
`json_content_handler.hpp`, outside the sources at hand; a handler is held by its
state and by the function that receives an event in a state and gives the
answer, whether to continue, and the state afterwards. -/
structure basic_json_content_handler (σ : Type) where
  visit : json_event → σ → Bool × σ

mutual
/-- The member `dump_noflush` (lines 5508-5576), on the content of a value: the state of the
handler afterwards. The answer of the handler is read after `begin_object` and
`begin_array` only, into `more`, which the loop does not update. -/
def variant.dump_noflush {σ : Type} (handler : basic_json_content_handler σ) :
    variant → σ → σ
  | .short_string_storage t s, h => (handler.visit (.string_value s t) h).2
  | .long_string_storage t s, h => (handler.visit (.string_value s t) h).2
  | .byte_string_storage t b, h => (handler.visit (.byte_string_value b t) h).2
  | .half_storage v t, h => (handler.visit (.half_value v t) h).2
  | .double_storage v t, h => (handler.visit (.double_value v t) h).2
  | .int64_storage v t, h => (handler.visit (.int64_value v t) h).2
  | .uint64_storage v t, h => (handler.visit (.uint64_value v t) h).2
  | .bool_storage v t, h => (handler.visit (.bool_value v t) h).2
  | .null_storage t, h => (handler.visit (.null_value t) h).2
  | .empty_object_storage t, h =>
    (handler.visit .end_object (handler.visit (.begin_object 0 t) h).2).2
  | .object_storage val t, h =>
    if (handler.visit (.begin_object val.length t) h).1 then
      (handler.visit .end_object
        (dump_noflush_members handler val (handler.visit (.begin_object val.length t) h).2)).2
    else (handler.visit (.begin_object val.length t) h).2
  | .array_storage val t, h =>
    if (handler.visit (.begin_array val.length t) h).1 then
      (handler.visit .end_array
        (dump_noflush_elements handler val (handler.visit (.begin_array val.length t) h).2)).2
    else (handler.visit (.begin_array val.length t) h).2
/-- The loop of `dump_noflush` over the elements of an array, entered with `more` true. -/
def dump_noflush_elements {σ : Type} (handler : basic_json_content_handler σ) :
    List variant → σ → σ
  | [], h => h
  | x :: xs, h => dump_noflush_elements handler xs (variant.dump_noflush handler x h)
/-- The loop of `dump_noflush` over the members of an object, entered with `more` true. -/
def dump_noflush_members {σ : Type} (handler : basic_json_content_handler σ) :
    List (List Nat × variant) → σ → σ
  | [], h => h
  | (k, v) :: rest, h =>
    dump_noflush_members handler rest
      (variant.dump_noflush handler v (handler.visit (.key k) h).2)
end

/-- The member `dump_noflush` (lines 5508-5576) of `basic_json`. -/
def basic_json.dump_noflush {σ : Type} (handler : basic_json_content_handler σ)
    (j : basic_json) (h : σ) : σ :=
  variant.dump_noflush handler j.var_ h

/-- The handler that records every event and always asks to continue. -/
def recording_handler : basic_json_content_handler (List json_event) :=
  ⟨fun e h => (true, h ++ [e])⟩

mutual
/-- The events of a value, in the order in which a handler that always asks to
continue receives them. -/
def variant.events : variant → List json_event
  | .short_string_storage t s => [.string_value s t]
  | .long_string_storage t s => [.string_value s t]
  | .byte_string_storage t b => [.byte_string_value b t]
  | .half_storage v t => [.half_value v t]
  | .double_storage v t => [.double_value v t]
  | .int64_storage v t => [.int64_value v t]
  | .uint64_storage v t => [.uint64_value v t]
  | .bool_storage v t => [.bool_value v t]
  | .null_storage t => [.null_value t]
  | .empty_object_storage t => [.begin_object 0 t, .end_object]
  | .object_storage val t => .begin_object val.length t :: (members_events val ++ [.end_object])
  | .array_storage val t => .begin_array val.length t :: (elements_events val ++ [.end_array])
/-- The events of the elements of an array, one element after the other. -/
def elements_events : List variant → List json_event
  | [] => []
  | x :: xs => x.events ++ elements_events xs
/-- The events of the members of an object: for each member its key, then the
events of its value. -/
def members_events : List (List Nat × variant) → List json_event
  | [] => []
  | (k, v) :: rest => .key k :: (v.events ++ members_events rest)
end

/-- Where a reader of an event sequence stands: before the one top-level value,
inside an array that still expects `remaining` elements, or inside an object that
still expects `remaining` members, before the key of the next member or between
its key and its value. -/
inductive event_context where
  | top
  | in_array (remaining : Nat)
  | expect_key (remaining : Nat)
  | expect_value (remaining : Nat)
deriving DecidableEq, Repr

/-- A value begins here: the innermost context takes it as its next child, or
refuses it (after the top-level value, in an array or object that expects no
more, or where a key is expected). -/
def value_begins : List event_context → Option (List event_context)
  | .top :: rest => some rest
  | .in_array (n + 1) :: rest => some (.in_array n :: rest)
  | .expect_value n :: rest => some (.expect_key n :: rest)
  | _ => none

/-- The reading of one event: a scalar is a value; `begin_array(n)` and `begin_object(n)` are
values that open a context expecting `n` children; `end_array` and `end_object` close the
innermost context, which must be of their kind and expect no more children; a
key is read only in an object, before a value. -/
def read_event (e : json_event) (st : List event_context) : Option (List event_context) :=
  match e with
  | .begin_array n _ => (value_begins st).map (fun st1 => .in_array n :: st1)
  | .begin_object n _ => (value_begins st).map (fun st1 => .expect_key n :: st1)
  | .end_array =>
    match st with
    | .in_array 0 :: rest => some rest
    | _ => none
  | .end_object =>
    match st with
    | .expect_key 0 :: rest => some rest
    | _ => none
  | .key _ =>
    match st with
    | .expect_key (n + 1) :: rest => some (.expect_value n :: rest)
    | _ => none
  | _ => value_begins st

/-- The reading of a sequence of events, from a stack of contexts. -/
def read_events : List json_event → List event_context → Option (List event_context)
  | [], st => some st
  | e :: es, st =>
    match read_event e st with
    | some st1 => read_events es st1
    | none => none

/-- A sequence of events is well formed when it reads as exactly one value: every
`begin_array(n)` is closed by its own `end_array` after exactly `n` values, every `begin_object(n)`
by its own `end_object` after exactly `n` members, each a key followed by a value, and
no key stands anywhere else. -/
def well_formed (es : List json_event) : Bool :=
  match read_events es [.top] with
  | some [] => true
  | _ => false

/-! ## Values without a half_float -/

mutual
/-- No half_float in the value, at any depth: the values on which every comparison
by `operator<` reaches a case of its switch. -/
def variant.half_free : variant → Bool
  | .half_storage _ _ => false
  | .array_storage val _ => half_free_elements val
  | .object_storage val _ => half_free_members val
  | _ => true
/-- No element of the array holds a half_float. -/
def half_free_elements : List variant → Bool
  | [] => true
  | x :: xs => x.half_free && half_free_elements xs
/-- No member value of the object holds a half_float. -/
def half_free_members : List (List Nat × variant) → Bool
  | [] => true
  | (_, v) :: rest => v.half_free && half_free_members rest
end

/-! ## Theorems: cross-numeric equality and ordering -/

/-- A non-negative int64 is its own conversion to uint64. -/
theorem static_cast_uint64_of_nonneg (i : Int) (h0 : 0 ≤ i) (h1 : i < 2 ^ 63) :
    ((static_cast_uint64 i : Nat) : Int) = i := by
  unfold static_cast_uint64
  have h2 : i % 2 ^ 64 = i := Int.emod_eq_of_lt h0 (by omega)
  rw [h2]
  exact Int.toNat_of_nonneg h0

/-- Claim C1: for every int64 `i` and uint64 `u`, with any semantic tags,
`Value(i) == Value(u)` and `Value(u) == Value(i)` both hold exactly when `i >= 0` and
`i` equals `u` as mathematical integers. -/
theorem int64_uint64_eq_iff (i : Int) (u : Nat) (t1 t2 : semantic_tag)
    (hlo : -(2 ^ 63) ≤ i) (hhi : i < 2 ^ 63) :
    (basic_json.eq false ⟨.int64_storage i t1⟩ ⟨.uint64_storage u t2⟩ = true
        ↔ (0 ≤ i ∧ i = (u : Int))) ∧
    (basic_json.eq false ⟨.uint64_storage u t2⟩ ⟨.int64_storage i t1⟩ = true
        ↔ (0 ≤ i ∧ i = (u : Int))) := by
  by_cases h0 : 0 ≤ i
  · have hc := static_cast_uint64_of_nonneg i h0 hhi
    simp only [basic_json.eq, variant.operator_eq, variant.eq]
    simp only [ge_iff_le, h0, if_true, decide_eq_true_eq, true_and, Bool.false_eq_true, if_false]
    constructor
    · constructor
      · intro h; rw [← h]; exact hc.symm
      · intro h; subst h; exact_mod_cast hc
    · constructor
      · intro h; rw [h]; exact hc.symm
      · intro h; subst h; exact_mod_cast hc.symm
  · have hneg : i < 0 := by omega
    simp [basic_json.eq, variant.operator_eq, variant.eq, h0, hneg]

/-- Witness for C1 at the two inputs the claim names: int64 -1 against uint64
18446744073709551615 (unequal), and int64 5 against uint64 5 (equal). -/
theorem int64_uint64_eq_iff_witness :
    ((-(2 ^ 63) ≤ (-1 : Int) ∧ (-1 : Int) < 2 ^ 63) ∧
      ((basic_json.eq false ⟨.int64_storage (-1) semantic_tag.none⟩
          ⟨.uint64_storage 18446744073709551615 semantic_tag.none⟩ = true
          ↔ (0 ≤ (-1 : Int) ∧ (-1 : Int) = ((18446744073709551615 : Nat) : Int))) ∧
       (basic_json.eq false ⟨.uint64_storage 18446744073709551615 semantic_tag.none⟩
          ⟨.int64_storage (-1) semantic_tag.none⟩ = true
          ↔ (0 ≤ (-1 : Int) ∧ (-1 : Int) = ((18446744073709551615 : Nat) : Int))))) ∧
    ((-(2 ^ 63) ≤ (5 : Int) ∧ (5 : Int) < 2 ^ 63) ∧
      ((basic_json.eq false ⟨.int64_storage 5 semantic_tag.none⟩
          ⟨.uint64_storage 5 semantic_tag.none⟩ = true
          ↔ (0 ≤ (5 : Int) ∧ (5 : Int) = ((5 : Nat) : Int))) ∧
       (basic_json.eq false ⟨.uint64_storage 5 semantic_tag.none⟩
          ⟨.int64_storage 5 semantic_tag.none⟩ = true
          ↔ (0 ≤ (5 : Int) ∧ (5 : Int) = ((5 : Nat) : Int))))) :=
  ⟨⟨by decide, int64_uint64_eq_iff (-1) 18446744073709551615 semantic_tag.none
      semantic_tag.none (by decide) (by decide)⟩,
   ⟨by decide, int64_uint64_eq_iff 5 5 semantic_tag.none semantic_tag.none
      (by decide) (by decide)⟩⟩

/-- The two named instances of C1, evaluated: int64 5 equals uint64 5, and int64 -1
does not equal uint64 18446744073709551615. -/
theorem int64_uint64_eq_examples :
    basic_json.eq false ⟨.int64_storage 5 semantic_tag.none⟩
      ⟨.uint64_storage 5 semantic_tag.none⟩ = true ∧
    basic_json.eq false ⟨.int64_storage (-1) semantic_tag.none⟩
      ⟨.uint64_storage 18446744073709551615 semantic_tag.none⟩ = false := by
  constructor <;> decide

/-- The arm `int64 < uint64` (line 1480) follows the mathematical order. -/
theorem lt_int64_uint64 (i : Int) (u : Nat) (t1 t2 : semantic_tag)
    (hhi : i < 2 ^ 63) :
    variant.lt (.int64_storage i t1) (.uint64_storage u t2) = some (decide (i < (u : Int))) := by
  rw [variant.lt]
  by_cases h0 : 0 ≤ i
  · have hc := static_cast_uint64_of_nonneg i h0 hhi
    simp only [ge_iff_le, h0, if_true]
    congr 1
    rw [decide_eq_decide]
    constructor
    · intro h; rw [← hc]; exact_mod_cast h
    · intro h; rw [← hc] at h; exact_mod_cast h
  · have hneg : i < 0 := by omega
    have hlt : i < (u : Int) := by omega
    simp [h0, hlt]

/-- The arm `uint64 < int64` (line 1491) answers `true` for every negative int64, and
follows the mathematical order otherwise. -/
theorem lt_uint64_int64 (i : Int) (u : Nat) (t1 t2 : semantic_tag)
    (hhi : i < 2 ^ 63) :
    variant.lt (.uint64_storage u t1) (.int64_storage i t2)
      = some (decide (i < 0 ∨ (u : Int) < i)) := by
  rw [variant.lt]
  by_cases h0 : 0 ≤ i
  · have hc := static_cast_uint64_of_nonneg i h0 hhi
    have hn : ¬ i < 0 := by omega
    simp only [ge_iff_le, h0, if_true, hn, false_or]
    congr 1
    rw [decide_eq_decide]
    constructor
    · intro h; rw [← hc]; exact_mod_cast h
    · intro h; rw [← hc] at h; exact_mod_cast h
  · have hneg : i < 0 := by omega
    simp [h0, hneg]

/-- A left operand of kind half_float takes the `default:` of the switch of
`operator<`, whatever the right operand. -/
theorem lt_half_unreachable (h : Nat) (t : semantic_tag) (rhs : variant) :
    variant.lt (.half_storage h t) rhs = none := by
  rw [variant.lt]

/-- Claim C2, at the failing input `a = Value(int64 -1)`, `b = Value(uint64 0)`: the code
answers `true` to both `a < b` and `b < a`, against the antisymmetry that the
claim states. -/
theorem lt_both_ways_int64_uint64 :
    basic_json.lt false ⟨.int64_storage (-1) semantic_tag.none⟩
      ⟨.uint64_storage 0 semantic_tag.none⟩ = some true ∧
    basic_json.lt false ⟨.uint64_storage 0 semantic_tag.none⟩
      ⟨.int64_storage (-1) semantic_tag.none⟩ = some true := by
  constructor <;> simp [basic_json.lt, variant.operator_lt, variant.lt]

/-- Claim C3, at the failing input `a = Value(uint64 5)`, `b = Value(int64 -1)`,
`c = Value(uint64 3)`: the code answers `a < b` and `b < c` but not `a < c`, against
the transitivity that the claim states. -/
theorem lt_chain_broken_uint64_int64 :
    basic_json.lt false ⟨.uint64_storage 5 semantic_tag.none⟩
      ⟨.int64_storage (-1) semantic_tag.none⟩ = some true ∧
    basic_json.lt false ⟨.int64_storage (-1) semantic_tag.none⟩
      ⟨.uint64_storage 3 semantic_tag.none⟩ = some true ∧
    basic_json.lt false ⟨.uint64_storage 5 semantic_tag.none⟩
      ⟨.uint64_storage 3 semantic_tag.none⟩ = some false := by
  refine ⟨?_, ?_, ?_⟩ <;> simp [basic_json.lt, variant.operator_lt, variant.lt]

/-- Claim C4, at the failing input `a = Value(half 0x3C00)`, `b = Value(null)`: `a == b`
returns `false`, but `a < b` reaches `JSONCONS_UNREACHABLE()` instead of returning
a boolean. -/
theorem lt_half_null_unreachable :
    basic_json.eq false ⟨.half_storage 0x3C00 semantic_tag.none⟩
      ⟨.null_storage semantic_tag.none⟩ = false ∧
    basic_json.lt false ⟨.half_storage 0x3C00 semantic_tag.none⟩
      ⟨.null_storage semantic_tag.none⟩ = none := by
  constructor
  · simp [basic_json.eq, variant.operator_eq, variant.eq, variant.double_eq]
  · simp [basic_json.lt, variant.operator_lt, variant.lt]

/-- Claim C5, at the failing input `u = 0`, `i = -1`: the code answers `true` to
`Value(uint64 0) < Value(int64 -1)` although `0 < -1` is false, against the claim
that no uint64 is less than a negative int64. -/
theorem lt_uint64_negative_int64 :
    basic_json.lt false ⟨.uint64_storage 0 semantic_tag.none⟩
      ⟨.int64_storage (-1) semantic_tag.none⟩ = some true ∧
    ¬ (((0 : Nat) : Int) < (-1 : Int)) := by
  constructor
  · simp [basic_json.lt, variant.operator_lt, variant.lt]
  · decide

/-! ## Theorems: the rank between kinds -/

/-- Claim C6 as stated fails at `a = Value(true)`, `b = Value::empty_object()`: the kinds
are not otherwise comparable and `a == b` is false, but `a < b` holds although bool
does not precede empty_object in the rank of the specification; and `b < a` does
not hold although empty_object precedes bool there. -/
theorem rank_counterexample_bool_empty_object :
    storage_kind.otherwise_comparable
      (variant.bool_storage true semantic_tag.none).storage
      (variant.empty_object_storage semantic_tag.none).storage = false ∧
    basic_json.eq false ⟨.bool_storage true semantic_tag.none⟩
      ⟨.empty_object_storage semantic_tag.none⟩ = false ∧
    basic_json.lt false ⟨.bool_storage true semantic_tag.none⟩
      ⟨.empty_object_storage semantic_tag.none⟩ = some true ∧
    ¬ ((variant.bool_storage true semantic_tag.none).storage.spec_rank
        < (variant.empty_object_storage semantic_tag.none).storage.spec_rank) ∧
    basic_json.lt false ⟨.empty_object_storage semantic_tag.none⟩
      ⟨.bool_storage true semantic_tag.none⟩ = some false ∧
    (variant.empty_object_storage semantic_tag.none).storage.spec_rank
        < (variant.bool_storage true semantic_tag.none).storage.spec_rank := by
  refine ⟨by decide, by decide, ?_, by decide, ?_, by decide⟩ <;>
    simp [basic_json.lt, variant.operator_lt, variant.lt, variant.rank_lt, variant.storage,
      storage_kind.toNat]

/-- Claim C6, amended: for every pair of values `a`, `b` whose storage kinds are not
otherwise comparable, `a == b` is false, and when `a` is not a half_float `a < b`
holds exactly when the kind of `a` precedes the kind of `b` in the rank null < bool <
int64/uint64 < half/double < string kinds < byte_string < array <
empty_object/object. -/
theorem rank_between_kinds (a b : basic_json)
    (h : storage_kind.otherwise_comparable a.var_.storage b.var_.storage = false) :
    basic_json.eq false a b = false ∧
    (a.var_.storage ≠ storage_kind.half_value →
      basic_json.lt false a b
        = some (decide (a.var_.storage.rank_objects_last < b.var_.storage.rank_objects_last))) := by
  obtain ⟨va⟩ := a
  obtain ⟨vb⟩ := b
  cases va <;> cases vb <;>
    simp_all [basic_json.eq, basic_json.lt, variant.operator_eq, variant.operator_lt,
      variant.eq, variant.lt, variant.double_eq, variant.rank_lt, variant.storage,
      storage_kind.toNat, storage_kind.otherwise_comparable, storage_kind.is_numeric,
      storage_kind.is_string, storage_kind.is_object, storage_kind.rank_objects_last]

/-- Witness for C6 amended, at `a = Value(true)`, `b = Value::empty_object()`. -/
theorem rank_between_kinds_witness :
    (storage_kind.otherwise_comparable
        (variant.bool_storage true semantic_tag.none).storage
        (variant.empty_object_storage semantic_tag.none).storage = false ∧
      (variant.bool_storage true semantic_tag.none).storage ≠ storage_kind.half_value) ∧
    basic_json.eq false ⟨.bool_storage true semantic_tag.none⟩
        ⟨.empty_object_storage semantic_tag.none⟩ = false ∧
    basic_json.lt false ⟨.bool_storage true semantic_tag.none⟩
        ⟨.empty_object_storage semantic_tag.none⟩
      = some (decide ((variant.bool_storage true semantic_tag.none).storage.rank_objects_last
          < (variant.empty_object_storage semantic_tag.none).storage.rank_objects_last)) :=
  ⟨⟨by decide, by decide⟩,
   (rank_between_kinds ⟨.bool_storage true semantic_tag.none⟩
      ⟨.empty_object_storage semantic_tag.none⟩ (by decide)).1,
   (rank_between_kinds ⟨.bool_storage true semantic_tag.none⟩
      ⟨.empty_object_storage semantic_tag.none⟩ (by decide)).2 (by decide)⟩

/-! ## Theorems: the derived operators -/

/-- Claim C7 as stated fails at `a = Value(NaN)`, `b = Value(1.0)`: `a <= b` holds, being
`!(b < a)`, although neither `a < b` nor `a == b` holds; and `b >= a` holds, being
`!(b < a)`, although neither `a < b` nor `b == a` holds. -/
theorem le_counterexample_nan :
    basic_json.le false ⟨.double_storage double.quiet_NaN semantic_tag.none⟩
      ⟨.double_storage double.one semantic_tag.none⟩ = some true ∧
    basic_json.lt false ⟨.double_storage double.quiet_NaN semantic_tag.none⟩
      ⟨.double_storage double.one semantic_tag.none⟩ = some false ∧
    basic_json.eq false ⟨.double_storage double.quiet_NaN semantic_tag.none⟩
      ⟨.double_storage double.one semantic_tag.none⟩ = false ∧
    basic_json.ge false ⟨.double_storage double.one semantic_tag.none⟩
      ⟨.double_storage double.quiet_NaN semantic_tag.none⟩ = some true ∧
    basic_json.eq false ⟨.double_storage double.one semantic_tag.none⟩
      ⟨.double_storage double.quiet_NaN semantic_tag.none⟩ = false := by
  have h1 : double.lt double.one double.quiet_NaN = false := by decide
  have h2 : double.lt double.quiet_NaN double.one = false := by decide
  refine ⟨?_, ?_, by decide, ?_, by decide⟩ <;>
    simp [basic_json.le, basic_json.ge, basic_json.lt, variant.operator_lt, variant.lt, h1, h2]

/-- Claim C7, amended: for every pair of values `a`, `b` on which `a < b` and `b < a`
return, `a > b` holds iff `b < a`, `a <= b` holds iff `b < a` does not, and `a >= b` holds
iff `a < b` does not; and when exactly one of `a < b`, `a == b`, `b < a` holds, `a <= b`
holds iff (`a < b` or `a == b`) and `a >= b` holds iff (`b < a` or `a == b`). -/
theorem derived_operators (same_object : Bool) (a b : basic_json) (x y : Bool)
    (hx : basic_json.lt same_object a b = some x)
    (hy : basic_json.lt same_object b a = some y) :
    basic_json.gt same_object a b = some y ∧
    basic_json.le same_object a b = some (!y) ∧
    basic_json.ge same_object a b = some (!x) ∧
    (exactly_one x (basic_json.eq same_object a b) y = true →
      basic_json.le same_object a b = some (x || basic_json.eq same_object a b) ∧
      basic_json.ge same_object a b = some (y || basic_json.eq same_object a b)) := by
  refine ⟨?_, ?_, ?_, ?_⟩
  · simp [basic_json.gt, basic_json.le, hy]
  · simp [basic_json.le, hy]
  · simp [basic_json.ge, hx]
  · intro h
    simp only [basic_json.le, basic_json.ge, hx, hy, Option.map_some']
    revert h
    cases x <;> cases y <;> cases basic_json.eq same_object a b <;> simp [exactly_one]

/-- Witness for C7 amended, at `a = Value(int64 1)`, `b = Value(uint64 2)`. -/
theorem derived_operators_witness :
    (basic_json.lt false ⟨.int64_storage 1 semantic_tag.none⟩
        ⟨.uint64_storage 2 semantic_tag.none⟩ = some true ∧
     basic_json.lt false ⟨.uint64_storage 2 semantic_tag.none⟩
        ⟨.int64_storage 1 semantic_tag.none⟩ = some false ∧
     exactly_one true (basic_json.eq false ⟨.int64_storage 1 semantic_tag.none⟩
        ⟨.uint64_storage 2 semantic_tag.none⟩) false = true) ∧
    basic_json.gt false ⟨.int64_storage 1 semantic_tag.none⟩
        ⟨.uint64_storage 2 semantic_tag.none⟩ = some false ∧
    basic_json.le false ⟨.int64_storage 1 semantic_tag.none⟩
        ⟨.uint64_storage 2 semantic_tag.none⟩ = some (!false) ∧
    basic_json.ge false ⟨.int64_storage 1 semantic_tag.none⟩
        ⟨.uint64_storage 2 semantic_tag.none⟩ = some (!true) ∧
    basic_json.le false ⟨.int64_storage 1 semantic_tag.none⟩
        ⟨.uint64_storage 2 semantic_tag.none⟩
      = some (true || basic_json.eq false ⟨.int64_storage 1 semantic_tag.none⟩
          ⟨.uint64_storage 2 semantic_tag.none⟩) ∧
    basic_json.ge false ⟨.int64_storage 1 semantic_tag.none⟩
        ⟨.uint64_storage 2 semantic_tag.none⟩
      = some (false || basic_json.eq false ⟨.int64_storage 1 semantic_tag.none⟩
          ⟨.uint64_storage 2 semantic_tag.none⟩) := by
  have hx : basic_json.lt false ⟨.int64_storage 1 semantic_tag.none⟩
      ⟨.uint64_storage 2 semantic_tag.none⟩ = some true := by
    simp [basic_json.lt, variant.operator_lt, variant.lt, static_cast_uint64]
  have hy : basic_json.lt false ⟨.uint64_storage 2 semantic_tag.none⟩
      ⟨.int64_storage 1 semantic_tag.none⟩ = some false := by
    simp [basic_json.lt, variant.operator_lt, variant.lt, static_cast_uint64]
  have he : exactly_one true (basic_json.eq false ⟨.int64_storage 1 semantic_tag.none⟩
      ⟨.uint64_storage 2 semantic_tag.none⟩) false = true := by decide
  have h := derived_operators false ⟨.int64_storage 1 semantic_tag.none⟩
    ⟨.uint64_storage 2 semantic_tag.none⟩ true false hx hy
  exact ⟨⟨hx, hy, he⟩, h.1, h.2.1, h.2.2.1, (h.2.2.2 he).1, (h.2.2.2 he).2⟩

/-! ## Theorems: empty_object against object -/

/-- Claim C8: an empty_object value equals an object value, in either operand order,
exactly when the size of the object is 0; two empty_object values are equal. -/
theorem empty_object_eq_object (same_object : Bool) (t1 t2 : semantic_tag)
    (members : List (List Nat × variant)) :
    basic_json.eq same_object ⟨.empty_object_storage t1⟩ ⟨.empty_object_storage t2⟩ = true ∧
    (basic_json.eq false ⟨.empty_object_storage t1⟩ ⟨.object_storage members t2⟩ = true
      ↔ basic_json.size ⟨.object_storage members t2⟩ = 0) ∧
    (basic_json.eq false ⟨.object_storage members t2⟩ ⟨.empty_object_storage t1⟩ = true
      ↔ basic_json.size ⟨.object_storage members t2⟩ = 0) := by
  refine ⟨?_, ?_, ?_⟩
  · cases same_object <;> simp [basic_json.eq, variant.operator_eq, variant.eq]
  · simp [basic_json.eq, variant.operator_eq, variant.eq, variant.size, basic_json.size]
  · simp [basic_json.eq, variant.operator_eq, variant.eq, basic_json.size]

/-- The named instances of C8: `empty_object == object{}` is true and
`empty_object == {"a": 1}` is false. -/
theorem empty_object_eq_object_examples :
    basic_json.eq false ⟨.empty_object_storage semantic_tag.none⟩
      ⟨.object_storage [] semantic_tag.none⟩ = true ∧
    basic_json.eq false ⟨.empty_object_storage semantic_tag.none⟩
      ⟨.object_storage [([97], .int64_storage 1 semantic_tag.none)] semantic_tag.none⟩
        = false := by
  constructor <;> decide

/-! ## Theorems: swap and move -/

/-- On two distinct objects `swap` exchanges the two representations. -/
theorem variant.swap_distinct (a b : variant) : variant.swap false a b = (b, a) := by
  cases a <;> cases b <;> rfl

/-- The copy initialiser `Init_` constructs a variant equal to its argument. -/
theorem variant.Init_eq (a : variant) : variant.Init_ a = a := by
  cases a <;> rfl

/-- Claim C9 as stated fails at `a = Value(int64 5)`: after move-constructing `b` from `a`,
`a.storage()` is still int64, not null. -/
theorem move_construct_counterexample_int64 :
    (basic_json.move_construct ⟨.int64_storage 5 semantic_tag.none⟩).2.var_.storage
      = storage_kind.int64_value ∧
    (basic_json.move_construct ⟨.int64_storage 5 semantic_tag.none⟩).2.var_.storage
      ≠ storage_kind.null_value := by
  constructor <;> decide

/-- Claim C9, amended: for every value `a` of any of the 12 storage kinds, after
move-constructing `b` from `a`, `b` has the former storage kind, tag and payload of
`a`; `a` is null (with tag none) when its kind was long_string, byte_string, array
or object, and is unchanged for the eight other kinds. -/
theorem move_construct_result (a : basic_json) :
    (basic_json.move_construct a).1 = a ∧
    (basic_json.move_construct a).2
      = (if a.var_.storage.is_heap then ⟨.null_storage semantic_tag.none⟩ else a) := by
  obtain ⟨va⟩ := a
  cases va <;> exact ⟨rfl, rfl⟩

/-- Claim C10 as stated fails at `b = Value(true)`, `a = Value(int64 1)`: after
`b = move(a)`, `a.storage()` is bool, not null. -/
theorem move_assign_counterexample_bool_int64 :
    (basic_json.move_assign false ⟨.bool_storage true semantic_tag.none⟩
        ⟨.int64_storage 1 semantic_tag.none⟩).2.var_.storage = storage_kind.bool_value ∧
    (basic_json.move_assign false ⟨.bool_storage true semantic_tag.none⟩
        ⟨.int64_storage 1 semantic_tag.none⟩).2.var_.storage ≠ storage_kind.null_value := by
  constructor <;> decide

/-- Claim C10, amended: for every pair of distinct values `a` and `b`, after the move
assignment `b = move(a)`, `b` holds the former storage kind, tag and payload of `a`,
and `a` holds the former storage kind, tag and payload of `b`; so `a.storage()` is null
exactly when `b` was null before. -/
theorem move_assign_result (a b : basic_json) :
    (basic_json.move_assign false b a).1 = a ∧
    (basic_json.move_assign false b a).2 = b ∧
    ((basic_json.move_assign false b a).2.var_.storage = storage_kind.null_value
      ↔ b.var_.storage = storage_kind.null_value) := by
  obtain ⟨va⟩ := a
  obtain ⟨vb⟩ := b
  have h : basic_json.move_assign false ⟨vb⟩ ⟨va⟩ = (⟨va⟩, ⟨vb⟩) := by
    simp [basic_json.move_assign, variant.move_assign, variant.swap_distinct]
  rw [h]
  exact ⟨rfl, rfl, Iff.rfl⟩

/-! ## Theorems: copy assignment when allocation fails -/

/-- When the source holds a heap kind and the allocation fails, copy assignment throws
and leaves the target with the discriminant of the source and no payload. -/
theorem variant.copy_assign_alloc_failure (a b : variant) (h : b.storage.is_heap = true) :
    variant.copy_assign false false a b
      = (.error .bad_alloc, .no_payload b.storage b.tag, b) := by
  simp [variant.copy_assign, variant.Init_alloc, h]

/-- Claim C11, at the failing inputs `a = Value(int64 5)`, `b` a long string of 16 code
units, and `a = Value([1])`, `b = Value([2])`, the allocation of the copy failing:
the assignment fails with `bad_alloc`, `b` is unchanged, but `a` no longer holds its
previous kind, tag and payload: its memory is left with the kind and tag of `b` and
no payload. -/
theorem copy_assign_alloc_failure_loses_target :
    basic_json.copy_assign false false ⟨.int64_storage 5 semantic_tag.none⟩
        ⟨.long_string_storage semantic_tag.none (List.replicate 16 97)⟩
      = (.error .bad_alloc,
         .no_payload storage_kind.long_string_value semantic_tag.none,
         ⟨.long_string_storage semantic_tag.none (List.replicate 16 97)⟩) ∧
    basic_json.copy_assign false false
        ⟨.array_storage [.int64_storage 1 semantic_tag.none] semantic_tag.none⟩
        ⟨.array_storage [.int64_storage 2 semantic_tag.none] semantic_tag.none⟩
      = (.error .bad_alloc,
         .no_payload storage_kind.array_value semantic_tag.none,
         ⟨.array_storage [.int64_storage 2 semantic_tag.none] semantic_tag.none⟩) := by
  constructor <;> rfl

/-! ## Theorems: swap -/

/-- Claim C13: for every pair of values `a` and `b`, over all 144 combinations of storage
kinds, `a.swap(b)` leaves `a` holding the former kind, tag and payload of `b` and `b`
holding the former ones of `a`, swapping twice restores both values, and swapping
a value with itself leaves it as it was. -/
theorem swap_exchanges (a b : basic_json) :
    basic_json.swap false a b = (b, a) ∧
    basic_json.swap false (basic_json.swap false a b).1 (basic_json.swap false a b).2 = (a, b) ∧
    basic_json.swap true a a = (a, a) := by
  have h : ∀ x y : basic_json, basic_json.swap false x y = (y, x) := by
    intro x y
    obtain ⟨vx⟩ := x
    obtain ⟨vy⟩ := y
    cases vx <;> cases vy <;> rfl
  refine ⟨h a b, ?_, ?_⟩
  · rw [h a b, h b a]
  · rfl

/-! ## Theorems: the leaf constructors -/

/-- The byte `from_storage_and_tag(k, t)` decodes to `k` and `t` when `t` fits the four low
bits. -/
theorem variant.from_storage_and_tag_decode (k : storage_kind) (t : semantic_tag)
    (ht : t.value < 16) :
    variant.to_storage (variant.from_storage_and_tag k t) = k.toNat ∧
    variant.to_tag (variant.from_storage_and_tag k t) = t := by
  obtain ⟨n⟩ := t
  simp only at ht
  interval_cases n <;> cases k <;> decide

/-- For a tag that fits the four low bits, the accessors `storage()` and `tag()`, which
decode `ext_type_`, give the kind of the active storage class and its tag. -/
theorem variant.ext_type_decode (v : variant) (ht : v.tag.value < 16) :
    variant.to_storage v.ext_type_ = v.storage.toNat ∧ variant.to_tag v.ext_type_ = v.tag := by
  cases v <;> exact variant.from_storage_and_tag_decode _ _ ht

/-- The kind of a value constructed from a string is short_string or long_string by
the length alone. -/
theorem variant.of_string_storage (sz : Nat) (s : List Nat) (n : Nat) (t : semantic_tag) :
    (variant.of_string sz s n t).storage
      = (if n ≤ short_string_storage.max_length sz then storage_kind.short_string_value
         else storage_kind.long_string_value) := by
  unfold variant.of_string
  split <;> rfl

/-- The tag of a value constructed from a string is the tag passed. -/
theorem variant.of_string_tag (sz : Nat) (s : List Nat) (n : Nat) (t : semantic_tag) :
    (variant.of_string sz s n t).tag = t := by
  unfold variant.of_string
  split <;> rfl

/-- Claim C14: for every leaf constructor and every tag that fits the four low bits
of `ext_type_`, `storage()` after construction is the kind implied by the constructor
(null_type gives null, bool gives bool, a signed integer int64, an unsigned
integer uint64, half_arg half_float, double double, a byte span byte_string, a
(pointer, length) string short_string or long_string), and `tag()` returns the
tag passed to the constructor. -/
theorem leaf_constructor_kind (t : semantic_tag) (ht : t.value < 16) (b : Bool) (i : Int)
    (u h : Nat) (d : double) (bytes s : List Nat) (sz n : Nat) :
    (variant.to_storage (variant.of_null t).ext_type_ = storage_kind.null_value.toNat ∧
      variant.to_tag (variant.of_null t).ext_type_ = t) ∧
    (variant.to_storage (variant.of_bool b t).ext_type_ = storage_kind.bool_value.toNat ∧
      variant.to_tag (variant.of_bool b t).ext_type_ = t) ∧
    (variant.to_storage (variant.of_int64 i t).ext_type_ = storage_kind.int64_value.toNat ∧
      variant.to_tag (variant.of_int64 i t).ext_type_ = t) ∧
    (variant.to_storage (variant.of_uint64 u t).ext_type_ = storage_kind.uint64_value.toNat ∧
      variant.to_tag (variant.of_uint64 u t).ext_type_ = t) ∧
    (variant.to_storage (variant.of_half h t).ext_type_ = storage_kind.half_value.toNat ∧
      variant.to_tag (variant.of_half h t).ext_type_ = t) ∧
    (variant.to_storage (variant.of_double d t).ext_type_ = storage_kind.double_value.toNat ∧
      variant.to_tag (variant.of_double d t).ext_type_ = t) ∧
    (variant.to_storage (variant.of_byte_string bytes t).ext_type_
        = storage_kind.byte_string_value.toNat ∧
      variant.to_tag (variant.of_byte_string bytes t).ext_type_ = t) ∧
    ((variant.to_storage (variant.of_string sz s n t).ext_type_
          = storage_kind.short_string_value.toNat ∨
        variant.to_storage (variant.of_string sz s n t).ext_type_
          = storage_kind.long_string_value.toNat) ∧
      variant.to_tag (variant.of_string sz s n t).ext_type_ = t) := by
  have hs : (variant.of_string sz s n t).tag.value < 16 := by
    rw [variant.of_string_tag]; exact ht
  have hstr := variant.ext_type_decode (variant.of_string sz s n t) hs
  rw [variant.of_string_storage, variant.of_string_tag] at hstr
  refine ⟨variant.ext_type_decode (variant.of_null t) ht,
    variant.ext_type_decode (variant.of_bool b t) ht,
    variant.ext_type_decode (variant.of_int64 i t) ht,
    variant.ext_type_decode (variant.of_uint64 u t) ht,
    variant.ext_type_decode (variant.of_half h t) ht,
    variant.ext_type_decode (variant.of_double d t) ht,
    variant.ext_type_decode (variant.of_byte_string bytes t) ht, ?_, hstr.2⟩
  by_cases hn : n ≤ short_string_storage.max_length sz
  · left; simpa [hn] using hstr.1
  · right; simpa [hn] using hstr.1
/-- Witness for C14, with tag value 4, `true`, -7, 7, the half 0x3C00, the double 1.0,
the bytes 1 2 3 and the string "abc" of the single-byte character type. -/
theorem leaf_constructor_kind_witness :
    (4 : Nat) < 16 ∧
    ((variant.to_storage (variant.of_null ⟨4⟩).ext_type_ = storage_kind.null_value.toNat ∧
      variant.to_tag (variant.of_null ⟨4⟩).ext_type_ = ⟨4⟩) ∧
    (variant.to_storage (variant.of_bool true ⟨4⟩).ext_type_ = storage_kind.bool_value.toNat ∧
      variant.to_tag (variant.of_bool true ⟨4⟩).ext_type_ = ⟨4⟩) ∧
    (variant.to_storage (variant.of_int64 (-7) ⟨4⟩).ext_type_
        = storage_kind.int64_value.toNat ∧
      variant.to_tag (variant.of_int64 (-7) ⟨4⟩).ext_type_ = ⟨4⟩) ∧
    (variant.to_storage (variant.of_uint64 7 ⟨4⟩).ext_type_ = storage_kind.uint64_value.toNat ∧
      variant.to_tag (variant.of_uint64 7 ⟨4⟩).ext_type_ = ⟨4⟩) ∧
    (variant.to_storage (variant.of_half 0x3C00 ⟨4⟩).ext_type_
        = storage_kind.half_value.toNat ∧
      variant.to_tag (variant.of_half 0x3C00 ⟨4⟩).ext_type_ = ⟨4⟩) ∧
    (variant.to_storage (variant.of_double double.one ⟨4⟩).ext_type_
        = storage_kind.double_value.toNat ∧
      variant.to_tag (variant.of_double double.one ⟨4⟩).ext_type_ = ⟨4⟩) ∧
    (variant.to_storage (variant.of_byte_string [1, 2, 3] ⟨4⟩).ext_type_
        = storage_kind.byte_string_value.toNat ∧
      variant.to_tag (variant.of_byte_string [1, 2, 3] ⟨4⟩).ext_type_ = ⟨4⟩) ∧
    ((variant.to_storage (variant.of_string 1 [97, 98, 99] 3 ⟨4⟩).ext_type_
          = storage_kind.short_string_value.toNat ∨
        variant.to_storage (variant.of_string 1 [97, 98, 99] 3 ⟨4⟩).ext_type_
          = storage_kind.long_string_value.toNat) ∧
      variant.to_tag (variant.of_string 1 [97, 98, 99] 3 ⟨4⟩).ext_type_ = ⟨4⟩)) :=
  ⟨by decide, leaf_constructor_kind ⟨4⟩ (by decide) true (-7) 7 0x3C00 double.one [1, 2, 3]
    [97, 98, 99] 1 3⟩

/-! ## Theorems: short and long strings -/

/-- Claim C15: for every character sequence `s`, length `n` and tag, constructing a value
from (`s`, `n`) yields storage kind short_string when
`n <= short_string_storage::max_length` and long_string otherwise; two sequences of the
same length get the same kind, whatever their content. -/
theorem string_kind_by_length (sz : Nat) (s : List Nat) (n : Nat) (t : semantic_tag) :
    (variant.of_string sz s n t).storage
      = (if n ≤ short_string_storage.max_length sz then storage_kind.short_string_value
         else storage_kind.long_string_value) ∧
    (∀ (s2 : List Nat) (t2 : semantic_tag),
      (variant.of_string sz s2 n t2).storage = (variant.of_string sz s n t).storage) := by
  refine ⟨variant.of_string_storage sz s n t, ?_⟩
  intro s2 t2
  rw [variant.of_string_storage, variant.of_string_storage]

/-- For the single-byte character type `max_length` is 13. -/
theorem short_string_storage.max_length_char : short_string_storage.max_length 1 = 13 := by
  decide

/-- The length limit of a short string is at most 13 for every character type. -/
theorem short_string_storage.max_length_le (sz : Nat) :
    short_string_storage.max_length sz ≤ 13 := by
  unfold short_string_storage.max_length short_string_storage.capacity
  have h : (2 * 8 - 2 * 1) / sz ≤ 14 := Nat.div_le_self _ _
  omega

/-- The view of a short string constructed from `s` and its length is `s`: the
terminator written behind the content is not part of it. -/
theorem short_string_storage.view_construct (sz : Nat) (s : List Nat) :
    (short_string_storage.construct sz s s.length).view = s := by
  simp [short_string_storage.view, short_string_storage.construct, short_string_storage.data,
    short_string_storage.length]

/-- The member `as_string_view` of a value constructed from `s` and its length gives `s`,
for short and long storage alike. -/
theorem variant.as_string_view_of_string (sz : Nat) (s : List Nat) (t : semantic_tag) :
    (variant.of_string sz s s.length t).as_string_view = .ok s := by
  unfold variant.of_string
  split
  · rename_i hle
    have h13 := short_string_storage.max_length_le sz
    have hmod : s.length % 256 = s.length := Nat.mod_eq_of_lt (by omega)
    rw [hmod, short_string_storage.view_construct]
    rfl
  · simp [variant.as_string_view, heap_only_string]

/-- Claim C17: for every character sequence `s` of length `n`, zero characters included,
and for short and long storage alike, `as_string_view` of the value constructed
from (`s`, `n`) succeeds with content exactly `s`, hence with length exactly `n`. -/
theorem as_string_view_round_trip (sz : Nat) (s : List Nat) (t : semantic_tag) :
    (variant.of_string sz s s.length t).as_string_view = .ok s ∧
    (∀ r, (variant.of_string sz s s.length t).as_string_view = .ok r → r.length = s.length) := by
  have h := variant.as_string_view_of_string sz s t
  refine ⟨h, ?_⟩
  intro r hr
  rw [h] at hr
  cases hr
  rfl

/-- An instance of C17 with zero characters inside: the short string `a, 0, b, 0` and a
long string of 20 zeros are viewed unchanged. -/
theorem as_string_view_embedded_zero :
    (variant.of_string 1 [97, 0, 98, 0] 4 semantic_tag.none).as_string_view
      = .ok [97, 0, 98, 0] ∧
    (variant.of_string 1 [97, 0, 98, 0] 4 semantic_tag.none).storage
      = storage_kind.short_string_value ∧
    (variant.of_string 1 (List.replicate 20 0) 20 semantic_tag.none).as_string_view
      = .ok (List.replicate 20 0) ∧
    (variant.of_string 1 (List.replicate 20 0) 20 semantic_tag.none).storage
      = storage_kind.long_string_value := by
  refine ⟨rfl, by decide, rfl, by decide⟩

/-- Claim C16 as stated fails for the single-byte character type at the string of 15
code units `a`: `max_length` is 13, so the value is stored on the heap, with storage
kind long_string, not inline. -/
theorem fifteen_chars_not_inline :
    short_string_storage.max_length 1 = 13 ∧
    (variant.of_string 1 (List.replicate 15 97) 15 semantic_tag.none).storage
      = storage_kind.long_string_value ∧
    (variant.of_string 1 (List.replicate 15 97) 15 semantic_tag.none).storage
      ≠ storage_kind.short_string_value := by
  refine ⟨by decide, by decide, by decide⟩

/-- Claim C16, amended: for the single-byte character type, a 13-character string is
stored inline (storage kind short_string) and a 14-character string with the same
13-character beginning plus one more character is stored on the heap (storage
kind long_string), and `as_string_view` of each returns exactly its own content. -/
theorem inline_threshold_char (s : List Nat) (c : Nat) (t : semantic_tag)
    (hs : s.length = 13) :
    (variant.of_string 1 s 13 t).storage = storage_kind.short_string_value ∧
    (variant.of_string 1 (s ++ [c]) 14 t).storage = storage_kind.long_string_value ∧
    (variant.of_string 1 s 13 t).as_string_view = .ok s ∧
    (variant.of_string 1 (s ++ [c]) 14 t).as_string_view = .ok (s ++ [c]) := by
  have h1 := (variant.as_string_view_of_string 1 s t)
  have h2 := (variant.as_string_view_of_string 1 (s ++ [c]) t)
  have hl : (s ++ [c]).length = 14 := by simp [hs]
  rw [hs] at h1
  rw [hl] at h2
  refine ⟨?_, ?_, h1, h2⟩
  · rw [variant.of_string_storage]; decide
  · rw [variant.of_string_storage]; decide

/-- Witness for C16 amended, at the 13 code units `a` to `m` and the further code
unit `n`. -/
theorem inline_threshold_char_witness :
    [97, 98, 99, 100, 101, 102, 103, 104, 105, 106, 107, 108, 109].length = 13 ∧
    ((variant.of_string 1 [97, 98, 99, 100, 101, 102, 103, 104, 105, 106, 107, 108, 109] 13
        semantic_tag.none).storage = storage_kind.short_string_value ∧
     (variant.of_string 1 ([97, 98, 99, 100, 101, 102, 103, 104, 105, 106, 107, 108, 109]
        ++ [110]) 14 semantic_tag.none).storage = storage_kind.long_string_value ∧
     (variant.of_string 1 [97, 98, 99, 100, 101, 102, 103, 104, 105, 106, 107, 108, 109] 13
        semantic_tag.none).as_string_view
       = .ok [97, 98, 99, 100, 101, 102, 103, 104, 105, 106, 107, 108, 109] ∧
     (variant.of_string 1 ([97, 98, 99, 100, 101, 102, 103, 104, 105, 106, 107, 108, 109]
        ++ [110]) 14 semantic_tag.none).as_string_view
       = .ok ([97, 98, 99, 100, 101, 102, 103, 104, 105, 106, 107, 108, 109] ++ [110])) :=
  ⟨by decide, inline_threshold_char
    [97, 98, 99, 100, 101, 102, 103, 104, 105, 106, 107, 108, 109] 110 semantic_tag.none
    (by decide)⟩
/-! ## Theorems: keyed and indexed access -/

/-- The position that `find` returns is the end when no member has the key, and
otherwise the position of the member whose value the lookup gives. -/
theorem json_object_find_position_spec (key : List Nat) (ms : List (List Nat × variant)) :
    (json_object_find key ms = none ∧ json_object_find_position key ms = ms.length) ∨
    (∃ x, json_object_find key ms = some x ∧
      json_object_find_position key ms < ms.length ∧
      ms[json_object_find_position key ms]? = some (key, x)) := by
  induction ms with
  | nil => left; exact ⟨rfl, rfl⟩
  | cons kv rest ih =>
    obtain ⟨k, v⟩ := kv
    by_cases hk : k = key
    · right
      refine ⟨v, ?_, ?_, ?_⟩
      · simp [json_object_find, hk]
      · simp [json_object_find_position, hk]
      · simp [json_object_find_position, hk]
    · rcases ih with ⟨h1, h2⟩ | ⟨x, h1, h2, h3⟩
      · left
        exact ⟨by simp [json_object_find, hk, h1], by simp [json_object_find_position, hk, h2]⟩
      · right
        refine ⟨x, by simp [json_object_find, hk, h1], ?_, ?_⟩
        · simp [json_object_find_position, hk, h2]
        · simp [json_object_find_position, hk, h3]

/-- The lookup finds nothing exactly when no member has the key. -/
theorem json_object_find_eq_none (key : List Nat) (ms : List (List Nat × variant)) :
    json_object_find key ms = none ↔ ∀ kv ∈ ms, kv.1 ≠ key := by
  induction ms with
  | nil => simp [json_object_find]
  | cons kv rest ih =>
    obtain ⟨k, v⟩ := kv
    by_cases hk : k = key
    · simp [json_object_find, hk]
    · simp [json_object_find, hk, ih]

/-- Keyed access on an object gives the value that the lookup gives, fails with
key_not_found when the lookup finds nothing, and leaves the object as it was. -/
theorem basic_json.at_key_object (ms : List (List Nat × variant)) (t : semantic_tag)
    (k : List Nat) :
    basic_json.at_key ⟨.object_storage ms t⟩ k
      = (match json_object_find k ms with
          | some x => .ok x
          | none => .error .key_not_found, ⟨.object_storage ms t⟩) := by
  rcases json_object_find_position_spec k ms with ⟨h1, h2⟩ | ⟨x, h1, h2, h3⟩
  · simp [basic_json.at_key, variant.storage, basic_json.object_value,
      basic_json.object_range, random_access_iterator_wrapper.eq,
      random_access_iterator_wrapper.of_iterator, h1, h2]
  · have hne : json_object_find_position k ms ≠ ms.length := by omega
    simp [basic_json.at_key, variant.storage, basic_json.object_value,
      basic_json.object_range, random_access_iterator_wrapper.eq,
      random_access_iterator_wrapper.of_iterator, h1, h3, hne]

/-- Claim C18: for every value `v` and key `k`, `at(k)` returns the value mapped to `k` when
`v` is an object containing `k`, fails with key-not-found when `v` is an empty_object
or an object without `k`, and fails with not-an-object for every other storage
kind; in no case is `v` modified. -/
theorem at_key_outcome (v : basic_json) (k : List Nat) :
    (basic_json.at_key v k).1
      = (match v.var_ with
          | .object_storage ms _ =>
            (match json_object_find k ms with
              | some x => .ok x
              | none => .error .key_not_found)
          | .empty_object_storage _ => .error .key_not_found
          | _ => .error .not_an_object) ∧
    (basic_json.at_key v k).2 = v := by
  obtain ⟨var⟩ := v
  cases var
  case object_storage ms t =>
    rw [basic_json.at_key_object]
    exact ⟨rfl, rfl⟩
  all_goals exact ⟨rfl, rfl⟩

/-- Instances of C18 on the object `{"a": 1, "b": 2}`: `at("b")` is 2, `at("c")` fails with
key_not_found; and `at("a")` on the int64 5 fails with not_an_object. -/
theorem at_key_examples :
    (basic_json.at_key ⟨.object_storage [([97], .int64_storage 1 semantic_tag.none),
        ([98], .int64_storage 2 semantic_tag.none)] semantic_tag.none⟩ [98]).1
      = .ok (.int64_storage 2 semantic_tag.none) ∧
    (basic_json.at_key ⟨.object_storage [([97], .int64_storage 1 semantic_tag.none),
        ([98], .int64_storage 2 semantic_tag.none)] semantic_tag.none⟩ [99]).1
      = .error .key_not_found ∧
    (basic_json.at_key ⟨.int64_storage 5 semantic_tag.none⟩ [97]).1
      = .error .not_an_object := by
  refine ⟨rfl, rfl, rfl⟩

/-- Claim C19: for every array value `a` of size `n` and every index `i`, `at(i)` fails with
an out-of-range error exactly when `i >= n`, and otherwise returns the `i`-th
element of `a`; `a` is left as it was. -/
theorem at_index_array
    (json_object_at : List (List Nat × variant) → Nat → Except json_error variant)
    (elements : List variant) (t : semantic_tag) (i : Nat) :
    ((basic_json.at_index json_object_at ⟨.array_storage elements t⟩ i).1
        = .error .out_of_range ↔ i ≥ elements.length) ∧
    (basic_json.at_index json_object_at ⟨.array_storage elements t⟩ i).1
      = (match elements[i]? with
          | some x => .ok x
          | none => .error .out_of_range) ∧
    (elements[i]? = none ↔ i ≥ elements.length) ∧
    (basic_json.at_index json_object_at ⟨.array_storage elements t⟩ i).2
      = ⟨.array_storage elements t⟩ := by
  by_cases hi : i ≥ elements.length
  · have hnone : elements[i]? = none := List.getElem?_eq_none hi
    simp [basic_json.at_index, variant.storage, basic_json.array_value, hi, hnone]
  · have hlt : i < elements.length := by omega
    have hx : elements[i]? = some elements[i] := List.getElem?_eq_getElem hlt
    have hle : ¬ elements.length ≤ i := by omega
    simp [basic_json.at_index, variant.storage, basic_json.array_value, hx, hlt, hle]
/-! ## Theorems: queries that do not fail -/

/-- Claim C20 as stated fails at `v = Value(null)`: `find("a")` does not return an iterator
or the end sentinel, it fails with not_an_object, as it does for every kind
other than object and empty_object. -/
theorem find_fails_on_null :
    (basic_json.find ⟨.null_storage semantic_tag.none⟩ [97]).1 = .error .not_an_object ∧
    (basic_json.find ⟨.array_storage [] semantic_tag.none⟩ [97]).1 = .error .not_an_object := by
  exact ⟨rfl, rfl⟩

/-- On an object `contains` tells whether the lookup finds the key. -/
theorem basic_json.contains_object (ms : List (List Nat × variant)) (t : semantic_tag)
    (k : List Nat) :
    basic_json.contains ⟨.object_storage ms t⟩ k
      = (.ok (json_object_find k ms).isSome, ⟨.object_storage ms t⟩) := by
  rcases json_object_find_position_spec k ms with ⟨h1, h2⟩ | ⟨x, h1, h2, h3⟩
  · simp [basic_json.contains, variant.storage, basic_json.object_value,
      basic_json.object_range, random_access_iterator_wrapper.ne,
      random_access_iterator_wrapper.eq, random_access_iterator_wrapper.of_iterator, h1, h2]
  · have hne : json_object_find_position k ms ≠ ms.length := by omega
    simp [basic_json.contains, variant.storage, basic_json.object_value,
      basic_json.object_range, random_access_iterator_wrapper.ne,
      random_access_iterator_wrapper.eq, random_access_iterator_wrapper.of_iterator, h1, hne]

/-- Claim C20, amended: for every value `v` of any storage kind and every key `k`,
`contains(k)`, `empty()` and the `is_*` predicates never fail, and `contains` returns a
boolean that is true iff `v` is an object holding `k`; `find(k)` returns an iterator to
the entry for `k` or the end sentinel when `v` is an object or an empty_object, and
fails with not-an-object for every other storage kind. None of them modifies
`v`. -/
theorem queries_outcome (v : basic_json) (k : List Nat) (is_base10 : List Nat → Bool)
    (to_integer : List Nat → Option Int) (double_cast : double → Int)
    (ms : List (List Nat × variant)) :
    basic_json.contains v k
      = (.ok (match v.var_ with
              | .object_storage members _ => (json_object_find k members).isSome
              | _ => false), v) ∧
    (∃ b, basic_json.empty v = (.ok b, v)) ∧
    (∃ b, basic_json.is_bignum is_base10 v = .ok b) ∧
    (∃ b, basic_json.is_int64 to_integer double_cast v = .ok b) ∧
    (∃ b, basic_json.is_uint64 to_integer double_cast v = .ok b) ∧
    basic_json.find v k
      = (match v.var_ with
          | .object_storage members _ =>
            .ok (random_access_iterator_wrapper.of_iterator
              (json_object_find_position k members))
          | .empty_object_storage _ => .ok random_access_iterator_wrapper.default
          | _ => .error .not_an_object, v) ∧
    (json_object_find_position k ms = ms.length ∨
      ∃ x, ms[json_object_find_position k ms]? = some (k, x)) := by
  refine ⟨?_, ?_, ?_, ?_, ?_, ?_, ?_⟩
  · obtain ⟨var⟩ := v
    cases var
    case object_storage members t => exact basic_json.contains_object members t k
    all_goals rfl
  · obtain ⟨var⟩ := v
    cases var <;> exact ⟨_, rfl⟩
  · obtain ⟨var⟩ := v
    cases var <;> exact ⟨_, rfl⟩
  · obtain ⟨var⟩ := v
    cases var <;> exact ⟨_, rfl⟩
  · obtain ⟨var⟩ := v
    cases var <;> exact ⟨_, rfl⟩
  · obtain ⟨var⟩ := v
    cases var <;> rfl
  · rcases json_object_find_position_spec k ms with ⟨_, h2⟩ | ⟨x, _, _, h3⟩
    · exact Or.inl h2
    · exact Or.inr ⟨x, h3⟩

/-! ## Theorems: a copy compares equal -/

/-- In an object without repeated keys the lookup of the key of a member gives the
value of that member. -/
theorem json_object_find_of_mem (ms : List (List Nat × variant))
    (hnd : (ms.map Prod.fst).Nodup) (k : List Nat) (v : variant) (hmem : (k, v) ∈ ms) :
    json_object_find k ms = some v := by
  induction ms with
  | nil => cases hmem
  | cons kv rest ih =>
    obtain ⟨k1, v1⟩ := kv
    simp only [List.map_cons, List.nodup_cons] at hnd
    rcases List.mem_cons.mp hmem with h | h
    · cases h
      simp [json_object_find]
    · have hne : k1 ≠ k := by
        intro hk
        apply hnd.1
        rw [hk]
        exact List.mem_map.mpr ⟨(k, v), h, rfl⟩
      simp [json_object_find, hne, ih hnd.2 h]

mutual
/-- A regular value compares equal to a distinct object with the same content. -/
theorem variant.eq_self : ∀ (a : variant), a.regular = true → variant.eq a a = true
  | .null_storage _, _ => by simp [variant.eq]
  | .empty_object_storage _, _ => by simp [variant.eq]
  | .bool_storage _ _, _ => by simp [variant.eq]
  | .int64_storage _ _, _ => by simp [variant.eq]
  | .uint64_storage _ _, _ => by simp [variant.eq]
  | .half_storage _ _, _ => by simp [variant.eq]
  | .double_storage d _, h => by
      simp only [variant.regular, Bool.not_eq_true'] at h
      simp [variant.eq, variant.double_eq, double.eq, h]
  | .short_string_storage _ _, _ => by simp [variant.eq, string_view_eq]
  | .long_string_storage _ _, _ => by simp [variant.eq, string_view_eq]
  | .byte_string_storage _ _, _ => by simp [variant.eq, byte_string_view_eq]
  | .array_storage xs _, h => by
      simp only [variant.regular] at h
      simp only [variant.eq]
      exact json_array_eq_self xs h
  | .object_storage ms _, h => by
      simp only [variant.regular, Bool.and_eq_true, decide_eq_true_eq] at h
      simp only [variant.eq, decide_True, Bool.true_and]
      exact json_object_includes_of_find ms ms h.2
        (fun k v hmem => json_object_find_of_mem ms h.1 k v hmem)
/-- An array of regular values equals an array with the same elements. -/
theorem json_array_eq_self : ∀ (xs : List variant), regular_elements xs = true →
    json_array_eq xs xs = true
  | [], _ => by simp [json_array_eq]
  | x :: xs, h => by
      simp only [regular_elements, Bool.and_eq_true] at h
      simp only [json_array_eq, Bool.and_eq_true]
      exact ⟨variant.eq_self x h.1, json_array_eq_self xs h.2⟩
/-- Members with regular values, each found under its key in `ms`, are included in
`ms`. -/
theorem json_object_includes_of_find : ∀ (rest ms : List (List Nat × variant)),
    regular_members rest = true →
    (∀ k v, (k, v) ∈ rest → json_object_find k ms = some v) →
    json_object_includes rest ms = true
  | [], _, _, _ => by simp [json_object_includes]
  | (k, v) :: rest, ms, h, hf => by
      simp only [regular_members, Bool.and_eq_true] at h
      have hk : json_object_find k ms = some v := hf k v (List.mem_cons_self _ _)
      simp only [json_object_includes, hk, Bool.and_eq_true]
      exact ⟨variant.eq_self v h.1,
        json_object_includes_of_find rest ms h.2
          (fun k1 v1 hmem => hf k1 v1 (List.mem_cons_of_mem _ hmem))⟩
end
/-! ## Theorems: the deep copy -/

namespace stored_variant

/-- Reading a sequence of elements succeeds under a reader that succeeds wherever
another one does. -/
theorem read_elements_imp (f g : stored_variant → Option variant)
    (hfg : ∀ x v, f x = some v → g x = some v) :
    ∀ (xs : List stored_variant) (vs : List variant),
      read_elements f xs = some vs → read_elements g xs = some vs := by
  intro xs
  induction xs with
  | nil => intro vs h; simpa [read_elements] using h
  | cons x xs ih =>
    intro vs h
    simp only [read_elements] at h ⊢
    cases hx : f x with
    | none => simp [hx] at h
    | some v =>
      rw [hx] at h
      cases hxs : read_elements f xs with
      | none => simp [hxs] at h
      | some ws =>
        rw [hxs] at h
        simp only [hfg x v hx, ih ws hxs]
        exact h

/-- Reading a sequence of members succeeds under a reader that succeeds wherever
another one does. -/
theorem read_members_imp (f g : stored_variant → Option variant)
    (hfg : ∀ x v, f x = some v → g x = some v) :
    ∀ (ms : List (List Nat × stored_variant)) (vs : List (List Nat × variant)),
      read_members f ms = some vs → read_members g ms = some vs := by
  intro ms
  induction ms with
  | nil => intro vs h; simpa [read_members] using h
  | cons kx rest ih =>
    obtain ⟨k, x⟩ := kx
    intro vs h
    simp only [read_members] at h ⊢
    cases hx : f x with
    | none => simp [hx] at h
    | some v =>
      rw [hx] at h
      cases hxs : read_members f rest with
      | none => simp [hxs] at h
      | some ws =>
        rw [hxs] at h
        simp only [hfg x v hx, ih ws hxs]
        exact h

/-- The value of a variant in memory depends only on the addresses allocated when it
was read: a heap that agrees with `h` below `h.length` gives the same value. -/
theorem read_frame (h h2 : heap) (hagree : ∀ p, p < h.length → h2[p]? = h[p]?) :
    ∀ (fuel : Nat) (a : stored_variant) (v : variant),
      read fuel h a = some v → read fuel h2 a = some v := by
  intro fuel
  induction fuel with
  | zero => intro a v hr; simp [read] at hr
  | succ fuel ih =>
    intro a v hr
    cases a with
    | in_place w => simpa [read] using hr
    | long_string_storage t p =>
      by_cases hp : p < h.length
      · simp only [read, hagree p hp] at hr ⊢; exact hr
      · have hn : h[p]? = none := List.getElem?_eq_none (by omega)
        simp [read, hn] at hr
    | byte_string_storage t p =>
      by_cases hp : p < h.length
      · simp only [read, hagree p hp] at hr ⊢; exact hr
      · have hn : h[p]? = none := List.getElem?_eq_none (by omega)
        simp [read, hn] at hr
    | array_storage p t =>
      by_cases hp : p < h.length
      · simp only [read, hagree p hp] at hr ⊢
        cases hc : h[p]? with
        | none => simp [hc] at hr
        | some c =>
          rw [hc] at hr
          cases c with
          | json_array xs =>
            simp only at hr ⊢
            cases hxs : read_elements (read fuel h) xs with
            | none => simp [hxs] at hr
            | some vs =>
              rw [hxs] at hr
              rw [read_elements_imp _ _ ih xs vs hxs]
              exact hr
          | chars s => simp at hr
          | bytes s => simp at hr
          | json_object ms => simp at hr
      · have hn : h[p]? = none := List.getElem?_eq_none (by omega)
        simp [read, hn] at hr
    | object_storage p t =>
      by_cases hp : p < h.length
      · simp only [read, hagree p hp] at hr ⊢
        cases hc : h[p]? with
        | none => simp [hc] at hr
        | some c =>
          rw [hc] at hr
          cases c with
          | json_object ms =>
            simp only at hr ⊢
            cases hxs : read_members (read fuel h) ms with
            | none => simp [hxs] at hr
            | some vs =>
              rw [hxs] at hr
              rw [read_members_imp _ _ ih ms vs hxs]
              exact hr
          | chars s => simp at hr
          | bytes s => simp at hr
          | json_array xs => simp at hr
      · have hn : h[p]? = none := List.getElem?_eq_none (by omega)
        simp [read, hn] at hr

end stored_variant
namespace stored_variant

/-- The copy of a sequence of elements, given the copy of one variant. -/
theorem copy_elements_spec (fuel : Nat)
    (ih : ∀ (h : heap) (a : stored_variant) (v : variant),
      read fuel h a = some v → copies_to fuel h a v) :
    ∀ (xs : List stored_variant) (h : heap) (vs : List variant),
      read_elements (read fuel h) xs = some vs →
      ∃ (ys : List stored_variant) (new : heap),
        copy_elements (Init_ fuel) h xs = some (ys, h ++ new) ∧
        ∀ h2 : heap,
          (∀ p, h.length ≤ p → p < (h ++ new).length → h2[p]? = (h ++ new)[p]?) →
          read_elements (read fuel h2) ys = some vs := by
  intro xs
  induction xs with
  | nil =>
    intro h vs hr
    refine ⟨[], [], by simp [copy_elements], ?_⟩
    intro h2 _
    simpa [read_elements] using hr
  | cons x xs ihxs =>
    intro h vs hr
    simp only [read_elements] at hr
    cases hx : read fuel h x with
    | none => simp [hx] at hr
    | some v =>
      rw [hx] at hr
      cases hxs : read_elements (read fuel h) xs with
      | none => simp [hxs] at hr
      | some ws =>
        rw [hxs] at hr
        simp only [Option.some.injEq] at hr
        obtain ⟨b, new1, hcopy, hb⟩ := ih h x v hx
        have hframe : read_elements (read fuel (h ++ new1)) xs = some ws :=
          read_elements_imp _ _
            (read_frame h (h ++ new1)
              (fun p hp => List.getElem?_append_left hp) fuel) xs ws hxs
        obtain ⟨ys, new2, hcopy2, hys⟩ := ihxs (h ++ new1) ws hframe
        refine ⟨b :: ys, new1 ++ new2, ?_, ?_⟩
        · simp only [copy_elements, hcopy, hcopy2, List.append_assoc]
        · intro h2 hagree
          have h1 : read fuel h2 b = some v := by
            apply hb
            intro p hp1 hp2
            rw [hagree p hp1 (by simp only [List.length_append] at hp2 ⊢; omega)]
            rw [← List.append_assoc]
            exact List.getElem?_append_left hp2
          have h3 : read_elements (read fuel h2) ys = some ws := by
            apply hys
            intro p hp1 hp2
            rw [hagree p (by simp only [List.length_append] at hp1; omega)
              (by simpa only [List.append_assoc] using hp2)]
            rw [List.append_assoc]
          simp only [read_elements, h1, h3]
          rw [← hr]

/-- The copy of a sequence of members, given the copy of one variant. -/
theorem copy_members_spec (fuel : Nat)
    (ih : ∀ (h : heap) (a : stored_variant) (v : variant),
      read fuel h a = some v → copies_to fuel h a v) :
    ∀ (ms : List (List Nat × stored_variant)) (h : heap) (vs : List (List Nat × variant)),
      read_members (read fuel h) ms = some vs →
      ∃ (ys : List (List Nat × stored_variant)) (new : heap),
        copy_members (Init_ fuel) h ms = some (ys, h ++ new) ∧
        ∀ h2 : heap,
          (∀ p, h.length ≤ p → p < (h ++ new).length → h2[p]? = (h ++ new)[p]?) →
          read_members (read fuel h2) ys = some vs := by
  intro ms
  induction ms with
  | nil =>
    intro h vs hr
    refine ⟨[], [], by simp [copy_members], ?_⟩
    intro h2 _
    simpa [read_members] using hr
  | cons kx rest ihxs =>
    obtain ⟨k, x⟩ := kx
    intro h vs hr
    simp only [read_members] at hr
    cases hx : read fuel h x with
    | none => simp [hx] at hr
    | some v =>
      rw [hx] at hr
      cases hxs : read_members (read fuel h) rest with
      | none => simp [hxs] at hr
      | some ws =>
        rw [hxs] at hr
        simp only [Option.some.injEq] at hr
        obtain ⟨b, new1, hcopy, hb⟩ := ih h x v hx
        have hframe : read_members (read fuel (h ++ new1)) rest = some ws :=
          read_members_imp _ _
            (read_frame h (h ++ new1)
              (fun p hp => List.getElem?_append_left hp) fuel) rest ws hxs
        obtain ⟨ys, new2, hcopy2, hys⟩ := ihxs (h ++ new1) ws hframe
        refine ⟨(k, b) :: ys, new1 ++ new2, ?_, ?_⟩
        · simp only [copy_members, hcopy, hcopy2, List.append_assoc]
        · intro h2 hagree
          have h1 : read fuel h2 b = some v := by
            apply hb
            intro p hp1 hp2
            rw [hagree p hp1 (by simp only [List.length_append] at hp2 ⊢; omega)]
            rw [← List.append_assoc]
            exact List.getElem?_append_left hp2
          have h3 : read_members (read fuel h2) ys = some ws := by
            apply hys
            intro p hp1 hp2
            rw [hagree p (by simp only [List.length_append] at hp1; omega)
              (by simpa only [List.append_assoc] using hp2)]
            rw [List.append_assoc]
          simp only [read_members, h1, h3]
          rw [← hr]

end stored_variant
namespace stored_variant

/-- The copy of a variant in memory that reads as `v` succeeds with the same fuel, and
yields a variant that reads as `v` from the newly allocated addresses alone. -/
theorem copy_spec : ∀ (fuel : Nat) (h : heap) (a : stored_variant) (v : variant),
    read fuel h a = some v → copies_to fuel h a v := by
  intro fuel
  induction fuel with
  | zero => intro h a v hr; simp [read] at hr
  | succ fuel ih =>
    intro h a v hr
    cases a with
    | in_place w =>
      refine ⟨in_place w, [], by simp [Init_], ?_⟩
      intro h2 _
      simpa [read] using hr
    | long_string_storage t p =>
      cases hc : h[p]? with
      | none => simp [read, hc] at hr
      | some c =>
        cases c with
        | chars s =>
          simp only [read, hc, Option.some.injEq] at hr
          refine ⟨long_string_storage t h.length, [.chars s], by simp [Init_, hc], ?_⟩
          intro h2 hagree
          have hcell : h2[h.length]? = some (.chars s) := by
            rw [hagree h.length (le_refl _) (by simp)]
            exact List.getElem?_concat_length h _
          simp only [read, hcell]
          rw [hr]
        | bytes s => simp [read, hc] at hr
        | json_array xs => simp [read, hc] at hr
        | json_object ms => simp [read, hc] at hr
    | byte_string_storage t p =>
      cases hc : h[p]? with
      | none => simp [read, hc] at hr
      | some c =>
        cases c with
        | bytes s =>
          simp only [read, hc, Option.some.injEq] at hr
          refine ⟨byte_string_storage t h.length, [.bytes s], by simp [Init_, hc], ?_⟩
          intro h2 hagree
          have hcell : h2[h.length]? = some (.bytes s) := by
            rw [hagree h.length (le_refl _) (by simp)]
            exact List.getElem?_concat_length h _
          simp only [read, hcell]
          rw [hr]
        | chars s => simp [read, hc] at hr
        | json_array xs => simp [read, hc] at hr
        | json_object ms => simp [read, hc] at hr
    | array_storage p t =>
      cases hc : h[p]? with
      | none => simp [read, hc] at hr
      | some c =>
        cases c with
        | json_array xs =>
          simp only [read, hc] at hr
          cases hxs : read_elements (read fuel h) xs with
          | none => simp [hxs] at hr
          | some vs =>
            rw [hxs] at hr
            simp only [Option.some.injEq] at hr
            obtain ⟨ys, new1, hcopy, hys⟩ := copy_elements_spec fuel ih xs h vs hxs
            refine ⟨array_storage (h ++ new1).length t, new1 ++ [.json_array ys], ?_, ?_⟩
            · simp only [Init_, hc, hcopy, List.append_assoc]
            · intro h2 hagree
              have hcell : h2[(h ++ new1).length]? = some (.json_array ys) := by
                rw [hagree (h ++ new1).length (by simp) (by simp)]
                rw [← List.append_assoc]
                exact List.getElem?_concat_length (h ++ new1) _
              have hread : read_elements (read fuel h2) ys = some vs := by
                apply hys
                intro q hq1 hq2
                rw [hagree q hq1 (by simp only [List.length_append] at hq2 ⊢; omega)]
                rw [← List.append_assoc]
                exact List.getElem?_append_left hq2
              simp only [read, hcell, hread]
              rw [hr]
        | chars s => simp [read, hc] at hr
        | bytes s => simp [read, hc] at hr
        | json_object ms => simp [read, hc] at hr
    | object_storage p t =>
      cases hc : h[p]? with
      | none => simp [read, hc] at hr
      | some c =>
        cases c with
        | json_object ms =>
          simp only [read, hc] at hr
          cases hxs : read_members (read fuel h) ms with
          | none => simp [hxs] at hr
          | some vs =>
            rw [hxs] at hr
            simp only [Option.some.injEq] at hr
            obtain ⟨ys, new1, hcopy, hys⟩ := copy_members_spec fuel ih ms h vs hxs
            refine ⟨object_storage (h ++ new1).length t, new1 ++ [.json_object ys], ?_, ?_⟩
            · simp only [Init_, hc, hcopy, List.append_assoc]
            · intro h2 hagree
              have hcell : h2[(h ++ new1).length]? = some (.json_object ys) := by
                rw [hagree (h ++ new1).length (by simp) (by simp)]
                rw [← List.append_assoc]
                exact List.getElem?_concat_length (h ++ new1) _
              have hread : read_members (read fuel h2) ys = some vs := by
                apply hys
                intro q hq1 hq2
                rw [hagree q hq1 (by simp only [List.length_append] at hq2 ⊢; omega)]
                rw [← List.append_assoc]
                exact List.getElem?_append_left hq2
              simp only [read, hcell, hread]
              rw [hr]
        | chars s => simp [read, hc] at hr
        | bytes s => simp [read, hc] at hr
        | json_array xs => simp [read, hc] at hr

/-- A variant in memory has the kind and the tag of the value it reads as. -/
theorem read_storage_tag (fuel : Nat) (h : heap) (a : stored_variant) (v : variant)
    (hr : read fuel h a = some v) : v.storage = a.storage ∧ v.tag = a.tag := by
  cases fuel with
  | zero => simp [read] at hr
  | succ fuel =>
    cases a with
    | in_place w =>
      simp only [read] at hr
      split at hr
      · simp at hr
      · simp only [Option.some.injEq] at hr
        subst hr
        exact ⟨rfl, rfl⟩
    | long_string_storage t p =>
      simp only [read] at hr
      split at hr
      · simp only [Option.some.injEq] at hr
        subst hr
        exact ⟨rfl, rfl⟩
      · simp at hr
    | byte_string_storage t p =>
      simp only [read] at hr
      split at hr
      · simp only [Option.some.injEq] at hr
        subst hr
        exact ⟨rfl, rfl⟩
      · simp at hr
    | array_storage p t =>
      simp only [read] at hr
      split at hr
      · split at hr
        · simp only [Option.some.injEq] at hr
          subst hr
          exact ⟨rfl, rfl⟩
        · simp at hr
      · simp at hr
    | object_storage p t =>
      simp only [read] at hr
      split at hr
      · split at hr
        · simp only [Option.some.injEq] at hr
          subst hr
          exact ⟨rfl, rfl⟩
        · simp at hr
      · simp at hr

end stored_variant
/-- Claim C12 as stated fails at `a = Value(NaN)`: `b = copy(a)` has the storage kind, tag
and payload of `a`, but `b == a` is false, since a NaN double compares unequal to
every double. -/
theorem copy_of_nan_not_equal :
    (basic_json.copy_construct ⟨.double_storage double.quiet_NaN semantic_tag.none⟩).var_
      = .double_storage double.quiet_NaN semantic_tag.none ∧
    basic_json.eq false
      (basic_json.copy_construct ⟨.double_storage double.quiet_NaN semantic_tag.none⟩)
      ⟨.double_storage double.quiet_NaN semantic_tag.none⟩ = false := by
  exact ⟨rfl, by decide⟩

/-- Claim C12, amended: for every value `a` in memory, reading as `v`, `b = copy(a)` has the
same storage kind, tag and content as `a`, and compares equal to it when `v` is
regular (no NaN double at any depth and no object with a repeated key); the
payload of `b` lies at newly allocated addresses alone, so that any later change
of the heap at those addresses, such as replacing an element inside the nested
array of `b`, leaves the storage kind, tag and content of `a` unchanged. -/
theorem deep_copy_independent (fuel : Nat) (h : heap) (a : stored_variant) (v : variant)
    (ha : stored_variant.read fuel h a = some v) :
    ∃ (b : stored_variant) (new : heap),
      stored_variant.Init_ fuel h a = some (b, h ++ new) ∧
      stored_variant.read fuel (h ++ new) b = some (variant.Init_ v) ∧
      variant.Init_ v = v ∧
      b.storage = a.storage ∧ b.tag = a.tag ∧
      (v.regular = true → variant.operator_eq false (variant.Init_ v) v = true) ∧
      (∀ h2 : heap, (∀ p, p < h.length → h2[p]? = h[p]?) →
        stored_variant.read fuel h2 a = some v) ∧
      (∀ h2 : heap,
        (∀ p, h.length ≤ p → p < (h ++ new).length → h2[p]? = (h ++ new)[p]?) →
        stored_variant.read fuel h2 b = some v) := by
  obtain ⟨b, new, hcopy, hb⟩ := stored_variant.copy_spec fuel h a v ha
  have hread : stored_variant.read fuel (h ++ new) b = some v := hb (h ++ new) (fun _ _ _ => rfl)
  have hka := stored_variant.read_storage_tag fuel h a v ha
  have hkb := stored_variant.read_storage_tag fuel (h ++ new) b v hread
  refine ⟨b, new, hcopy, ?_, variant.Init_eq v, ?_, ?_, ?_, ?_, hb⟩
  · rw [variant.Init_eq]; exact hread
  · rw [← hkb.1, hka.1]
  · rw [← hkb.2, hka.2]
  · intro hreg
    rw [variant.Init_eq]
    simp only [variant.operator_eq, Bool.false_eq_true, if_false]
    exact variant.eq_self v hreg
  · intro h2 hagree
    exact stored_variant.read_frame h h2 hagree fuel a v ha

/-- Witness for C12 amended, at `a = [[1, 2], 3]` with its nested array at address 0
and its own array at address 1. -/
theorem deep_copy_independent_witness :
    stored_variant.read 3 nested_array_heap (.array_storage 1 semantic_tag.none)
      = some nested_array_value ∧
    nested_array_value.regular = true ∧
    ∃ (b : stored_variant) (new : heap),
      stored_variant.Init_ 3 nested_array_heap (.array_storage 1 semantic_tag.none)
        = some (b, nested_array_heap ++ new) ∧
      stored_variant.read 3 (nested_array_heap ++ new) b
        = some (variant.Init_ nested_array_value) ∧
      variant.Init_ nested_array_value = nested_array_value ∧
      b.storage = (stored_variant.array_storage 1 semantic_tag.none).storage ∧
      b.tag = (stored_variant.array_storage 1 semantic_tag.none).tag ∧
      (nested_array_value.regular = true →
        variant.operator_eq false (variant.Init_ nested_array_value) nested_array_value
          = true) ∧
      (∀ h2 : heap, (∀ p, p < nested_array_heap.length → h2[p]? = nested_array_heap[p]?) →
        stored_variant.read 3 h2 (.array_storage 1 semantic_tag.none)
          = some nested_array_value) ∧
      (∀ h2 : heap,
        (∀ p, nested_array_heap.length ≤ p → p < (nested_array_heap ++ new).length →
          h2[p]? = (nested_array_heap ++ new)[p]?) →
        stored_variant.read 3 h2 b = some nested_array_value) :=
  ⟨rfl, by decide,
    deep_copy_independent 3 nested_array_heap (.array_storage 1 semantic_tag.none)
      nested_array_value rfl⟩

/-- The example of C12, evaluated: the copy of `a = [[1, 2], 3]` is `b` at address 3 with
its nested array at address 2; after the element 1 inside the nested array of `b`
is replaced by 9, `b` reads `[[9, 2], 3]` and `a` still reads `[[1, 2], 3]`. -/
theorem nested_array_copy_example :
    stored_variant.Init_ 3 nested_array_heap (.array_storage 1 semantic_tag.none)
      = some (.array_storage 3 semantic_tag.none, nested_array_heap_copied) ∧
    stored_variant.read 3 nested_array_heap_mutated (.array_storage 3 semantic_tag.none)
      = some (.array_storage [.array_storage [.int64_storage 9 semantic_tag.none,
            .int64_storage 2 semantic_tag.none] semantic_tag.none,
          .int64_storage 3 semantic_tag.none] semantic_tag.none) ∧
    stored_variant.read 3 nested_array_heap_mutated (.array_storage 1 semantic_tag.none)
      = some nested_array_value := by
  exact ⟨rfl, rfl, rfl⟩

/-! ## Theorems: typed views -/

/-- Claim C21: for every value `v`, `as_string_view()` succeeds exactly when the storage
kind of `v` is short_string or long_string, and `as_byte_string_view()` succeeds
exactly when it is byte_string, returning the stored bytes unchanged; on every
other kind each fails with the type-mismatch error, a `std::domain_error`. -/
theorem typed_views (v : variant) :
    ((∃ s, v.as_string_view = .ok s) ↔
      (v.storage = storage_kind.short_string_value ∨
        v.storage = storage_kind.long_string_value)) ∧
    (¬ (v.storage = storage_kind.short_string_value ∨
        v.storage = storage_kind.long_string_value) →
      v.as_string_view = .error .domain_error) ∧
    ((∃ b, v.as_byte_string_view = .ok b) ↔ v.storage = storage_kind.byte_string_value) ∧
    (v.storage ≠ storage_kind.byte_string_value →
      v.as_byte_string_view = .error .domain_error) ∧
    (∀ (t : semantic_tag) (bytes : List Nat),
      (variant.byte_string_storage t bytes).as_byte_string_view = .ok bytes) ∧
    (∀ (t : semantic_tag) (s : List Nat),
      (variant.short_string_storage t s).as_string_view = .ok s ∧
      (variant.long_string_storage t s).as_string_view = .ok s) := by
  refine ⟨?_, ?_, ?_, ?_, fun _ _ => rfl, fun _ _ => ⟨rfl, rfl⟩⟩
  · cases v <;> simp [variant.as_string_view, variant.storage]
  · cases v <;> simp [variant.as_string_view, variant.storage]
  · cases v <;> simp [variant.as_byte_string_view, variant.storage]
  · cases v <;> simp [variant.as_byte_string_view, variant.storage]

/-! ## Theorems: wrong-kind mutations -/

/-- A merge whose source is neither an object nor an empty_object fails and leaves
the source as it is; the receiver is as before unless it was an empty_object,
which has become an object without entries and with tag none. -/
theorem basic_json.merge_non_object_source (policy : ordering_policy)
    (receiver source : basic_json) (hs : source.var_.storage.is_object = false) :
    basic_json.merge policy receiver source
      = (.error .domain_error,
          (if receiver.var_.storage = storage_kind.empty_object_value
            then ⟨.object_storage [] semantic_tag.none⟩ else receiver), source) ∧
    basic_json.merge_or_update policy receiver source
      = (.error .domain_error,
          (if receiver.var_.storage = storage_kind.empty_object_value
            then ⟨.object_storage [] semantic_tag.none⟩ else receiver), source) := by
  obtain ⟨r⟩ := receiver
  obtain ⟨s⟩ := source
  cases r <;> cases s <;>
    first
    | exact ⟨rfl, rfl⟩
    | simp [variant.storage, storage_kind.is_object] at hs

/-- Claim C22, at the failing input of a receiver that is an empty_object (with tag none, or
with the tag 1) and the source `Value(null)`: `merge` and `merge_or_update` fail, and the
receiver is no longer what it was: its storage kind has become object and its
tag none. A receiver that is an object, or of a kind that is not an object
kind, is left as it was: here `{"a": 1}` and `Value(3)`. -/
theorem merge_failure_materializes_receiver (policy : ordering_policy) :
    basic_json.merge policy ⟨.empty_object_storage semantic_tag.none⟩
        ⟨.null_storage semantic_tag.none⟩
      = (.error .domain_error, ⟨.object_storage [] semantic_tag.none⟩,
          ⟨.null_storage semantic_tag.none⟩) ∧
    basic_json.merge_or_update policy ⟨.empty_object_storage semantic_tag.none⟩
        ⟨.null_storage semantic_tag.none⟩
      = (.error .domain_error, ⟨.object_storage [] semantic_tag.none⟩,
          ⟨.null_storage semantic_tag.none⟩) ∧
    basic_json.merge policy ⟨.empty_object_storage ⟨1⟩⟩ ⟨.null_storage semantic_tag.none⟩
      = (.error .domain_error, ⟨.object_storage [] semantic_tag.none⟩,
          ⟨.null_storage semantic_tag.none⟩) ∧
    basic_json.merge_or_update policy ⟨.empty_object_storage ⟨1⟩⟩
        ⟨.null_storage semantic_tag.none⟩
      = (.error .domain_error, ⟨.object_storage [] semantic_tag.none⟩,
          ⟨.null_storage semantic_tag.none⟩) ∧
    basic_json.merge policy
        ⟨.object_storage [([97], .int64_storage 1 semantic_tag.none)] semantic_tag.none⟩
        ⟨.null_storage semantic_tag.none⟩
      = (.error .domain_error,
          ⟨.object_storage [([97], .int64_storage 1 semantic_tag.none)] semantic_tag.none⟩,
          ⟨.null_storage semantic_tag.none⟩) ∧
    basic_json.merge policy ⟨.int64_storage 3 semantic_tag.none⟩
        ⟨.null_storage semantic_tag.none⟩
      = (.error .domain_error, ⟨.int64_storage 3 semantic_tag.none⟩,
          ⟨.null_storage semantic_tag.none⟩) := by
  exact ⟨rfl, rfl, rfl, rfl, rfl, rfl⟩

/-- Claim C23: for every value `v` whose storage kind is not array, empty_object and
object included, `push_back(x)`, the positional `insert` and `erase` at an array
position each fail with an error and leave the storage kind, tag and content of
`v` unchanged. -/
theorem array_mutation_on_non_array (v : basic_json) (x : variant) (pos : Nat)
    (hv : v.var_.storage ≠ storage_kind.array_value) :
    basic_json.push_back v x = (.error .domain_error, v) ∧
    basic_json.insert v pos x = (.error .domain_error, v) ∧
    basic_json.erase v pos = (.error .domain_error, v) := by
  obtain ⟨var⟩ := v
  cases var <;> first | exact ⟨rfl, rfl, rfl⟩ | simp [variant.storage] at hv

/-- Witness for C23, at the object `{"a": 1}`. -/
theorem array_mutation_on_non_array_witness :
    (basic_json.mk (.object_storage [([97], .int64_storage 1 semantic_tag.none)]
        semantic_tag.none)).var_.storage ≠ storage_kind.array_value ∧
    (basic_json.push_back
        ⟨.object_storage [([97], .int64_storage 1 semantic_tag.none)] semantic_tag.none⟩
        (.int64_storage 2 semantic_tag.none)
      = (.error .domain_error,
          ⟨.object_storage [([97], .int64_storage 1 semantic_tag.none)] semantic_tag.none⟩) ∧
     basic_json.insert
        ⟨.object_storage [([97], .int64_storage 1 semantic_tag.none)] semantic_tag.none⟩ 0
        (.int64_storage 2 semantic_tag.none)
      = (.error .domain_error,
          ⟨.object_storage [([97], .int64_storage 1 semantic_tag.none)] semantic_tag.none⟩) ∧
     basic_json.erase
        ⟨.object_storage [([97], .int64_storage 1 semantic_tag.none)] semantic_tag.none⟩ 0
      = (.error .domain_error,
          ⟨.object_storage [([97], .int64_storage 1 semantic_tag.none)]
            semantic_tag.none⟩)) :=
  ⟨by decide, array_mutation_on_non_array
    ⟨.object_storage [([97], .int64_storage 1 semantic_tag.none)] semantic_tag.none⟩
    (.int64_storage 2 semantic_tag.none) 0 (by decide)⟩

/-- Claim C24 as stated fails at `v = Value(null)`: `resize(3)` and `clear()` do not fail, they
return and leave `v` as it was. -/
theorem resize_clear_ignored_on_null :
    basic_json.resize ⟨.null_storage semantic_tag.none⟩ 3
      = (.ok (), ⟨.null_storage semantic_tag.none⟩) ∧
    basic_json.clear ⟨.null_storage semantic_tag.none⟩
      = (.ok (), ⟨.null_storage semantic_tag.none⟩) := by
  exact ⟨rfl, rfl⟩

/-- Claim C24, amended: wrong-kind use of `resize` and `clear` is ignored, not surfaced as
a failure: `resize(n)` on a value whose storage kind is not array, and `clear()` on a
value that is neither an array nor an object, return without failing and leave
the value unchanged. -/
theorem resize_clear_wrong_kind (v : basic_json) (n : Nat) :
    (v.var_.storage ≠ storage_kind.array_value → basic_json.resize v n = (.ok (), v)) ∧
    (v.var_.storage ≠ storage_kind.array_value →
      v.var_.storage ≠ storage_kind.object_value → basic_json.clear v = (.ok (), v)) := by
  obtain ⟨var⟩ := v
  cases var <;> simp [variant.storage, basic_json.resize, basic_json.clear]

/-- Witness for C24 amended, at the object `{"a": 1}` for `resize(0)` and at `Value(true)` for
`clear()`. -/
theorem resize_clear_wrong_kind_witness :
    basic_json.resize
        ⟨.object_storage [([97], .int64_storage 1 semantic_tag.none)] semantic_tag.none⟩ 0
      = (.ok (),
          ⟨.object_storage [([97], .int64_storage 1 semantic_tag.none)] semantic_tag.none⟩) ∧
    basic_json.clear ⟨.bool_storage true semantic_tag.none⟩
      = (.ok (), ⟨.bool_storage true semantic_tag.none⟩) :=
  ⟨(resize_clear_wrong_kind
      ⟨.object_storage [([97], .int64_storage 1 semantic_tag.none)] semantic_tag.none⟩ 0).1
      (by decide),
   (resize_clear_wrong_kind ⟨.bool_storage true semantic_tag.none⟩ 0).2
      (by decide) (by decide)⟩
/-! ## Theorems: integers against floating-point values -/

/-- An integer against a double, in both directions: the comparison of the
conversions to double. -/
theorem lt_integer_double (n : Int) (u : Nat) (f : double) (t1 t2 : semantic_tag) :
    variant.lt (.int64_storage n t1) (.double_storage f t2)
      = some ((double.of_int64 n).lt f) ∧
    variant.lt (.double_storage f t2) (.int64_storage n t1)
      = some (f.lt (double.of_int64 n)) ∧
    variant.lt (.uint64_storage u t1) (.double_storage f t2)
      = some ((double.of_uint64 u).lt f) ∧
    variant.lt (.double_storage f t2) (.uint64_storage u t1)
      = some (f.lt (double.of_uint64 u)) := by
  refine ⟨?_, ?_, ?_, ?_⟩ <;> rw [variant.lt]

/-- Claim C25, at the failing input `n = int64 5`, `f = half_float 1.0` (bits `0x3C00`): the code
answers `true` to `Value(n) < Value(f)` by the rank of the kinds, although
`double(5) < 1.0` is false, and `Value(f) < Value(n)` reaches no case of the switch; the
same holds for `uint64 5`. Against a double the claim holds: the ordering is the
ordering of the conversions, and `Value(int64 5) < Value(double 5.5)`. -/
theorem lt_integer_half_by_rank :
    basic_json.lt false ⟨.int64_storage 5 semantic_tag.none⟩
      ⟨.half_storage 0x3C00 semantic_tag.none⟩ = some true ∧
    (double.of_int64 5).lt (decode_half 0x3C00) = false ∧
    basic_json.lt false ⟨.uint64_storage 5 semantic_tag.none⟩
      ⟨.half_storage 0x3C00 semantic_tag.none⟩ = some true ∧
    (double.of_uint64 5).lt (decode_half 0x3C00) = false ∧
    basic_json.lt false ⟨.half_storage 0x3C00 semantic_tag.none⟩
      ⟨.int64_storage 5 semantic_tag.none⟩ = none ∧
    (∀ (n : Int) (f : double) (t1 t2 : semantic_tag),
      variant.lt (.int64_storage n t1) (.double_storage f t2)
        = some ((double.of_int64 n).lt f) ∧
      variant.lt (.double_storage f t2) (.int64_storage n t1)
        = some (f.lt (double.of_int64 n))) ∧
    (∀ (u : Nat) (f : double) (t1 t2 : semantic_tag),
      variant.lt (.uint64_storage u t1) (.double_storage f t2)
        = some ((double.of_uint64 u).lt f) ∧
      variant.lt (.double_storage f t2) (.uint64_storage u t1)
        = some (f.lt (double.of_uint64 u))) ∧
    basic_json.lt false ⟨.int64_storage 5 semantic_tag.none⟩
      ⟨.double_storage ⟨0x4016000000000000⟩ semantic_tag.none⟩ = some true := by
  refine ⟨?_, by decide, ?_, by decide, ?_, ?_, ?_, ?_⟩
  · simp [basic_json.lt, variant.operator_lt, variant.lt, variant.rank_lt, variant.storage,
      storage_kind.toNat]
  · simp [basic_json.lt, variant.operator_lt, variant.lt, variant.rank_lt, variant.storage,
      storage_kind.toNat]
  · simp [basic_json.lt, variant.operator_lt, variant.lt]
  · intro n f t1 t2
    exact ⟨(lt_integer_double n 0 f t1 t2).1, (lt_integer_double n 0 f t1 t2).2.1⟩
  · intro u f t1 t2
    exact ⟨(lt_integer_double 0 u f t1 t2).2.2.1, (lt_integer_double 0 u f t1 t2).2.2.2⟩
  · have h := (lt_integer_double 5 0 ⟨0x4016000000000000⟩ semantic_tag.none
      semantic_tag.none).1
    simp only [basic_json.lt, variant.operator_lt, Bool.false_eq_true, if_false, h]
    decide
/-! ## Theorems: the order of arrays and the semantic tag -/

/-- No sequence is lexicographically less than itself. -/
theorem lexicographical_compare_self : ∀ (a : List Nat), lexicographical_compare a a = false
  | [] => rfl
  | x :: xs => by
      simp [lexicographical_compare, lexicographical_compare_self xs]

/-- No double is less than itself. -/
theorem double.lt_irrefl (d : double) : d.lt d = false := by
  simp [double.lt]

mutual
/-- No value is less than a distinct object with the same content. -/
theorem variant.lt_self : ∀ (a : variant), variant.lt a a ≠ some true
  | .null_storage _ => by simp [variant.lt, variant.rank_lt]
  | .empty_object_storage _ => by simp [variant.lt]
  | .bool_storage _ _ => by simp [variant.lt]
  | .int64_storage _ _ => by simp [variant.lt]
  | .uint64_storage _ _ => by simp [variant.lt]
  | .half_storage _ _ => by simp [variant.lt]
  | .double_storage d _ => by simp [variant.lt, double.lt_irrefl]
  | .short_string_storage _ s => by
      simp [variant.lt, string_view_lt, lexicographical_compare_self]
  | .long_string_storage _ s => by
      simp [variant.lt, string_view_lt, lexicographical_compare_self]
  | .byte_string_storage _ s => by
      simp [variant.lt, byte_string_view_lt, lexicographical_compare_self]
  | .array_storage xs _ => by
      rw [variant.lt]
      exact json_array_lt_self xs
  | .object_storage ms _ => by
      rw [variant.lt]
      exact json_object_lt_self ms
/-- No array is less than an array with the same elements. -/
theorem json_array_lt_self : ∀ (xs : List variant), json_array_lt xs xs ≠ some true
  | [] => by simp [json_array_lt]
  | x :: xs => by
      have hx := variant.lt_self x
      have hxs := json_array_lt_self xs
      rw [json_array_lt]
      cases h : variant.lt x x with
      | none => simp
      | some b =>
        cases b with
        | true => exact absurd h hx
        | false => simpa using hxs
/-- No object is less than an object with the same members. -/
theorem json_object_lt_self : ∀ (ms : List (List Nat × variant)),
    json_object_lt ms ms ≠ some true
  | [] => by simp [json_object_lt]
  | (k, v) :: ms => by
      have hv := variant.lt_self v
      have hms := json_object_lt_self ms
      have hkv : key_value_lt (k, v) (k, v) = variant.lt v v := by
        rw [key_value_lt]
        simp [lexicographical_compare_self]
      rw [json_object_lt, hkv]
      cases h : variant.lt v v with
      | none => simp
      | some b =>
        cases b with
        | true => exact absurd h hv
        | false => simpa using hms
end

/-- Arrays with a common initial segment, whose elements are not less than
themselves, are ordered as their remainders are. -/
theorem json_array_lt_common_initial :
    ∀ (p a b : List variant), (∀ z ∈ p, variant.lt z z = some false) →
      json_array_lt (p ++ a) (p ++ b) = json_array_lt a b
  | [], _, _, _ => rfl
  | z :: p, a, b, h => by
      have hz : variant.lt z z = some false := h z (List.mem_cons_self _ _)
      have ih := json_array_lt_common_initial p a b
        (fun w hw => h w (List.mem_cons_of_mem _ hw))
      rw [List.cons_append, List.cons_append, json_array_lt]
      simp only [hz, ih]

/-- Arrays are equal exactly when they have the same length and are pairwise
equal. -/
theorem json_array_eq_iff :
    ∀ (xs ys : List variant), json_array_eq xs ys = true ↔
      xs.length = ys.length ∧
      ∀ (i : Nat) (h1 : i < xs.length) (h2 : i < ys.length), variant.eq xs[i] ys[i] = true
  | [], [] => by simp [json_array_eq]
  | [], _ :: _ => by simp [json_array_eq]
  | _ :: _, [] => by simp [json_array_eq]
  | x :: xs, y :: ys => by
      have ih := json_array_eq_iff xs ys
      simp only [json_array_eq, Bool.and_eq_true, ih, List.length_cons]
      constructor
      · rintro ⟨hxy, hlen, hall⟩
        refine ⟨by omega, ?_⟩
        intro i h1 h2
        cases i with
        | zero => simpa using hxy
        | succ i =>
          simpa using hall i (by simpa using h1) (by simpa using h2)
      · rintro ⟨hlen, hall⟩
        refine ⟨?_, by omega, ?_⟩
        · simpa using hall 0 (by simp) (by simp)
        · intro i h1 h2
          simpa using hall (i + 1) (by simpa using h1) (by simpa using h2)

/-- Arrays whose common initial segment holds only elements that `<` orders, none of
them less than itself (as every value without a half_float is), are ordered
lexicographically: by the first element after the segment in which they differ,
a proper initial segment being less than the longer array and not the other way
round; and two arrays are equal iff they have the same length and are pairwise
equal. -/
theorem array_order_and_equality (p xs ys : List variant) (x y : variant)
    (t1 t2 : semantic_tag) (hp : ∀ z ∈ p, variant.lt z z = some false) :
    (ys ≠ [] →
      basic_json.lt false ⟨.array_storage p t1⟩ ⟨.array_storage (p ++ ys) t2⟩ = some true) ∧
    basic_json.lt false ⟨.array_storage (p ++ ys) t1⟩ ⟨.array_storage p t2⟩ = some false ∧
    (variant.lt x y = some true →
      basic_json.lt false ⟨.array_storage (p ++ x :: xs) t1⟩
        ⟨.array_storage (p ++ y :: ys) t2⟩ = some true) ∧
    (variant.lt x y = some false → variant.lt y x = some true →
      basic_json.lt false ⟨.array_storage (p ++ x :: xs) t1⟩
        ⟨.array_storage (p ++ y :: ys) t2⟩ = some false) ∧
    (basic_json.eq false ⟨.array_storage xs t1⟩ ⟨.array_storage ys t2⟩ = true ↔
      xs.length = ys.length ∧
      ∀ (i : Nat) (h1 : i < xs.length) (h2 : i < ys.length),
        variant.eq xs[i] ys[i] = true) ∧
    basic_json.lt false
      ⟨.array_storage [.int64_storage 1 semantic_tag.none, .int64_storage 2 semantic_tag.none]
        semantic_tag.none⟩
      ⟨.array_storage [.int64_storage 1 semantic_tag.none, .int64_storage 2 semantic_tag.none,
        .int64_storage 0 semantic_tag.none] semantic_tag.none⟩ = some true ∧
    basic_json.lt false
      ⟨.array_storage [.int64_storage 1 semantic_tag.none] semantic_tag.none⟩
      ⟨.array_storage [.int64_storage 2 semantic_tag.none] semantic_tag.none⟩ = some true := by
  have hlt : ∀ (a b : List variant) (s1 s2 : semantic_tag),
      basic_json.lt false ⟨.array_storage a s1⟩ ⟨.array_storage b s2⟩ = json_array_lt a b := by
    intro a b s1 s2
    simp only [basic_json.lt, variant.operator_lt, Bool.false_eq_true, if_false]
    rw [variant.lt]
  refine ⟨?_, ?_, ?_, ?_, ?_, ?_, ?_⟩
  · intro hne
    have h := json_array_lt_common_initial p [] ys hp
    rw [List.append_nil] at h
    rw [hlt, h]
    cases ys with
    | nil => exact absurd rfl hne
    | cons y0 ys0 => rw [json_array_lt]
  · have h := json_array_lt_common_initial p ys [] hp
    rw [List.append_nil] at h
    rw [hlt, h]
    cases ys with
    | nil => rw [json_array_lt]
    | cons y0 ys0 => rw [json_array_lt]
  · intro hxy
    rw [hlt, json_array_lt_common_initial p _ _ hp, json_array_lt]
    simp only [hxy]
  · intro hxy hyx
    rw [hlt, json_array_lt_common_initial p _ _ hp, json_array_lt]
    simp only [hxy, hyx]
  · simp only [basic_json.eq, variant.operator_eq, Bool.false_eq_true, if_false, variant.eq]
    exact json_array_eq_iff xs ys
  · simp [basic_json.lt, variant.operator_lt, variant.lt, json_array_lt]
  · simp [basic_json.lt, variant.operator_lt, variant.lt, json_array_lt]

/-- The order of arrays at the common initial segment `[1]` and the remainders `[2, 5]` and
`[3]`. -/
theorem array_order_and_equality_example :
    (∀ z ∈ [variant.int64_storage 1 semantic_tag.none], variant.lt z z = some false) ∧
    basic_json.lt false
      ⟨.array_storage ([.int64_storage 1 semantic_tag.none]
        ++ .int64_storage 2 semantic_tag.none :: [.int64_storage 5 semantic_tag.none])
        semantic_tag.none⟩
      ⟨.array_storage ([.int64_storage 1 semantic_tag.none]
        ++ .int64_storage 3 semantic_tag.none :: []) semantic_tag.none⟩ = some true :=
  ⟨by simp [variant.lt],
   (array_order_and_equality [.int64_storage 1 semantic_tag.none]
      [.int64_storage 5 semantic_tag.none] []
      (.int64_storage 2 semantic_tag.none) (.int64_storage 3 semantic_tag.none)
      semantic_tag.none semantic_tag.none (by simp [variant.lt])).2.2.1
      (by simp [variant.lt])⟩

mutual
/-- A value without a half_float is not less than a distinct object with the same
content, and `<` returns on the pair. -/
theorem variant.lt_self_half_free : ∀ (a : variant), a.half_free = true →
    variant.lt a a = some false
  | .null_storage _, _ => by simp [variant.lt, variant.rank_lt]
  | .empty_object_storage _, _ => by simp [variant.lt]
  | .bool_storage _ _, _ => by simp [variant.lt]
  | .int64_storage _ _, _ => by simp [variant.lt]
  | .uint64_storage _ _, _ => by simp [variant.lt]
  | .half_storage _ _, h => by simp [variant.half_free] at h
  | .double_storage d _, _ => by simp [variant.lt, double.lt_irrefl]
  | .short_string_storage _ s, _ => by
      simp [variant.lt, string_view_lt, lexicographical_compare_self]
  | .long_string_storage _ s, _ => by
      simp [variant.lt, string_view_lt, lexicographical_compare_self]
  | .byte_string_storage _ s, _ => by
      simp [variant.lt, byte_string_view_lt, lexicographical_compare_self]
  | .array_storage xs _, h => by
      simp only [variant.half_free] at h
      rw [variant.lt]
      exact json_array_lt_self_half_free xs h
  | .object_storage ms _, h => by
      simp only [variant.half_free] at h
      rw [variant.lt]
      exact json_object_lt_self_half_free ms h
/-- An array without a half_float is not less than an array with the same
elements. -/
theorem json_array_lt_self_half_free : ∀ (xs : List variant),
    half_free_elements xs = true → json_array_lt xs xs = some false
  | [], _ => by rw [json_array_lt]
  | x :: xs, h => by
      simp only [half_free_elements, Bool.and_eq_true] at h
      rw [json_array_lt]
      simp only [variant.lt_self_half_free x h.1]
      exact json_array_lt_self_half_free xs h.2
/-- An object without a half_float is not less than an object with the same
members. -/
theorem json_object_lt_self_half_free : ∀ (ms : List (List Nat × variant)),
    half_free_members ms = true → json_object_lt ms ms = some false
  | [], _ => by rw [json_object_lt]
  | (k, v) :: ms, h => by
      simp only [half_free_members, Bool.and_eq_true] at h
      have hkv : key_value_lt (k, v) (k, v) = some false := by
        rw [key_value_lt]
        simp [lexicographical_compare_self, variant.lt_self_half_free v h.1]
      rw [json_object_lt]
      simp only [hkv]
      exact json_object_lt_self_half_free ms h.2
end

/-- Every element of an array without a half_float is without a half_float. -/
theorem half_free_elements_mem (p : List variant) (h : half_free_elements p = true)
    (z : variant) (hz : z ∈ p) : z.half_free = true := by
  induction p with
  | nil => cases hz
  | cons x xs ih =>
    simp only [half_free_elements, Bool.and_eq_true] at h
    rcases List.mem_cons.mp hz with h1 | h1
    · rw [h1]
      exact h.1
    · exact ih h.2 h1

/-- Claim C28, at the failing input `Value([h])` and `Value([h, 1])` for the half_float `h = 1.0`
(bits `0x3C00`): the proper initial segment is not found less than the longer array,
for the comparison of the first elements reaches no case of the switch of
`operator<` and does not return; so it is for every array that begins with a
half_float, against every array that is not empty. Arrays whose common initial
segment holds no half_float are ordered as the claim says: by the first element
after the segment in which they differ, a proper initial segment being less than
the longer array and not the other way round, as in `Value([1,2]) < Value([1,2,0])` and
`Value([1]) < Value([2])`; and in every case two arrays are equal iff they have the same
length and are pairwise equal. -/
theorem lt_array_half_unreachable (h : Nat) (t t1 t2 : semantic_tag) (x y : variant)
    (p xs ys : List variant) :
    basic_json.lt false
      ⟨.array_storage [.half_storage 0x3C00 semantic_tag.none] semantic_tag.none⟩
      ⟨.array_storage [.half_storage 0x3C00 semantic_tag.none,
        .int64_storage 1 semantic_tag.none] semantic_tag.none⟩ = none ∧
    basic_json.lt false ⟨.array_storage (.half_storage h t :: xs) t1⟩
      ⟨.array_storage (y :: ys) t2⟩ = none ∧
    (half_free_elements p = true →
      (ys ≠ [] →
        basic_json.lt false ⟨.array_storage p t1⟩ ⟨.array_storage (p ++ ys) t2⟩
          = some true) ∧
      basic_json.lt false ⟨.array_storage (p ++ ys) t1⟩ ⟨.array_storage p t2⟩
        = some false ∧
      (variant.lt x y = some true →
        basic_json.lt false ⟨.array_storage (p ++ x :: xs) t1⟩
          ⟨.array_storage (p ++ y :: ys) t2⟩ = some true) ∧
      (variant.lt x y = some false → variant.lt y x = some true →
        basic_json.lt false ⟨.array_storage (p ++ x :: xs) t1⟩
          ⟨.array_storage (p ++ y :: ys) t2⟩ = some false)) ∧
    basic_json.lt false
      ⟨.array_storage [.int64_storage 1 semantic_tag.none, .int64_storage 2 semantic_tag.none]
        semantic_tag.none⟩
      ⟨.array_storage [.int64_storage 1 semantic_tag.none, .int64_storage 2 semantic_tag.none,
        .int64_storage 0 semantic_tag.none] semantic_tag.none⟩ = some true ∧
    basic_json.lt false
      ⟨.array_storage [.int64_storage 1 semantic_tag.none] semantic_tag.none⟩
      ⟨.array_storage [.int64_storage 2 semantic_tag.none] semantic_tag.none⟩ = some true ∧
    (basic_json.eq false ⟨.array_storage xs t1⟩ ⟨.array_storage ys t2⟩ = true ↔
      xs.length = ys.length ∧
      ∀ (i : Nat) (h1 : i < xs.length) (h2 : i < ys.length),
        variant.eq xs[i] ys[i] = true) := by
  have hgen : ∀ (h0 : Nat) (s s1 s2 : semantic_tag) (y0 : variant) (as bs : List variant),
      basic_json.lt false ⟨.array_storage (.half_storage h0 s :: as) s1⟩
        ⟨.array_storage (y0 :: bs) s2⟩ = none := by
    intro h0 s s1 s2 y0 as bs
    simp only [basic_json.lt, variant.operator_lt, Bool.false_eq_true, if_false]
    rw [variant.lt, json_array_lt, lt_half_unreachable]
  refine ⟨hgen _ _ _ _ _ _ _, hgen _ _ _ _ _ _ _, ?_, ?_, ?_, ?_⟩
  · intro hp
    have hall := array_order_and_equality p xs ys x y t1 t2
      (fun z hz => variant.lt_self_half_free z (half_free_elements_mem p hp z hz))
    exact ⟨hall.1, hall.2.1, hall.2.2.1, hall.2.2.2.1⟩
  · simp [basic_json.lt, variant.operator_lt, variant.lt, json_array_lt]
  · simp [basic_json.lt, variant.operator_lt, variant.lt, json_array_lt]
  · simp only [basic_json.eq, variant.operator_eq, Bool.false_eq_true, if_false, variant.eq]
    exact json_array_eq_iff xs ys

/-- Witness for C28, at the common initial segment `[1]`, which holds no half_float, and the
remainders `[2, 5]` and `[3]`. -/
theorem lt_array_half_unreachable_witness :
    half_free_elements [variant.int64_storage 1 semantic_tag.none] = true ∧
    basic_json.lt false
      ⟨.array_storage ([.int64_storage 1 semantic_tag.none]
        ++ .int64_storage 2 semantic_tag.none :: [.int64_storage 5 semantic_tag.none])
        semantic_tag.none⟩
      ⟨.array_storage ([.int64_storage 1 semantic_tag.none]
        ++ .int64_storage 3 semantic_tag.none :: []) semantic_tag.none⟩ = some true :=
  ⟨by decide,
   ((lt_array_half_unreachable 0 semantic_tag.none semantic_tag.none semantic_tag.none
      (.int64_storage 2 semantic_tag.none) (.int64_storage 3 semantic_tag.none)
      [.int64_storage 1 semantic_tag.none] [.int64_storage 5 semantic_tag.none] []).2.2.1
      (by decide)).2.2.1 (by simp [variant.lt])⟩

/-- A new member is found under its key. -/
theorem json_object_find_insert_new (policy : ordering_policy) (k : List Nat) (x : variant) :
    ∀ (ms : List (List Nat × variant)), json_object_find k ms = none →
      json_object_find k (json_object_insert_new policy k x ms) = some x
  | [], _ => by simp [json_object_insert_new, json_object_find]
  | (k1, v1) :: rest, h => by
      have hk : k1 ≠ k := by
        intro hk
        simp [json_object_find, hk] at h
      have hrest : json_object_find k rest = none := by
        simpa [json_object_find, hk] using h
      have ih := json_object_find_insert_new policy k x rest hrest
      cases policy with
      | sorted =>
        by_cases hc : lexicographical_compare k k1 = true
        · simp [json_object_insert_new, hc, json_object_find]
        · simp [json_object_insert_new, hc, json_object_find, hk, ih]
      | preserve_order =>
        simp [json_object_insert_new, json_object_find, hk, ih]

/-- A new member leaves the lookup of every other key as it was. -/
theorem json_object_find_insert_new_ne (policy : ordering_policy) (k k2 : List Nat)
    (x : variant) (hne : k2 ≠ k) :
    ∀ (ms : List (List Nat × variant)),
      json_object_find k2 (json_object_insert_new policy k x ms) = json_object_find k2 ms
  | [] => by
      have hne2 : k ≠ k2 := fun h => hne h.symm
      simp [json_object_insert_new, json_object_find, hne2]
  | (k1, v1) :: rest => by
      have hne2 : k ≠ k2 := fun h => hne h.symm
      have ih := json_object_find_insert_new_ne policy k k2 x hne rest
      by_cases h1 : k1 = k2
      · subst h1
        cases policy with
        | sorted =>
          by_cases hc : lexicographical_compare k k1 = true
          · simp only [json_object_insert_new, hc, if_true, json_object_find, hne2, if_false]
          · simp only [json_object_insert_new, hc, Bool.false_eq_true, if_false,
              json_object_find, if_true]
        | preserve_order =>
          simp only [json_object_insert_new, json_object_find, if_true]
      · cases policy with
        | sorted =>
          by_cases hc : lexicographical_compare k k1 = true
          · simp only [json_object_insert_new, hc, if_true, json_object_find, hne2, if_false,
              h1]
          · simp only [json_object_insert_new, hc, Bool.false_eq_true, if_false,
              json_object_find, h1, ih]
        | preserve_order =>
          simp only [json_object_insert_new, json_object_find, h1, if_false, ih]

/-- A new member makes the object longer by one. -/
theorem json_object_insert_new_length (policy : ordering_policy) (k : List Nat) (x : variant) :
    ∀ (ms : List (List Nat × variant)),
      (json_object_insert_new policy k x ms).length = ms.length + 1
  | [] => by simp [json_object_insert_new]
  | (k1, v1) :: rest => by
      have ih := json_object_insert_new_length policy k x rest
      cases policy with
      | sorted =>
        by_cases hc : lexicographical_compare k k1 = true
        · simp [json_object_insert_new, hc]
        · simp [json_object_insert_new, hc, ih]
      | preserve_order => simp [json_object_insert_new, ih]

/-- A new member under the key `k` adds one to the count of `k` and nothing to the
count of another key. -/
theorem json_object_count_insert_new (policy : ordering_policy) (k k2 : List Nat)
    (x : variant) :
    ∀ (ms : List (List Nat × variant)),
      json_object_count k2 (json_object_insert_new policy k x ms)
        = json_object_count k2 ms + (if k = k2 then 1 else 0)
  | [] => by
      by_cases h : k = k2 <;> simp [json_object_insert_new, json_object_count, h]
  | (k1, v1) :: rest => by
      have ih := json_object_count_insert_new policy k k2 x rest
      simp only [json_object_count] at ih ⊢
      cases policy with
      | sorted =>
        by_cases hc : lexicographical_compare k k1 = true
        · simp only [json_object_insert_new, hc, if_true, List.countP_cons, decide_eq_true_eq]
        · simp only [json_object_insert_new, hc, Bool.false_eq_true, if_false,
            List.countP_cons, decide_eq_true_eq, ih]
          omega
      | preserve_order =>
        simp only [json_object_insert_new, List.countP_cons, decide_eq_true_eq, ih]
        omega

/-- An assignment is found under its key when the key is there. -/
theorem json_object_find_assign (k : List Nat) (x : variant) :
    ∀ (ms : List (List Nat × variant)), json_object_find k ms ≠ none →
      json_object_find k (json_object_assign k x ms) = some x
  | [], h => by simp [json_object_find] at h
  | (k1, v1) :: rest, h => by
      by_cases hk : k1 = k
      · simp [json_object_assign, json_object_find, hk]
      · have hrest : json_object_find k rest ≠ none := by
          simpa [json_object_find, hk] using h
        simp [json_object_assign, json_object_find, hk,
          json_object_find_assign k x rest hrest]

/-- An assignment leaves the lookup of every other key as it was. -/
theorem json_object_find_assign_ne (k k2 : List Nat) (x : variant) (hne : k2 ≠ k) :
    ∀ (ms : List (List Nat × variant)),
      json_object_find k2 (json_object_assign k x ms) = json_object_find k2 ms
  | [] => by simp [json_object_assign]
  | (k1, v1) :: rest => by
      have ih := json_object_find_assign_ne k k2 x hne rest
      by_cases hk : k1 = k
      · have h1 : k1 ≠ k2 := by
          intro h
          exact hne (h.symm.trans hk)
        simp [json_object_assign, json_object_find, hk, h1]
        rw [← hk]
        simp [h1]
      · by_cases h1 : k1 = k2
        · subst h1
          simp [json_object_assign, json_object_find, hk]
        · simp [json_object_assign, json_object_find, hk, h1, ih]

/-- An assignment keeps the keys, member by member. -/
theorem json_object_assign_keys (k : List Nat) (x : variant) :
    ∀ (ms : List (List Nat × variant)),
      (json_object_assign k x ms).map Prod.fst = ms.map Prod.fst
  | [] => by simp [json_object_assign]
  | (k1, v1) :: rest => by
      by_cases hk : k1 = k
      · simp [json_object_assign, hk]
      · simp [json_object_assign, hk, json_object_assign_keys k x rest]

/-- The count of a key is read off the keys. -/
theorem json_object_count_keys (k : List Nat) (ms : List (List Nat × variant)) :
    json_object_count k ms = (ms.map Prod.fst).count k := by
  induction ms with
  | nil => simp [json_object_count]
  | cons kv rest ih =>
    obtain ⟨k1, v1⟩ := kv
    simp only [json_object_count] at ih ⊢
    by_cases hk : k1 = k
    · simp [List.countP_cons, hk, ih]
    · simp [List.countP_cons, hk, ih, List.count_cons]

/-- The lookup finds nothing exactly when the count of the key is zero. -/
theorem json_object_count_eq_zero (k : List Nat) (ms : List (List Nat × variant)) :
    json_object_count k ms = 0 ↔ json_object_find k ms = none := by
  rw [json_object_find_eq_none, json_object_count, List.countP_eq_zero]
  simp

/-- An assignment of the value that the lookup gives changes nothing. -/
theorem json_object_assign_same (k : List Nat) (x : variant) :
    ∀ (ms : List (List Nat × variant)), json_object_find k ms = some x →
      json_object_assign k x ms = ms
  | [], h => by simp [json_object_find] at h
  | (k1, v1) :: rest, h => by
      by_cases hk : k1 = k
      · have hv : v1 = x := by simpa [json_object_find, hk] using h
        simp [json_object_assign, hk, hv]
      · have hrest : json_object_find k rest = some x := by
          simpa [json_object_find, hk] using h
        simp [json_object_assign, hk, json_object_assign_same k x rest hrest]

/-- After `insert_or_assign` the lookup of the key gives the value. -/
theorem json_object_find_insert_or_assign (policy : ordering_policy) (k : List Nat)
    (x : variant) (ms : List (List Nat × variant)) :
    json_object_find k (json_object_insert_or_assign policy k x ms).2 = some x := by
  unfold json_object_insert_or_assign
  cases h : json_object_find k ms with
  | none => exact json_object_find_insert_new policy k x ms h
  | some y => exact json_object_find_assign k x ms (by simp [h])

/-- After `insert_or_assign` the lookup of every other key gives what it gave. -/
theorem json_object_find_insert_or_assign_ne (policy : ordering_policy) (k k2 : List Nat)
    (x : variant) (hne : k2 ≠ k) (ms : List (List Nat × variant)) :
    json_object_find k2 (json_object_insert_or_assign policy k x ms).2
      = json_object_find k2 ms := by
  unfold json_object_insert_or_assign
  cases h : json_object_find k ms with
  | none => exact json_object_find_insert_new_ne policy k k2 x hne ms
  | some y => exact json_object_find_assign_ne k k2 x hne ms

/-- The flag that `insert_or_assign` returns tells whether the key was missing. -/
theorem json_object_insert_or_assign_flag (policy : ordering_policy) (k : List Nat)
    (x : variant) (ms : List (List Nat × variant)) :
    (json_object_insert_or_assign policy k x ms).1.2 = (json_object_find k ms).isNone := by
  unfold json_object_insert_or_assign
  cases h : json_object_find k ms <;> rfl

/-- After `insert_or_assign` the key has one member if it had none, and as many as
before otherwise; the count of every other key is as before. -/
theorem json_object_count_insert_or_assign (policy : ordering_policy) (k k2 : List Nat)
    (x : variant) (ms : List (List Nat × variant)) :
    json_object_count k2 (json_object_insert_or_assign policy k x ms).2
      = if k = k2 then max 1 (json_object_count k2 ms) else json_object_count k2 ms := by
  unfold json_object_insert_or_assign
  cases h : json_object_find k ms with
  | none =>
    have h0 := (json_object_count_eq_zero k ms).mpr h
    simp only [json_object_count_insert_new]
    by_cases hk : k = k2
    · subst hk
      simp [h0]
    · simp [hk]
  | some y =>
    have hpos : json_object_count k ms ≠ 0 := by
      intro h0
      rw [json_object_count_eq_zero] at h0
      simp [h0] at h
    simp only [json_object_count_keys, json_object_assign_keys]
    by_cases hk : k = k2
    · subst hk
      rw [json_object_count_keys] at hpos
      simp only [if_true]
      omega
    · simp [hk]

/-- The size after `insert_or_assign`. -/
theorem json_object_insert_or_assign_length (policy : ordering_policy) (k : List Nat)
    (x : variant) (ms : List (List Nat × variant)) :
    (json_object_insert_or_assign policy k x ms).2.length
      = ms.length + (if (json_object_find k ms).isNone then 1 else 0) := by
  unfold json_object_insert_or_assign
  cases h : json_object_find k ms with
  | none => simp [json_object_insert_new_length]
  | some y =>
    have := congrArg List.length (json_object_assign_keys k x ms)
    simpa using this

/-- The member `insert_or_assign` on an object. -/
theorem basic_json.insert_or_assign_object (policy : ordering_policy)
    (ms : List (List Nat × variant)) (t : semantic_tag) (k : List Nat) (x : variant) :
    basic_json.insert_or_assign policy ⟨.object_storage ms t⟩ k x
      = (.ok (.of_iterator (json_object_insert_or_assign policy k x ms).1.1,
              (json_object_insert_or_assign policy k x ms).1.2),
          ⟨.object_storage (json_object_insert_or_assign policy k x ms).2 t⟩) := rfl

/-- The member `insert_or_assign` on an empty_object. -/
theorem basic_json.insert_or_assign_empty_object (policy : ordering_policy)
    (t : semantic_tag) (k : List Nat) (x : variant) :
    basic_json.insert_or_assign policy ⟨.empty_object_storage t⟩ k x
      = (.ok (.of_iterator 0, true), ⟨.object_storage [(k, x)] semantic_tag.none⟩) := by
  simp [basic_json.insert_or_assign, variant.storage, basic_json.object_value,
    basic_json.create_object_implicitly, json_object_insert_or_assign, json_object_find,
    json_object_insert_new, json_object_find_position, variant.tag]
/-- Keyed access on an empty_object fails with key_not_found. -/
theorem basic_json.at_key_empty_object (t : semantic_tag) (k : List Nat) :
    basic_json.at_key ⟨.empty_object_storage t⟩ k
      = (.error .key_not_found, ⟨.empty_object_storage t⟩) := rfl

/-- Claim C26 as stated fails at `v = Value()`, `k = "k"`, `x1 = Value(1)`, `x2 = Value(NaN)`:
after the two calls `v.at(k) == x2` is false, for a NaN does not compare equal to
itself. -/
theorem insert_or_assign_nan_not_equal :
    (basic_json.at_key
        (basic_json.insert_or_assign ordering_policy.sorted
          (basic_json.insert_or_assign ordering_policy.sorted
            ⟨.empty_object_storage semantic_tag.none⟩ [107]
            (.int64_storage 1 semantic_tag.none)).2 [107]
          (.double_storage double.quiet_NaN semantic_tag.none)).2 [107]).1.map
      (fun y => basic_json.eq false ⟨y⟩ ⟨.double_storage double.quiet_NaN semantic_tag.none⟩)
      = .ok false := by
  rw [basic_json.insert_or_assign_empty_object, basic_json.insert_or_assign_object,
    basic_json.at_key_object, json_object_find_insert_or_assign]
  rfl

/-- Claim C26, amended: for every object-kind value `v` (object or empty_object), key `k` and
values `x1`, `x2`: after `v.insert_or_assign(k, x1)` followed by `v.insert_or_assign(k, x2)`,
`v.at(k)` yields `x2`, so that `v.at(k) == x2` when `x2` is regular (holds no NaN);
`v` is an object that holds one entry for `k` if it held at most one before, and as
many as before otherwise, and its size has grown by one if `k` was missing and not
at all otherwise (from an empty object, `size() == 1`); the first call reports
`inserted = true` exactly when `v` was without `k`, and the second reports
`inserted = false`. -/
theorem insert_or_assign_twice (policy : ordering_policy) (v : basic_json) (k : List Nat)
    (x1 x2 : variant) (hv : v.var_.storage.is_object = true) :
    (∃ it1, (basic_json.insert_or_assign policy v k x1).1
      = .ok (it1, (json_object_find k v.entries).isNone)) ∧
    (∃ it2, (basic_json.insert_or_assign policy
        (basic_json.insert_or_assign policy v k x1).2 k x2).1 = .ok (it2, false)) ∧
    (basic_json.at_key (basic_json.insert_or_assign policy
        (basic_json.insert_or_assign policy v k x1).2 k x2).2 k).1 = .ok x2 ∧
    (x2.regular = true →
      (basic_json.at_key (basic_json.insert_or_assign policy
          (basic_json.insert_or_assign policy v k x1).2 k x2).2 k).1.map
        (fun y => basic_json.eq false ⟨y⟩ ⟨x2⟩) = .ok true) ∧
    (basic_json.insert_or_assign policy
        (basic_json.insert_or_assign policy v k x1).2 k x2).2.var_.storage
      = storage_kind.object_value ∧
    json_object_count k (basic_json.insert_or_assign policy
        (basic_json.insert_or_assign policy v k x1).2 k x2).2.entries
      = max 1 (json_object_count k v.entries) ∧
    basic_json.size (basic_json.insert_or_assign policy
        (basic_json.insert_or_assign policy v k x1).2 k x2).2
      = basic_json.size v + (if (json_object_find k v.entries).isNone then 1 else 0) ∧
    (basic_json.size v = 0 →
      basic_json.size (basic_json.insert_or_assign policy
        (basic_json.insert_or_assign policy v k x1).2 k x2).2 = 1) := by
  have key : ∀ (ms : List (List Nat × variant)) (t : semantic_tag),
      (∃ it2, (basic_json.insert_or_assign policy
          ⟨.object_storage (json_object_insert_or_assign policy k x1 ms).2 t⟩ k x2).1
        = .ok (it2, false)) ∧
      (basic_json.at_key (basic_json.insert_or_assign policy
          ⟨.object_storage (json_object_insert_or_assign policy k x1 ms).2 t⟩ k x2).2 k).1
        = .ok x2 ∧
      (basic_json.insert_or_assign policy
          ⟨.object_storage (json_object_insert_or_assign policy k x1 ms).2 t⟩
          k x2).2.var_.storage = storage_kind.object_value ∧
      json_object_count k (basic_json.insert_or_assign policy
          ⟨.object_storage (json_object_insert_or_assign policy k x1 ms).2 t⟩
          k x2).2.entries = max 1 (json_object_count k ms) ∧
      basic_json.size (basic_json.insert_or_assign policy
          ⟨.object_storage (json_object_insert_or_assign policy k x1 ms).2 t⟩ k x2).2
        = ms.length + (if (json_object_find k ms).isNone then 1 else 0) := by
    intro ms t
    rw [basic_json.insert_or_assign_object]
    refine ⟨?_, ?_, rfl, ?_, ?_⟩
    · simp only [json_object_insert_or_assign_flag, json_object_find_insert_or_assign]
      exact ⟨_, rfl⟩
    · rw [basic_json.at_key_object, json_object_find_insert_or_assign]
    · simp only [basic_json.entries, json_object_count_insert_or_assign, if_true]
      omega
    · simp only [basic_json.size, json_object_insert_or_assign_length,
        json_object_find_insert_or_assign]
      simp
  obtain ⟨var⟩ := v
  cases var with
  | empty_object_storage t =>
    have h := key [] semantic_tag.none
    have h0 : (json_object_insert_or_assign policy k x1 []).2 = [(k, x1)] := by
      simp [json_object_insert_or_assign, json_object_find, json_object_insert_new]
    rw [h0] at h
    obtain ⟨h1, h2, h3, h4, h5⟩ := h
    simp only [basic_json.insert_or_assign_empty_object]
    refine ⟨⟨_, rfl⟩, h1, h2, ?_, h3, ?_, ?_, ?_⟩
    · intro hx
      rw [h2]
      simp [Except.map, basic_json.eq, variant.operator_eq, variant.eq_self x2 hx]
    · simpa [basic_json.entries, json_object_count] using h4
    · simpa [basic_json.entries, basic_json.size, json_object_find] using h5
    · intro _
      simpa [json_object_find] using h5
  | object_storage ms t =>
    obtain ⟨h1, h2, h3, h4, h5⟩ := key ms t
    simp only [basic_json.insert_or_assign_object] at h1 h2 h3 h4 h5 ⊢
    refine ⟨?_, h1, h2, ?_, h3, ?_, ?_, ?_⟩
    · simp only [json_object_insert_or_assign_flag]
      exact ⟨_, rfl⟩
    · intro hx
      rw [h2]
      simp [Except.map, basic_json.eq, variant.operator_eq, variant.eq_self x2 hx]
    · simpa [basic_json.entries] using h4
    · simpa [basic_json.entries, basic_json.size] using h5
    · intro h0
      have hnil : ms = [] := by
        simpa [basic_json.size] using h0
      subst hnil
      simpa [json_object_find] using h5
  | _ => simp [variant.storage, storage_kind.is_object] at hv

/-- Witness for C26 amended, at the object `{"a": 1}`, the key `"k"` and the values 1 and 2. -/
theorem insert_or_assign_twice_witness :
    (basic_json.at_key (basic_json.insert_or_assign ordering_policy.sorted
        (basic_json.insert_or_assign ordering_policy.sorted
          ⟨.object_storage [([97], .int64_storage 1 semantic_tag.none)] semantic_tag.none⟩
          [107] (.int64_storage 1 semantic_tag.none)).2 [107]
        (.int64_storage 2 semantic_tag.none)).2 [107]).1
      = .ok (.int64_storage 2 semantic_tag.none) ∧
    basic_json.size (basic_json.insert_or_assign ordering_policy.sorted
        (basic_json.insert_or_assign ordering_policy.sorted
          ⟨.object_storage [([97], .int64_storage 1 semantic_tag.none)] semantic_tag.none⟩
          [107] (.int64_storage 1 semantic_tag.none)).2 [107]
        (.int64_storage 2 semantic_tag.none)).2
      = basic_json.size
          ⟨.object_storage [([97], .int64_storage 1 semantic_tag.none)] semantic_tag.none⟩
        + (if (json_object_find [107] (basic_json.entries
            ⟨.object_storage [([97], .int64_storage 1 semantic_tag.none)]
              semantic_tag.none⟩)).isNone then 1 else 0) :=
  ⟨(insert_or_assign_twice ordering_policy.sorted
      ⟨.object_storage [([97], .int64_storage 1 semantic_tag.none)] semantic_tag.none⟩
      [107] (.int64_storage 1 semantic_tag.none) (.int64_storage 2 semantic_tag.none)
      (by decide)).2.2.1,
   (insert_or_assign_twice ordering_policy.sorted
      ⟨.object_storage [([97], .int64_storage 1 semantic_tag.none)] semantic_tag.none⟩
      [107] (.int64_storage 1 semantic_tag.none) (.int64_storage 2 semantic_tag.none)
      (by decide)).2.2.2.2.2.2.1⟩
/-! ## Theorems: the keyed assignment -/

/-- The keyed assignment on an object is `insert_or_assign` on its members. -/
theorem basic_json.subscript_assign_object (policy : ordering_policy)
    (ms : List (List Nat × variant)) (t : semantic_tag) (k : List Nat) (x : variant) :
    basic_json.subscript_assign policy ⟨.object_storage ms t⟩ k x
      = (.ok (), ⟨.object_storage (json_object_insert_or_assign policy k x ms).2 t⟩) := rfl

/-- The keyed assignment on an empty_object leaves an object with the one member. -/
theorem basic_json.subscript_assign_empty_object (policy : ordering_policy)
    (t : semantic_tag) (k : List Nat) (x : variant) :
    basic_json.subscript_assign policy ⟨.empty_object_storage t⟩ k x
      = (.ok (), ⟨.object_storage [(k, x)] semantic_tag.none⟩) := by
  simp [basic_json.subscript_assign, basic_json.insert_or_assign, variant.storage,
    basic_json.object_value, basic_json.create_object_implicitly,
    json_object_insert_or_assign, json_object_find, json_object_insert_new, variant.tag]

/-- Claim C29 as stated fails at the default-constructed `v`, `k = "k"` and `x = Value(NaN)`:
after `v[k] = x`, `v.at(k) == x` is false, for a NaN does not compare equal to itself. -/
theorem subscript_assign_nan_not_equal :
    (basic_json.at_key (basic_json.subscript_assign ordering_policy.sorted
        basic_json.default_construct [107]
        (.double_storage double.quiet_NaN semantic_tag.none)).2 [107]).1.map
      (fun y => basic_json.eq false ⟨y⟩ ⟨.double_storage double.quiet_NaN semantic_tag.none⟩)
      = .ok false := by
  rw [basic_json.default_construct, variant.of_tag, basic_json.subscript_assign_empty_object,
    basic_json.at_key_object]
  rfl

/-- Claim C29, amended: for every default-constructed value `v` (an empty object), key `k` and
value `x`, after the keyed assignment `v[k] = x`, `v` is an object with `size() == 1`,
`v.contains(k)` is true and `v.at(k)` yields `x`; more generally, for every object-kind `v`
the assignment `v[k] = x` succeeds, makes `v.at(k)` yield `x`, so that `v.at(k) == x` when `x`
is regular (holds no NaN), and leaves the outcome of `at` for every other key
unchanged. -/
theorem subscript_assign_result (policy : ordering_policy) (v : basic_json) (k k2 : List Nat)
    (x : variant) (hv : v.var_.storage.is_object = true) :
    (basic_json.subscript_assign policy basic_json.default_construct k x).1 = .ok () ∧
    (basic_json.subscript_assign policy basic_json.default_construct k x).2.var_.storage
      = storage_kind.object_value ∧
    basic_json.size (basic_json.subscript_assign policy basic_json.default_construct k x).2
      = 1 ∧
    (basic_json.contains
      (basic_json.subscript_assign policy basic_json.default_construct k x).2 k).1
      = .ok true ∧
    (basic_json.at_key
      (basic_json.subscript_assign policy basic_json.default_construct k x).2 k).1
      = .ok x ∧
    (basic_json.subscript_assign policy v k x).1 = .ok () ∧
    (basic_json.subscript_assign policy v k x).2.var_.storage = storage_kind.object_value ∧
    (basic_json.at_key (basic_json.subscript_assign policy v k x).2 k).1 = .ok x ∧
    (x.regular = true →
      (basic_json.at_key (basic_json.subscript_assign policy v k x).2 k).1.map
        (fun y => basic_json.eq false ⟨y⟩ ⟨x⟩) = .ok true) ∧
    (k2 ≠ k →
      (basic_json.at_key (basic_json.subscript_assign policy v k x).2 k2).1
        = (basic_json.at_key v k2).1) := by
  have hd : basic_json.subscript_assign policy basic_json.default_construct k x
      = (.ok (), ⟨.object_storage [(k, x)] semantic_tag.none⟩) := by
    rw [basic_json.default_construct, variant.of_tag,
      basic_json.subscript_assign_empty_object]
  have hat : ∀ (j : basic_json), (basic_json.at_key j k).1 = .ok x → x.regular = true →
      (basic_json.at_key j k).1.map (fun y => basic_json.eq false ⟨y⟩ ⟨x⟩) = .ok true := by
    intro j h hx
    rw [h]
    simp [Except.map, basic_json.eq, variant.operator_eq, variant.eq_self x hx]
  have hone : (basic_json.at_key ⟨.object_storage [(k, x)] semantic_tag.none⟩ k).1 = .ok x := by
    rw [basic_json.at_key_object]
    simp [json_object_find]
  rw [hd]
  refine ⟨rfl, rfl, rfl, ?_, hone, ?_⟩
  · rw [basic_json.contains_object]
    simp [json_object_find]
  · obtain ⟨var⟩ := v
    cases var with
    | empty_object_storage t =>
      rw [basic_json.subscript_assign_empty_object]
      refine ⟨rfl, rfl, hone, hat _ hone, ?_⟩
      intro hne
      have hne2 : k ≠ k2 := fun h => hne h.symm
      rw [basic_json.at_key_object, basic_json.at_key_empty_object]
      simp [json_object_find, hne2]
    | object_storage ms t =>
      rw [basic_json.subscript_assign_object]
      have h1 : (basic_json.at_key
          ⟨.object_storage (json_object_insert_or_assign policy k x ms).2 t⟩ k).1 = .ok x := by
        rw [basic_json.at_key_object, json_object_find_insert_or_assign]
      refine ⟨rfl, rfl, h1, hat _ h1, ?_⟩
      intro hne
      rw [basic_json.at_key_object, basic_json.at_key_object,
        json_object_find_insert_or_assign_ne policy k k2 x hne]
    | _ => simp [variant.storage, storage_kind.is_object] at hv

/-- Witness for C29 amended, at the object `{"a": 1}`, the keys `"k"` and `"a"` and the value 2. -/
theorem subscript_assign_result_witness :
    (basic_json.at_key (basic_json.subscript_assign ordering_policy.sorted
        ⟨.object_storage [([97], .int64_storage 1 semantic_tag.none)] semantic_tag.none⟩
        [107] (.int64_storage 2 semantic_tag.none)).2 [107]).1
      = .ok (.int64_storage 2 semantic_tag.none) ∧
    ((basic_json.at_key (basic_json.subscript_assign ordering_policy.sorted
        ⟨.object_storage [([97], .int64_storage 1 semantic_tag.none)] semantic_tag.none⟩
        [107] (.int64_storage 2 semantic_tag.none)).2 [107]).1.map
      (fun y => basic_json.eq false ⟨y⟩ ⟨.int64_storage 2 semantic_tag.none⟩) = .ok true) ∧
    (basic_json.at_key (basic_json.subscript_assign ordering_policy.sorted
        ⟨.object_storage [([97], .int64_storage 1 semantic_tag.none)] semantic_tag.none⟩
        [107] (.int64_storage 2 semantic_tag.none)).2 [97]).1
      = (basic_json.at_key
          ⟨.object_storage [([97], .int64_storage 1 semantic_tag.none)] semantic_tag.none⟩
          [97]).1 :=
  ⟨(subscript_assign_result ordering_policy.sorted
      ⟨.object_storage [([97], .int64_storage 1 semantic_tag.none)] semantic_tag.none⟩
      [107] [97] (.int64_storage 2 semantic_tag.none) (by decide)).2.2.2.2.2.2.2.1,
   (subscript_assign_result ordering_policy.sorted
      ⟨.object_storage [([97], .int64_storage 1 semantic_tag.none)] semantic_tag.none⟩
      [107] [97] (.int64_storage 2 semantic_tag.none) (by decide)).2.2.2.2.2.2.2.2.1
      (by decide),
   (subscript_assign_result ordering_policy.sorted
      ⟨.object_storage [([97], .int64_storage 1 semantic_tag.none)] semantic_tag.none⟩
      [107] [97] (.int64_storage 2 semantic_tag.none) (by decide)).2.2.2.2.2.2.2.2.2
      (by decide)⟩

/-! ## Theorems: merge_or_update -/

/-- The merge with update leaves the lookup of a key that the source does not have. -/
theorem json_object_find_merge_or_update_not_mem (policy : ordering_policy) (k : List Nat) :
    ∀ (s ms : List (List Nat × variant)), k ∉ s.map Prod.fst →
      json_object_find k (json_object_merge_or_update policy ms s) = json_object_find k ms
  | [], _, _ => rfl
  | (k1, v1) :: rest, ms, h => by
      simp only [List.map_cons, List.mem_cons, not_or] at h
      rw [json_object_merge_or_update,
        json_object_find_merge_or_update_not_mem policy k rest _ h.2,
        json_object_find_insert_or_assign_ne policy k1 k v1 h.1]

/-- After the merge with update every key of a source without repeated keys maps to
the value of the source. -/
theorem json_object_find_merge_or_update (policy : ordering_policy) (k : List Nat)
    (x : variant) :
    ∀ (s ms : List (List Nat × variant)), (s.map Prod.fst).Nodup → (k, x) ∈ s →
      json_object_find k (json_object_merge_or_update policy ms s) = some x
  | [], _, _, hmem => by cases hmem
  | (k1, v1) :: rest, ms, hnd, hmem => by
      simp only [List.map_cons, List.nodup_cons] at hnd
      rw [json_object_merge_or_update]
      rcases List.mem_cons.mp hmem with h | h
      · cases h
        rw [json_object_find_merge_or_update_not_mem policy k rest _ hnd.1,
          json_object_find_insert_or_assign]
      · exact json_object_find_merge_or_update policy k x rest _ hnd.2 h

/-- The merge with update changes nothing when every member of the source is found
with its value. -/
theorem json_object_merge_or_update_fixed (policy : ordering_policy) :
    ∀ (s ms : List (List Nat × variant)),
      (∀ k x, (k, x) ∈ s → json_object_find k ms = some x) →
      json_object_merge_or_update policy ms s = ms
  | [], _, _ => rfl
  | (k1, v1) :: rest, ms, h => by
      have h1 : json_object_find k1 ms = some v1 := h k1 v1 (List.mem_cons_self _ _)
      have h2 : (json_object_insert_or_assign policy k1 v1 ms).2 = ms := by
        unfold json_object_insert_or_assign
        rw [h1]
        exact json_object_assign_same k1 v1 ms h1
      rw [json_object_merge_or_update, h2]
      exact json_object_merge_or_update_fixed policy rest ms
        (fun k x hm => h k x (List.mem_cons_of_mem _ hm))

/-- The merge with update is idempotent on the members, for a source without
repeated keys. -/
theorem json_object_merge_or_update_twice (policy : ordering_policy)
    (s ms : List (List Nat × variant)) (hnd : (s.map Prod.fst).Nodup) :
    json_object_merge_or_update policy (json_object_merge_or_update policy ms s) s
      = json_object_merge_or_update policy ms s :=
  json_object_merge_or_update_fixed policy s _
    (fun k x hm => json_object_find_merge_or_update policy k x s ms hnd hm)

/-- Claim C27: `merge_or_update` is idempotent: for every object-kind value `v` and every object
source `s` (whose keys are distinct, as the object invariant has it), `v.merge_or_update(s)`
succeeds, applying it a second time succeeds and leaves `v` and `s` as they are after
the first, and after the first every key of `s` maps in `v` to the value that `s`
has for that key. -/
theorem merge_or_update_idempotent (policy : ordering_policy) (v s : basic_json)
    (hv : v.var_.storage.is_object = true) (hs : s.var_.storage.is_object = true)
    (hnd : (s.entries.map Prod.fst).Nodup) :
    (basic_json.merge_or_update policy v s).1 = .ok () ∧
    basic_json.merge_or_update policy (basic_json.merge_or_update policy v s).2.1
        (basic_json.merge_or_update policy v s).2.2
      = (.ok (), (basic_json.merge_or_update policy v s).2.1,
          (basic_json.merge_or_update policy v s).2.2) ∧
    (∀ k x, (k, x) ∈ s.entries →
      (basic_json.at_key (basic_json.merge_or_update policy v s).2.1 k).1 = .ok x) ∧
    (basic_json.merge_or_update policy v s).2.2.entries = s.entries := by
  obtain ⟨vv⟩ := v
  obtain ⟨sv⟩ := s
  cases sv with
  | empty_object_storage ts =>
    cases vv with
    | empty_object_storage t => exact ⟨rfl, rfl, fun k x hm => (by cases hm), rfl⟩
    | object_storage ms t => exact ⟨rfl, rfl, fun k x hm => (by cases hm), rfl⟩
    | _ => simp [variant.storage, storage_kind.is_object] at hv
  | object_storage ss ts =>
    have hnd2 : (ss.map Prod.fst).Nodup := hnd
    cases vv with
    | empty_object_storage t =>
      have h1 : basic_json.merge_or_update policy ⟨.empty_object_storage t⟩
          ⟨.object_storage ss ts⟩
          = (.ok (), ⟨.object_storage (json_object_merge_or_update policy [] ss)
              semantic_tag.none⟩, ⟨.object_storage ss ts⟩) := rfl
      rw [h1]
      refine ⟨rfl, ?_, ?_, rfl⟩
      · show (Except.ok (), basic_json.mk (.object_storage
            (json_object_merge_or_update policy
              (json_object_merge_or_update policy [] ss) ss) semantic_tag.none),
            basic_json.mk (.object_storage ss ts)) = _
        rw [json_object_merge_or_update_twice policy ss [] hnd2]
      · intro k x hm
        rw [basic_json.at_key_object,
          json_object_find_merge_or_update policy k x ss [] hnd2 hm]
    | object_storage ms t =>
      have h1 : basic_json.merge_or_update policy ⟨.object_storage ms t⟩
          ⟨.object_storage ss ts⟩
          = (.ok (), ⟨.object_storage (json_object_merge_or_update policy ms ss) t⟩,
              ⟨.object_storage ss ts⟩) := rfl
      rw [h1]
      refine ⟨rfl, ?_, ?_, rfl⟩
      · show (Except.ok (), basic_json.mk (.object_storage
            (json_object_merge_or_update policy
              (json_object_merge_or_update policy ms ss) ss) t),
            basic_json.mk (.object_storage ss ts)) = _
        rw [json_object_merge_or_update_twice policy ss ms hnd2]
      · intro k x hm
        rw [basic_json.at_key_object,
          json_object_find_merge_or_update policy k x ss ms hnd2 hm]
    | _ => simp [variant.storage, storage_kind.is_object] at hv
  | _ => simp [variant.storage, storage_kind.is_object] at hs

/-- Witness for C27, at `v = {"a": 1, "b": 2}` and `s = {"b": 3, "c": 4}`. -/
theorem merge_or_update_idempotent_witness :
    basic_json.merge_or_update ordering_policy.sorted
        (basic_json.merge_or_update ordering_policy.sorted
          ⟨.object_storage [([97], .int64_storage 1 semantic_tag.none),
            ([98], .int64_storage 2 semantic_tag.none)] semantic_tag.none⟩
          ⟨.object_storage [([98], .int64_storage 3 semantic_tag.none),
            ([99], .int64_storage 4 semantic_tag.none)] semantic_tag.none⟩).2.1
        (basic_json.merge_or_update ordering_policy.sorted
          ⟨.object_storage [([97], .int64_storage 1 semantic_tag.none),
            ([98], .int64_storage 2 semantic_tag.none)] semantic_tag.none⟩
          ⟨.object_storage [([98], .int64_storage 3 semantic_tag.none),
            ([99], .int64_storage 4 semantic_tag.none)] semantic_tag.none⟩).2.2
      = (.ok (),
          (basic_json.merge_or_update ordering_policy.sorted
            ⟨.object_storage [([97], .int64_storage 1 semantic_tag.none),
              ([98], .int64_storage 2 semantic_tag.none)] semantic_tag.none⟩
            ⟨.object_storage [([98], .int64_storage 3 semantic_tag.none),
              ([99], .int64_storage 4 semantic_tag.none)] semantic_tag.none⟩).2.1,
          (basic_json.merge_or_update ordering_policy.sorted
            ⟨.object_storage [([97], .int64_storage 1 semantic_tag.none),
              ([98], .int64_storage 2 semantic_tag.none)] semantic_tag.none⟩
            ⟨.object_storage [([98], .int64_storage 3 semantic_tag.none),
              ([99], .int64_storage 4 semantic_tag.none)] semantic_tag.none⟩).2.2) :=
  (merge_or_update_idempotent ordering_policy.sorted
    ⟨.object_storage [([97], .int64_storage 1 semantic_tag.none),
      ([98], .int64_storage 2 semantic_tag.none)] semantic_tag.none⟩
    ⟨.object_storage [([98], .int64_storage 3 semantic_tag.none),
      ([99], .int64_storage 4 semantic_tag.none)] semantic_tag.none⟩
    (by decide) (by decide) (by decide)).2.1

/-! ## Theorems: equality is symmetric -/

/-- The `==` of doubles is symmetric. -/
theorem double.eq_swap (a b : double) : a.eq b = b.eq a := by
  simp only [double.eq]
  rw [Bool.and_comm (!a.isNaN) (!b.isNaN)]
  congr 1
  rw [decide_eq_decide]
  exact eq_comm

/-- The members of a list of member values with distinct keys have distinct keys. -/
theorem unique_keys_members_mem (ms : List (List Nat × variant))
    (h : unique_keys_members ms = true) (k : List Nat) (v : variant) (hm : (k, v) ∈ ms) :
    v.unique_keys = true := by
  induction ms with
  | nil => cases hm
  | cons kv rest ih =>
    obtain ⟨k1, v1⟩ := kv
    simp only [unique_keys_members, Bool.and_eq_true] at h
    rcases List.mem_cons.mp hm with h1 | h1
    · cases h1
      exact h.1
    · exact ih h.2 h1

/-- The inclusion of objects, member by member. -/
theorem json_object_includes_iff (a b : List (List Nat × variant)) :
    json_object_includes a b = true ↔
      ∀ k v, (k, v) ∈ a → ∃ w, json_object_find k b = some w ∧ variant.eq v w = true := by
  induction a with
  | nil => simp [json_object_includes]
  | cons kv rest ih =>
    obtain ⟨k1, v1⟩ := kv
    simp only [json_object_includes, Bool.and_eq_true, ih, List.mem_cons]
    constructor
    · rintro ⟨h1, h2⟩ k v hkv
      rcases hkv with hkv | hkv
      · cases hkv
        cases hf : json_object_find k1 b with
        | none =>
          rw [hf] at h1
          simp at h1
        | some w =>
          rw [hf] at h1
          exact ⟨w, rfl, h1⟩
      · exact h2 k v hkv
    · intro h
      refine ⟨?_, fun k v hkv => h k v (Or.inr hkv)⟩
      obtain ⟨w, hw, he⟩ := h k1 v1 (Or.inl rfl)
      simp [hw, he]

/-- A key that the lookup finds is the key of a member. -/
theorem json_object_find_mem (k : List Nat) (w : variant) (b : List (List Nat × variant))
    (h : json_object_find k b = some w) : (k, w) ∈ b := by
  induction b with
  | nil => simp [json_object_find] at h
  | cons kv rest ih =>
    obtain ⟨k1, v1⟩ := kv
    by_cases hk : k1 = k
    · subst hk
      simp only [json_object_find, if_true, Option.some.injEq] at h
      subst h
      exact List.mem_cons_self _ _
    · simp only [json_object_find, hk, if_false] at h
      exact List.mem_cons_of_mem _ (ih h)

/-- Between objects of the same size with distinct keys, whose member values
compare symmetrically, the inclusion goes both ways. -/
theorem json_object_includes_symm (a b : List (List Nat × variant))
    (hlen : a.length = b.length) (ha : (a.map Prod.fst).Nodup) (hb : (b.map Prod.fst).Nodup)
    (hsym : ∀ k v w, (k, v) ∈ a → (k, w) ∈ b → variant.eq v w = variant.eq w v)
    (h : json_object_includes a b = true) : json_object_includes b a = true := by
  rw [json_object_includes_iff] at h ⊢
  have hsub : a.map Prod.fst ⊆ b.map Prod.fst := by
    intro k hk
    obtain ⟨kv, hkv, rfl⟩ := List.mem_map.mp hk
    obtain ⟨w, hw, _⟩ := h kv.1 kv.2 hkv
    exact List.mem_map.mpr ⟨(kv.1, w), json_object_find_mem kv.1 w b hw, rfl⟩
  have hperm : (a.map Prod.fst).Perm (b.map Prod.fst) :=
    (List.subperm_of_subset ha hsub).perm_of_length_le (by simp [hlen])
  intro k w hkw
  have hk : k ∈ a.map Prod.fst :=
    hperm.mem_iff.mpr (List.mem_map.mpr ⟨(k, w), hkw, rfl⟩)
  obtain ⟨kv, hkv, hkk⟩ := List.mem_map.mp hk
  obtain ⟨k1, v⟩ := kv
  simp only at hkk
  subst hkk
  obtain ⟨w2, hw2, he⟩ := h k1 v hkv
  have hw : json_object_find k1 b = some w := json_object_find_of_mem b hb k1 w hkw
  rw [hw] at hw2
  cases hw2
  refine ⟨v, json_object_find_of_mem a ha k1 v hkv, ?_⟩
  rw [← hsym k1 v w hkv hkw]
  exact he

mutual
/-- The switch of `operator==` gives the same answer in both operand orders, for
values whose objects have distinct keys. -/
theorem variant.eq_symm : ∀ (a b : variant), a.unique_keys = true → b.unique_keys = true →
    variant.eq a b = variant.eq b a
  | .null_storage _, b, _, _ => by
      cases b <;>
        simp only [variant.eq, variant.double_eq, variant.size, string_view_eq,
          byte_string_view_eq]
  | .empty_object_storage _, b, _, _ => by
      cases b <;>
        simp only [variant.eq, variant.double_eq, variant.size, string_view_eq,
          byte_string_view_eq]
  | .bool_storage _ _, b, _, _ => by
      cases b <;>
        simp only [variant.eq, variant.double_eq, variant.size, string_view_eq,
          byte_string_view_eq]
      exact decide_eq_decide.mpr eq_comm
  | .int64_storage _ _, b, _, _ => by
      cases b <;>
        simp only [variant.eq, variant.double_eq, variant.size, string_view_eq,
          byte_string_view_eq] <;>
        first
        | exact double.eq_swap _ _
        | exact decide_eq_decide.mpr eq_comm
        | (split <;> first | rfl | exact decide_eq_decide.mpr eq_comm)
  | .uint64_storage _ _, b, _, _ => by
      cases b <;>
        simp only [variant.eq, variant.double_eq, variant.size, string_view_eq,
          byte_string_view_eq] <;>
        first
        | exact double.eq_swap _ _
        | exact decide_eq_decide.mpr eq_comm
        | (split <;> first | rfl | exact decide_eq_decide.mpr eq_comm)
  | .half_storage _ _, b, _, _ => by
      cases b <;>
        simp only [variant.eq, variant.double_eq, variant.size, string_view_eq,
          byte_string_view_eq] <;>
        first
        | exact double.eq_swap _ _
        | exact decide_eq_decide.mpr eq_comm
  | .double_storage _ _, b, _, _ => by
      cases b <;>
        simp only [variant.eq, variant.double_eq, variant.size, string_view_eq,
          byte_string_view_eq] <;>
        exact double.eq_swap _ _
  | .short_string_storage _ _, b, _, _ => by
      cases b <;>
        simp only [variant.eq, variant.double_eq, variant.size, string_view_eq,
          byte_string_view_eq] <;>
        exact decide_eq_decide.mpr eq_comm
  | .long_string_storage _ _, b, _, _ => by
      cases b <;>
        simp only [variant.eq, variant.double_eq, variant.size, string_view_eq,
          byte_string_view_eq] <;>
        exact decide_eq_decide.mpr eq_comm
  | .byte_string_storage _ _, b, _, _ => by
      cases b <;>
        simp only [variant.eq, variant.double_eq, variant.size, string_view_eq,
          byte_string_view_eq]
      exact decide_eq_decide.mpr eq_comm
  | .array_storage xs _, b, ha, hb => by
      cases b with
      | array_storage ys _ =>
        simp only [variant.unique_keys] at ha hb
        simp only [variant.eq]
        exact json_array_eq_symm xs ys ha hb
      | _ => simp only [variant.eq, variant.double_eq]
  | .object_storage ms _, b, ha, hb => by
      cases b with
      | object_storage ns _ =>
        simp only [variant.unique_keys, Bool.and_eq_true, decide_eq_true_eq] at ha hb
        have hsym : ∀ k v w, (k, v) ∈ ms → (k, w) ∈ ns → variant.eq v w = variant.eq w v :=
          fun k v w hv hw =>
            json_object_values_symm ms ha.2 k v hv w (unique_keys_members_mem ns hb.2 k w hw)
        simp only [variant.eq]
        by_cases hlen : ms.length = ns.length
        · have hlen2 : ns.length = ms.length := hlen.symm
          simp only [hlen, eq_self_iff_true, decide_True, Bool.true_and]
          cases h1 : json_object_includes ms ns with
          | true =>
            exact (json_object_includes_symm ms ns hlen ha.1 hb.1 hsym h1).symm
          | false =>
            cases h2 : json_object_includes ns ms with
            | false => rfl
            | true =>
              have h3 := json_object_includes_symm ns ms hlen2 hb.1 ha.1
                (fun k w v hw hv => (hsym k v w hv hw).symm) h2
              rw [h1] at h3
              exact h3
        · have hlen2 : ¬ ns.length = ms.length := fun h => hlen h.symm
          simp [hlen, hlen2]
      | empty_object_storage _ => simp only [variant.eq, variant.size]
      | _ => simp only [variant.eq, variant.double_eq]
/-- The `==` of arrays gives the same answer in both operand orders. -/
theorem json_array_eq_symm : ∀ (xs ys : List variant), unique_keys_elements xs = true →
    unique_keys_elements ys = true → json_array_eq xs ys = json_array_eq ys xs
  | [], [], _, _ => rfl
  | [], _ :: _, _, _ => by simp [json_array_eq]
  | _ :: _, [], _, _ => by simp [json_array_eq]
  | x :: xs, y :: ys, hx, hy => by
      simp only [unique_keys_elements, Bool.and_eq_true] at hx hy
      simp only [json_array_eq]
      rw [variant.eq_symm x y hx.1 hy.1, json_array_eq_symm xs ys hx.2 hy.2]
/-- The member values of an object compare symmetrically with every value. -/
theorem json_object_values_symm : ∀ (ms : List (List Nat × variant)),
    unique_keys_members ms = true → ∀ (k : List Nat) (v : variant), (k, v) ∈ ms →
    ∀ (w : variant), w.unique_keys = true → variant.eq v w = variant.eq w v
  | [], _, _, _, hm, _, _ => by cases hm
  | (k1, v1) :: rest, h, k, v, hm, w, hw => by
      simp only [unique_keys_members, Bool.and_eq_true] at h
      rcases List.mem_cons.mp hm with h1 | h1
      · cases h1
        exact variant.eq_symm v1 w h.1 hw
      · exact json_object_values_symm rest h.2 k v h1 w hw
end

/-- Claim C31: equality is symmetric over all pairs of storage kinds that do not involve
floating-point payloads: for every two values `a`, `b` of the kinds null, bool, int64,
uint64, short or long string, byte_string, array, empty_object or object (the
objects in them having distinct keys, as the object invariant has it), `a == b`
equals `b == a`. -/
theorem eq_symmetric (same_object : Bool) (a b : basic_json)
    (ha : a.var_.unique_keys = true) (hb : b.var_.unique_keys = true) :
    basic_json.eq same_object a b = basic_json.eq same_object b a := by
  simp only [basic_json.eq, variant.operator_eq]
  rw [variant.eq_symm a.var_ b.var_ ha hb]

/-- Witness for C31, at `a = {"a": 1, "b": [2]}` and `b = {"b": [2], "a": 1}`. -/
theorem eq_symmetric_witness :
    basic_json.eq false
        ⟨.object_storage [([97], .int64_storage 1 semantic_tag.none),
          ([98], .array_storage [.int64_storage 2 semantic_tag.none] semantic_tag.none)]
          semantic_tag.none⟩
        ⟨.object_storage
          [([98], .array_storage [.int64_storage 2 semantic_tag.none] semantic_tag.none),
           ([97], .int64_storage 1 semantic_tag.none)] semantic_tag.none⟩
      = basic_json.eq false
        ⟨.object_storage
          [([98], .array_storage [.int64_storage 2 semantic_tag.none] semantic_tag.none),
           ([97], .int64_storage 1 semantic_tag.none)] semantic_tag.none⟩
        ⟨.object_storage [([97], .int64_storage 1 semantic_tag.none),
          ([98], .array_storage [.int64_storage 2 semantic_tag.none] semantic_tag.none)]
          semantic_tag.none⟩ :=
  eq_symmetric false
    ⟨.object_storage [([97], .int64_storage 1 semantic_tag.none),
      ([98], .array_storage [.int64_storage 2 semantic_tag.none] semantic_tag.none)]
      semantic_tag.none⟩
    ⟨.object_storage
      [([98], .array_storage [.int64_storage 2 semantic_tag.none] semantic_tag.none),
       ([97], .int64_storage 1 semantic_tag.none)] semantic_tag.none⟩
    (by decide) (by decide)
/-! ## Theorems: implicit creation of the object -/

/-- Claim C32: when an empty_object carrying the semantic tag `t` is made an object by
`insert_or_assign`, `try_emplace`, `merge`, `merge_or_update`, `reserve` or the keyed `operator[]` (and
so by the keyed assignment), the resulting value has the storage kind object and
the semantic tag none, whatever `t` is. -/
theorem implicit_object_tag_none (policy : ordering_policy) (t : semantic_tag)
    (k : List Nat) (x : variant) (source : basic_json) (n : Nat) :
    (basic_json.create_object_implicitly ⟨.empty_object_storage t⟩).var_
      = .object_storage [] semantic_tag.none ∧
    ((basic_json.insert_or_assign policy ⟨.empty_object_storage t⟩ k x).2.var_.storage
        = storage_kind.object_value ∧
      (basic_json.insert_or_assign policy ⟨.empty_object_storage t⟩ k x).2.var_.tag
        = semantic_tag.none) ∧
    ((basic_json.try_emplace policy ⟨.empty_object_storage t⟩ k x).2.var_.storage
        = storage_kind.object_value ∧
      (basic_json.try_emplace policy ⟨.empty_object_storage t⟩ k x).2.var_.tag
        = semantic_tag.none) ∧
    ((basic_json.merge policy ⟨.empty_object_storage t⟩ source).2.1.var_.storage
        = storage_kind.object_value ∧
      (basic_json.merge policy ⟨.empty_object_storage t⟩ source).2.1.var_.tag
        = semantic_tag.none) ∧
    ((basic_json.merge_or_update policy ⟨.empty_object_storage t⟩ source).2.1.var_.storage
        = storage_kind.object_value ∧
      (basic_json.merge_or_update policy ⟨.empty_object_storage t⟩ source).2.1.var_.tag
        = semantic_tag.none) ∧
    (basic_json.reserve ⟨.empty_object_storage t⟩ n
      = (.ok (), ⟨.object_storage [] semantic_tag.none⟩)) ∧
    (basic_json.subscript ⟨.empty_object_storage t⟩ k
      = (.ok k, ⟨.object_storage [] semantic_tag.none⟩)) ∧
    ((basic_json.subscript_assign policy ⟨.empty_object_storage t⟩ k x).2.var_.storage
        = storage_kind.object_value ∧
      (basic_json.subscript_assign policy ⟨.empty_object_storage t⟩ k x).2.var_.tag
        = semantic_tag.none) := by
  refine ⟨rfl, ⟨rfl, rfl⟩, ⟨rfl, rfl⟩, ?_, ?_, rfl, rfl, ⟨rfl, rfl⟩⟩
  · obtain ⟨s⟩ := source
    cases s <;> exact ⟨rfl, rfl⟩
  · obtain ⟨s⟩ := source
    cases s <;> exact ⟨rfl, rfl⟩

/-- Claim C33 as stated fails at the receiver `Value(null)` and the source `Value()`, an
empty_object: `merge` and `merge_or_update` fail before they read the source, whose storage
kind is still empty_object after the call. -/
theorem merge_on_null_leaves_source :
    basic_json.merge ordering_policy.sorted ⟨.null_storage semantic_tag.none⟩
        ⟨.empty_object_storage semantic_tag.none⟩
      = (.error .domain_error, ⟨.null_storage semantic_tag.none⟩,
          ⟨.empty_object_storage semantic_tag.none⟩) ∧
    basic_json.merge_or_update ordering_policy.sorted ⟨.null_storage semantic_tag.none⟩
        ⟨.empty_object_storage semantic_tag.none⟩
      = (.error .domain_error, ⟨.null_storage semantic_tag.none⟩,
          ⟨.empty_object_storage semantic_tag.none⟩) ∧
    (basic_json.merge ordering_policy.sorted ⟨.null_storage semantic_tag.none⟩
        ⟨.empty_object_storage semantic_tag.none⟩).2.2.var_.storage
      = storage_kind.empty_object_value := by
  exact ⟨rfl, rfl, rfl⟩

/-- Claim C33, amended: `merge(source)` and `merge_or_update(source)`, which take a const source, are
not read-only on it: called on a receiver of an object kind (object or
empty_object) with a source that is an empty_object, they succeed and leave the
source an object of size 0 with tag none, which still compares equal to its
previous state; a source that is already an object is unchanged; called on a
receiver of any other kind, they fail before the source is read and leave the
source, whatever it is, and the receiver unchanged. -/
theorem merge_materializes_source (policy : ordering_policy) (v source : basic_json)
    (ts : semantic_tag) (ss : List (List Nat × variant)) :
    (v.var_.storage.is_object = true →
      ((basic_json.merge policy v ⟨.empty_object_storage ts⟩).1 = .ok () ∧
        (basic_json.merge policy v ⟨.empty_object_storage ts⟩).2.2
          = ⟨.object_storage [] semantic_tag.none⟩) ∧
      ((basic_json.merge_or_update policy v ⟨.empty_object_storage ts⟩).1 = .ok () ∧
        (basic_json.merge_or_update policy v ⟨.empty_object_storage ts⟩).2.2
          = ⟨.object_storage [] semantic_tag.none⟩) ∧
      ((basic_json.merge policy v ⟨.object_storage ss ts⟩).1 = .ok () ∧
        (basic_json.merge policy v ⟨.object_storage ss ts⟩).2.2 = ⟨.object_storage ss ts⟩) ∧
      ((basic_json.merge_or_update policy v ⟨.object_storage ss ts⟩).1 = .ok () ∧
        (basic_json.merge_or_update policy v ⟨.object_storage ss ts⟩).2.2
          = ⟨.object_storage ss ts⟩)) ∧
    ((basic_json.mk (.object_storage [] semantic_tag.none)).var_.storage
        = storage_kind.object_value ∧
      (basic_json.mk (.object_storage [] semantic_tag.none)).var_.tag = semantic_tag.none ∧
      basic_json.size ⟨.object_storage [] semantic_tag.none⟩ = 0 ∧
      basic_json.eq false ⟨.object_storage [] semantic_tag.none⟩ ⟨.empty_object_storage ts⟩
        = true) ∧
    (v.var_.storage.is_object = false →
      basic_json.merge policy v source = (.error .domain_error, v, source) ∧
      basic_json.merge_or_update policy v source = (.error .domain_error, v, source)) := by
  obtain ⟨var⟩ := v
  refine ⟨?_, ⟨rfl, rfl, rfl, rfl⟩, ?_⟩
  · intro hv
    cases var <;>
      first
      | exact ⟨⟨rfl, rfl⟩, ⟨rfl, rfl⟩, ⟨rfl, rfl⟩, ⟨rfl, rfl⟩⟩
      | simp [variant.storage, storage_kind.is_object] at hv
  · intro hv
    cases var <;>
      first
      | exact ⟨rfl, rfl⟩
      | simp [variant.storage, storage_kind.is_object] at hv

/-- Witness for C33 amended, at the receiver `{"a": 1}` with a source that is an empty_object
with the tag 1, and at the receiver `Value(3)` with the same source. -/
theorem merge_materializes_source_witness :
    ((basic_json.merge ordering_policy.sorted
        ⟨.object_storage [([97], .int64_storage 1 semantic_tag.none)] semantic_tag.none⟩
        ⟨.empty_object_storage ⟨1⟩⟩).1 = .ok () ∧
     (basic_json.merge ordering_policy.sorted
        ⟨.object_storage [([97], .int64_storage 1 semantic_tag.none)] semantic_tag.none⟩
        ⟨.empty_object_storage ⟨1⟩⟩).2.2 = ⟨.object_storage [] semantic_tag.none⟩) ∧
    (basic_json.merge ordering_policy.sorted ⟨.int64_storage 3 semantic_tag.none⟩
        ⟨.empty_object_storage ⟨1⟩⟩
      = (.error .domain_error, ⟨.int64_storage 3 semantic_tag.none⟩,
          ⟨.empty_object_storage ⟨1⟩⟩) ∧
     basic_json.merge_or_update ordering_policy.sorted ⟨.int64_storage 3 semantic_tag.none⟩
        ⟨.empty_object_storage ⟨1⟩⟩
      = (.error .domain_error, ⟨.int64_storage 3 semantic_tag.none⟩,
          ⟨.empty_object_storage ⟨1⟩⟩)) :=
  ⟨((merge_materializes_source ordering_policy.sorted
      ⟨.object_storage [([97], .int64_storage 1 semantic_tag.none)] semantic_tag.none⟩
      ⟨.empty_object_storage ⟨1⟩⟩ ⟨1⟩ []).1 (by decide)).1,
   (merge_materializes_source ordering_policy.sorted ⟨.int64_storage 3 semantic_tag.none⟩
      ⟨.empty_object_storage ⟨1⟩⟩ ⟨1⟩ []).2.2 (by decide)⟩

/-! ## Theorems: the order of empty_object against object -/

/-- Claim C34: for an empty_object `e` and an object `o`, the ordering is consistent with
equality: `e < o` holds iff `o` has at least one entry, `o < e` never holds, and exactly
one of `e == o` and `e < o` is true. -/
theorem empty_object_lt_object (t1 t2 : semantic_tag) (members : List (List Nat × variant)) :
    (basic_json.lt false ⟨.empty_object_storage t1⟩ ⟨.object_storage members t2⟩ = some true
      ↔ 1 ≤ basic_json.size ⟨.object_storage members t2⟩) ∧
    basic_json.lt false ⟨.empty_object_storage t1⟩ ⟨.object_storage members t2⟩
      = some (decide (1 ≤ basic_json.size ⟨.object_storage members t2⟩)) ∧
    basic_json.lt false ⟨.object_storage members t2⟩ ⟨.empty_object_storage t1⟩
      = some false ∧
    basic_json.lt false ⟨.empty_object_storage t1⟩ ⟨.object_storage members t2⟩
      = some (!(basic_json.eq false ⟨.empty_object_storage t1⟩
          ⟨.object_storage members t2⟩)) := by
  have h : basic_json.lt false ⟨.empty_object_storage t1⟩ ⟨.object_storage members t2⟩
      = some (decide (members.length ≠ 0)) := by
    simp only [basic_json.lt, variant.operator_lt, Bool.false_eq_true, if_false]
    rw [variant.lt]
    rfl
  have h2 : basic_json.lt false ⟨.object_storage members t2⟩ ⟨.empty_object_storage t1⟩
      = some false := by
    simp only [basic_json.lt, variant.operator_lt, Bool.false_eq_true, if_false]
    rw [variant.lt]
  refine ⟨?_, ?_, h2, ?_⟩
  · rw [h]
    cases members <;> simp [basic_json.size]
  · rw [h]
    cases members <;> simp [basic_json.size]
  · rw [h]
    cases members <;>
      simp [basic_json.eq, variant.operator_eq, variant.eq, variant.size]

/-! ## Theorems: the integer predicates -/

/-- Claim C35: for every value of kind int64 or uint64 holding the integer `n`, `is_int64()` is
true iff `-2^63 <= n <= 2^63 - 1` and `is_uint64()` is true iff `0 <= n <= 2^64 - 1`, whichever of
the two kinds stores `n`; for every other storage kind both predicates are
false. -/
theorem integer_predicates (to_integer : List Nat → Option Int) (double_cast : double → Int)
    (v : basic_json) :
    (∀ (n : Int) (t : semantic_tag), -2 ^ 63 ≤ n → n ≤ 2 ^ 63 - 1 →
      v.var_ = .int64_storage n t →
      basic_json.is_int64 to_integer double_cast v
        = .ok (decide (-2 ^ 63 ≤ n ∧ n ≤ 2 ^ 63 - 1)) ∧
      basic_json.is_uint64 to_integer double_cast v
        = .ok (decide (0 ≤ n ∧ n ≤ 2 ^ 64 - 1))) ∧
    (∀ (n : Nat) (t : semantic_tag), n ≤ 2 ^ 64 - 1 →
      v.var_ = .uint64_storage n t →
      basic_json.is_int64 to_integer double_cast v
        = .ok (decide (-2 ^ 63 ≤ (n : Int) ∧ (n : Int) ≤ 2 ^ 63 - 1)) ∧
      basic_json.is_uint64 to_integer double_cast v
        = .ok (decide (0 ≤ (n : Int) ∧ (n : Int) ≤ 2 ^ 64 - 1))) ∧
    (v.var_.storage ≠ storage_kind.int64_value → v.var_.storage ≠ storage_kind.uint64_value →
      basic_json.is_int64 to_integer double_cast v = .ok false ∧
      basic_json.is_uint64 to_integer double_cast v = .ok false) := by
  obtain ⟨var⟩ := v
  refine ⟨?_, ?_, ?_⟩
  · intro n t hlo hhi hv
    simp only at hv
    subst hv
    have h1 : decide (-2 ^ 63 ≤ n ∧ n ≤ 2 ^ 63 - 1) = true := by
      simp only [decide_eq_true_eq]
      exact ⟨hlo, hhi⟩
    have hc : basic_json.cast_int64 n = n := by
      unfold basic_json.cast_int64
      omega
    have h2 : decide (0 ≤ n ∧ n ≤ 2 ^ 64 - 1) = decide (n ≥ 0) := by
      rw [decide_eq_decide]
      constructor
      · intro h; exact h.1
      · intro h; exact ⟨h, by omega⟩
    rw [h1, h2]
    simp [basic_json.is_int64, basic_json.is_uint64, variant.storage, basic_json.as_integer, hc]
  · intro n t hhi hv
    simp only at hv
    subst hv
    have hc : basic_json.cast_uint64 (n : Int) = (n : Int) := by
      unfold basic_json.cast_uint64
      omega
    have hm : basic_json.cast_uint64 9223372036854775807 = 9223372036854775807 := by
      unfold basic_json.cast_uint64
      norm_num
    have h1 : decide (0 ≤ (n : Int) ∧ (n : Int) ≤ 2 ^ 64 - 1) = true := by
      simp only [decide_eq_true_eq]
      omega
    have h2 : decide (-2 ^ 63 ≤ (n : Int) ∧ (n : Int) ≤ 2 ^ 63 - 1)
        = decide ((n : Int) ≤ 2 ^ 63 - 1) := by
      rw [decide_eq_decide]
      constructor
      · intro h; exact h.2
      · intro h; exact ⟨by omega, h⟩
    rw [h1, h2]
    simp [basic_json.is_int64, basic_json.is_uint64, variant.storage, basic_json.as_integer,
      hc, hm]
  · intro h1 h2
    cases var <;>
      first
      | exact ⟨rfl, rfl⟩
      | exact absurd rfl h1
      | exact absurd rfl h2

/-- Witness for C35, at `Value(uint64 2^63)`, which is a uint64 and not an int64, and at
`Value(int64 -1)`, which is an int64 and not a uint64. -/
theorem integer_predicates_witness :
    (basic_json.is_int64 (fun _ => none) (fun _ => 0)
        ⟨.uint64_storage (2 ^ 63) semantic_tag.none⟩
      = .ok (decide (-2 ^ 63 ≤ ((2 ^ 63 : Nat) : Int) ∧ ((2 ^ 63 : Nat) : Int) ≤ 2 ^ 63 - 1)) ∧
     basic_json.is_uint64 (fun _ => none) (fun _ => 0)
        ⟨.uint64_storage (2 ^ 63) semantic_tag.none⟩
      = .ok (decide (0 ≤ ((2 ^ 63 : Nat) : Int) ∧ ((2 ^ 63 : Nat) : Int) ≤ 2 ^ 64 - 1))) ∧
    (basic_json.is_int64 (fun _ => none) (fun _ => 0)
        ⟨.int64_storage (-1) semantic_tag.none⟩
      = .ok (decide (-2 ^ 63 ≤ (-1 : Int) ∧ (-1 : Int) ≤ 2 ^ 63 - 1)) ∧
     basic_json.is_uint64 (fun _ => none) (fun _ => 0)
        ⟨.int64_storage (-1) semantic_tag.none⟩
      = .ok (decide (0 ≤ (-1 : Int) ∧ (-1 : Int) ≤ 2 ^ 64 - 1))) :=
  ⟨(integer_predicates (fun _ => none) (fun _ => 0)
      ⟨.uint64_storage (2 ^ 63) semantic_tag.none⟩).2.1 (2 ^ 63) semantic_tag.none
      (by norm_num) rfl,
   (integer_predicates (fun _ => none) (fun _ => 0)
      ⟨.int64_storage (-1) semantic_tag.none⟩).1 (-1) semantic_tag.none
      (by norm_num) (by norm_num) rfl⟩

/-! ## Theorems: conversions of a half_float -/

/-- Claim C36: `as_integer<T>()` on a half_float value returns the stored raw 16-bit encoding
converted to `T`, not the integer part of the decoded number: the encoding `0x3C00` of
1.0 yields 15360 for `int64_t` and for `uint64_t`; `as_double()` on the same value returns the
decoded number, here 1.0. -/
theorem half_as_integer_raw (cast : Int → Int) (to_integer : List Nat → Option Int)
    (double_cast : double → Int) (to_double : List Nat → Option double) (h : Nat)
    (t : semantic_tag) :
    basic_json.as_integer cast to_integer double_cast ⟨.half_storage h t⟩
      = .ok (cast (h : Int)) ∧
    basic_json.as_double to_double ⟨.half_storage h t⟩ = .ok (decode_half h) ∧
    basic_json.as_integer basic_json.cast_int64 to_integer double_cast
      ⟨.half_storage 0x3C00 t⟩ = .ok 15360 ∧
    basic_json.as_integer basic_json.cast_uint64 to_integer double_cast
      ⟨.half_storage 0x3C00 t⟩ = .ok 15360 ∧
    basic_json.as_double to_double ⟨.half_storage 0x3C00 t⟩ = .ok double.one := by
  refine ⟨rfl, rfl, ?_, ?_, ?_⟩
  · simp [basic_json.as_integer, basic_json.cast_int64]
  · simp [basic_json.as_integer, basic_json.cast_uint64]
  · simp only [basic_json.as_double]
    congr 1

/-! ## Theorems: size and empty -/

/-- Claim C37: for every value `v`, `size()` is the number of elements or entries when `v` is an
array or object and 0 for every other kind; `empty()` is true iff `size() == 0` for the
array, object and empty_object kinds and iff the length is 0 for the string and
byte_string kinds, and `empty()` is false for null, bool and all numeric kinds, whose
`size()` is 0; neither fails nor changes `v`. -/
theorem size_and_empty (v : basic_json) :
    basic_json.size v
      = (match v.var_ with
          | .array_storage elements _ => elements.length
          | .object_storage members _ => members.length
          | _ => 0) ∧
    basic_json.empty v
      = (.ok (match v.var_ with
          | .array_storage _ _ => decide (basic_json.size v = 0)
          | .object_storage _ _ => decide (basic_json.size v = 0)
          | .empty_object_storage _ => decide (basic_json.size v = 0)
          | .short_string_storage _ s => decide (s.length = 0)
          | .long_string_storage _ s => decide (s.length = 0)
          | .byte_string_storage _ b => decide (b.length = 0)
          | _ => false), v) ∧
    ((v.var_.storage = storage_kind.null_value ∨ v.var_.storage = storage_kind.bool_value ∨
        v.var_.storage.is_numeric = true) →
      basic_json.empty v = (.ok false, v) ∧ basic_json.size v = 0) := by
  obtain ⟨var⟩ := v
  cases var <;>
    simp [basic_json.size, basic_json.empty, basic_json.array_value, basic_json.object_value,
      variant.storage, storage_kind.is_numeric]

/-! ## Theorems: the discriminant byte round-trips -/

/-- Claim C39: the single discriminant byte round-trips: for every storage kind `k` of the 12
and every semantic tag `t` whose numeric value is below 16,
`to_storage(from_storage_and_tag(k, t))` is `k` and `to_tag(from_storage_and_tag(k, t))` is `t`, so
distinct (kind, tag) pairs never share an encoding. -/
theorem discriminant_round_trip (k k2 : storage_kind) (t t2 : semantic_tag)
    (ht : t.value < 16) (ht2 : t2.value < 16) :
    variant.to_storage (variant.from_storage_and_tag k t) = k.toNat ∧
    variant.to_tag (variant.from_storage_and_tag k t) = t ∧
    (variant.from_storage_and_tag k t = variant.from_storage_and_tag k2 t2 →
      k = k2 ∧ t = t2) := by
  have h1 := variant.from_storage_and_tag_decode k t ht
  have h2 := variant.from_storage_and_tag_decode k2 t2 ht2
  refine ⟨h1.1, h1.2, ?_⟩
  intro he
  rw [he] at h1
  constructor
  · have hk : k.toNat = k2.toNat := h1.1.symm.trans h2.1
    cases k <;> cases k2 <;> first | rfl | (exact absurd hk (by decide))
  · exact h1.2.symm.trans h2.2

/-- Witness for C39, at the kind object with the tag 15 and the kind array with the tag 0. -/
theorem discriminant_round_trip_witness :
    variant.to_storage (variant.from_storage_and_tag storage_kind.object_value ⟨15⟩)
      = storage_kind.object_value.toNat ∧
    variant.to_tag (variant.from_storage_and_tag storage_kind.object_value ⟨15⟩) = ⟨15⟩ :=
  ⟨(discriminant_round_trip storage_kind.object_value storage_kind.array_value ⟨15⟩ ⟨0⟩
      (by decide) (by decide)).1,
   (discriminant_round_trip storage_kind.object_value storage_kind.array_value ⟨15⟩ ⟨0⟩
      (by decide) (by decide)).2.1⟩

/-! ## Theorems: the iterator wrapper -/

/-- Claim C40: for the object iterator wrapper: two default-constructed (valueless) wrappers
compare equal and neither is less than the other; a valueless wrapper never
equals a wrapper holding an iterator and is less than it, which is not less than
the valueless one; the converting constructor always produces a wrapper that
holds a value, so a wrapper obtained by converting a valueless wrapper, such as
the `begin()` of the range of an empty_object, does not compare equal to a
default-constructed sentinel of the target type. -/
theorem iterator_wrapper_order (w : random_access_iterator_wrapper) (ptr : Nat)
    (t : semantic_tag) :
    random_access_iterator_wrapper.eq random_access_iterator_wrapper.default
      random_access_iterator_wrapper.default = true ∧
    random_access_iterator_wrapper.lt random_access_iterator_wrapper.default
      random_access_iterator_wrapper.default = false ∧
    (w.has_value_ = true →
      random_access_iterator_wrapper.eq random_access_iterator_wrapper.default w = false ∧
      random_access_iterator_wrapper.eq w random_access_iterator_wrapper.default = false ∧
      random_access_iterator_wrapper.lt random_access_iterator_wrapper.default w = true ∧
      random_access_iterator_wrapper.lt w random_access_iterator_wrapper.default = false) ∧
    (random_access_iterator_wrapper.of_iterator ptr).has_value_ = true ∧
    (random_access_iterator_wrapper.convert w).has_value_ = true ∧
    random_access_iterator_wrapper.eq
      (random_access_iterator_wrapper.convert random_access_iterator_wrapper.default)
      random_access_iterator_wrapper.default = false ∧
    (basic_json.object_range ⟨.empty_object_storage t⟩).1
      = .ok (random_access_iterator_wrapper.default, random_access_iterator_wrapper.default) ∧
    ((basic_json.object_range ⟨.empty_object_storage t⟩).1.map
        (fun r => random_access_iterator_wrapper.eq
          (random_access_iterator_wrapper.convert r.1) r.2)) = .ok false := by
  refine ⟨rfl, rfl, ?_, rfl, rfl, rfl, rfl, rfl⟩
  intro hw
  obtain ⟨it, hv⟩ := w
  simp only at hw
  subst hw
  exact ⟨rfl, rfl, rfl, rfl⟩
/-! ## Theorems: the events of dump are well formed -/

mutual
/-- A handler that always asks to continue receives the events of the value, one
after the other. -/
theorem variant.dump_noflush_events {σ : Type} (handler : basic_json_content_handler σ)
    (hmore : ∀ e h, (handler.visit e h).1 = true) :
    ∀ (v : variant) (h : σ),
      variant.dump_noflush handler v h
        = v.events.foldl (fun h1 e => (handler.visit e h1).2) h
  | .short_string_storage _ _, _ => rfl
  | .long_string_storage _ _, _ => rfl
  | .byte_string_storage _ _, _ => rfl
  | .half_storage _ _, _ => rfl
  | .double_storage _ _, _ => rfl
  | .int64_storage _ _, _ => rfl
  | .uint64_storage _ _, _ => rfl
  | .bool_storage _ _, _ => rfl
  | .null_storage _, _ => rfl
  | .empty_object_storage _, _ => rfl
  | .object_storage val t, h => by
      simp only [variant.dump_noflush, hmore, if_true, variant.events, List.foldl_cons,
        List.foldl_append, List.foldl_nil]
      rw [dump_noflush_members_events handler hmore val]
  | .array_storage val t, h => by
      simp only [variant.dump_noflush, hmore, if_true, variant.events, List.foldl_cons,
        List.foldl_append, List.foldl_nil]
      rw [dump_noflush_elements_events handler hmore val]
/-- The loop over the elements hands over the events of the elements. -/
theorem dump_noflush_elements_events {σ : Type} (handler : basic_json_content_handler σ)
    (hmore : ∀ e h, (handler.visit e h).1 = true) :
    ∀ (xs : List variant) (h : σ),
      dump_noflush_elements handler xs h
        = (elements_events xs).foldl (fun h1 e => (handler.visit e h1).2) h
  | [], _ => rfl
  | x :: xs, h => by
      simp only [dump_noflush_elements, elements_events, List.foldl_append]
      rw [variant.dump_noflush_events handler hmore x,
        dump_noflush_elements_events handler hmore xs]
/-- The loop over the members hands over the key and the events of each member. -/
theorem dump_noflush_members_events {σ : Type} (handler : basic_json_content_handler σ)
    (hmore : ∀ e h, (handler.visit e h).1 = true) :
    ∀ (ms : List (List Nat × variant)) (h : σ),
      dump_noflush_members handler ms h
        = (members_events ms).foldl (fun h1 e => (handler.visit e h1).2) h
  | [], _ => rfl
  | (k, v) :: rest, h => by
      simp only [dump_noflush_members, members_events, List.foldl_cons, List.foldl_append]
      rw [variant.dump_noflush_events handler hmore v,
        dump_noflush_members_events handler hmore rest]
end

/-- The recording handler, started on the events `h`, ends on `h` followed by the
events that it receives. -/
theorem recording_handler_foldl (es h : List json_event) :
    es.foldl (fun h1 e => (recording_handler.visit e h1).2) h = h ++ es := by
  induction es generalizing h with
  | nil => simp
  | cons e es ih =>
    simp only [List.foldl_cons, ih]
    simp [recording_handler]

mutual
/-- The events of a value read as one value: where a value may begin, they lead
to where the value has been taken. -/
theorem variant.read_events_value :
    ∀ (v : variant) (rest : List json_event) (st st1 : List event_context),
      value_begins st = some st1 → read_events (v.events ++ rest) st = read_events rest st1
  | .short_string_storage _ _, _, _, _, h => by
      simp [variant.events, read_events, read_event, h]
  | .long_string_storage _ _, _, _, _, h => by
      simp [variant.events, read_events, read_event, h]
  | .byte_string_storage _ _, _, _, _, h => by
      simp [variant.events, read_events, read_event, h]
  | .half_storage _ _, _, _, _, h => by
      simp [variant.events, read_events, read_event, h]
  | .double_storage _ _, _, _, _, h => by
      simp [variant.events, read_events, read_event, h]
  | .int64_storage _ _, _, _, _, h => by
      simp [variant.events, read_events, read_event, h]
  | .uint64_storage _ _, _, _, _, h => by
      simp [variant.events, read_events, read_event, h]
  | .bool_storage _ _, _, _, _, h => by
      simp [variant.events, read_events, read_event, h]
  | .null_storage _, _, _, _, h => by
      simp [variant.events, read_events, read_event, h]
  | .empty_object_storage _, _, _, _, h => by
      simp [variant.events, read_events, read_event, h]
  | .object_storage val _, rest, st, st1, h => by
      have hm := read_events_members val (json_event.end_object :: rest) 0 st1
      simp only [Nat.add_zero] at hm
      simp only [variant.events, List.cons_append, read_events, read_event, h,
        Option.map, List.append_eq, List.append_assoc, List.nil_append]
      rw [hm]
      simp only [read_events, read_event]
  | .array_storage val _, rest, st, st1, h => by
      have hm := read_events_elements val (json_event.end_array :: rest) 0 st1
      simp only [Nat.add_zero] at hm
      simp only [variant.events, List.cons_append, read_events, read_event, h,
        Option.map, List.append_eq, List.append_assoc, List.nil_append]
      rw [hm]
      simp only [read_events, read_event]
/-- The events of the elements read as that many values of the array. -/
theorem read_events_elements :
    ∀ (xs : List variant) (rest : List json_event) (n : Nat) (st : List event_context),
      read_events (elements_events xs ++ rest) (.in_array (xs.length + n) :: st)
        = read_events rest (.in_array n :: st)
  | [], _, _, _ => by simp [elements_events]
  | x :: xs, rest, n, st => by
      have hb : value_begins (.in_array ((x :: xs).length + n) :: st)
          = some (.in_array (xs.length + n) :: st) := by
        have : (x :: xs).length + n = (xs.length + n) + 1 := by
          simp only [List.length_cons]
          omega
        rw [this]
        rfl
      simp only [elements_events, List.append_assoc]
      rw [variant.read_events_value x _ _ _ hb, read_events_elements xs rest n st]
/-- The events of the members read as that many members of the object. -/
theorem read_events_members :
    ∀ (ms : List (List Nat × variant)) (rest : List json_event) (n : Nat)
      (st : List event_context),
      read_events (members_events ms ++ rest) (.expect_key (ms.length + n) :: st)
        = read_events rest (.expect_key n :: st)
  | [], _, _, _ => by simp [members_events]
  | (k, v) :: ms, rest, n, st => by
      have hk : read_event (.key k) (.expect_key (((k, v) :: ms).length + n) :: st)
          = some (.expect_value (ms.length + n) :: st) := by
        have : ((k, v) :: ms).length + n = (ms.length + n) + 1 := by
          simp only [List.length_cons]
          omega
        rw [this]
        rfl
      have hb : value_begins (.expect_value (ms.length + n) :: st)
          = some (.expect_key (ms.length + n) :: st) := rfl
      simp only [members_events, List.cons_append, read_events, hk, List.append_eq,
        List.append_assoc]
      rw [variant.read_events_value v _ _ _ hb, read_events_members ms rest n st]
end

/-- Sequences that are not well formed: an array that announces one element and holds
none, a key outside an object, a value without its key in an object, an array
closed as an object, and two top-level values. -/
theorem well_formed_refuses :
    well_formed [.begin_array 1 semantic_tag.none, .end_array] = false ∧
    well_formed [.key [97], .null_value semantic_tag.none] = false ∧
    well_formed [.begin_array 1 semantic_tag.none, .key [97], .null_value semantic_tag.none,
      .end_array] = false ∧
    well_formed [.begin_object 1 semantic_tag.none, .null_value semantic_tag.none,
      .end_object] = false ∧
    well_formed [.begin_array 0 semantic_tag.none, .end_object] = false ∧
    well_formed [.null_value semantic_tag.none, .null_value semantic_tag.none] = false ∧
    well_formed [.begin_array 0 semantic_tag.none] = false := by
  decide

/-- Claim C38: for every value `v` and a handler that always asks to continue, the event
sequence emitted by `dump` is well formed: the handler receives the events of `v` in
their order, which read as exactly one value, every `begin_array`/`begin_object` closed by
its own `end_array`/`end_object` in properly nested order after as many children as the
size that the begin carries, which is the size of the container; an empty_object
emits `begin_object(0)` immediately followed by `end_object`; inside an object each child
value is immediately preceded by exactly one key event, and no key event occurs
inside an array. -/
theorem dump_events_well_formed {σ : Type} (handler : basic_json_content_handler σ)
    (v : basic_json) (h : σ) (hmore : ∀ e h1, (handler.visit e h1).1 = true) :
    basic_json.dump_noflush handler v h
      = v.var_.events.foldl (fun h1 e => (handler.visit e h1).2) h ∧
    basic_json.dump_noflush recording_handler v [] = v.var_.events ∧
    well_formed v.var_.events = true ∧
    (∀ (t : semantic_tag),
      (variant.empty_object_storage t).events = [.begin_object 0 t, .end_object]) ∧
    (∀ (elements : List variant) (t : semantic_tag),
      (variant.array_storage elements t).events
        = .begin_array (basic_json.size ⟨.array_storage elements t⟩) t
            :: (elements_events elements ++ [.end_array]) ∧
      ∀ x xs, elements = x :: xs → elements_events elements = x.events ++ elements_events xs) ∧
    (∀ (members : List (List Nat × variant)) (t : semantic_tag),
      (variant.object_storage members t).events
        = .begin_object (basic_json.size ⟨.object_storage members t⟩) t
            :: (members_events members ++ [.end_object]) ∧
      ∀ k x ms, members = (k, x) :: ms →
        members_events members = .key k :: (x.events ++ members_events ms)) := by
  refine ⟨variant.dump_noflush_events handler hmore v.var_ h, ?_, ?_, fun _ => rfl,
    fun _ _ => ⟨rfl, ?_⟩, fun _ _ => ⟨rfl, ?_⟩⟩
  · have h1 := variant.dump_noflush_events recording_handler (fun _ _ => rfl) v.var_ []
    rw [recording_handler_foldl] at h1
    simpa [basic_json.dump_noflush] using h1
  · have h1 := variant.read_events_value v.var_ [] [.top] [] rfl
    rw [List.append_nil] at h1
    simp [well_formed, h1, read_events]
  · intro x xs he
    subst he
    rfl
  · intro k x ms he
    subst he
    rfl

/-- Witness for C38, at the recording handler and the value `{"a": [1, {}]}`, whose events
are `begin_object(1)`, `key("a")`, `begin_array(2)`, `int64(1)`, `begin_object(0)`, `end_object`, `end_array`,
`end_object`. -/
theorem dump_events_well_formed_witness :
    basic_json.dump_noflush recording_handler
        ⟨.object_storage [([97], .array_storage [.int64_storage 1 semantic_tag.none,
          .empty_object_storage semantic_tag.none] semantic_tag.none)] semantic_tag.none⟩ []
      = [.begin_object 1 semantic_tag.none, .key [97], .begin_array 2 semantic_tag.none,
          .int64_value 1 semantic_tag.none, .begin_object 0 semantic_tag.none, .end_object,
          .end_array, .end_object] ∧
    well_formed [.begin_object 1 semantic_tag.none, .key [97],
      .begin_array 2 semantic_tag.none, .int64_value 1 semantic_tag.none,
      .begin_object 0 semantic_tag.none, .end_object, .end_array, .end_object] = true :=
  ⟨(dump_events_well_formed recording_handler
      ⟨.object_storage [([97], .array_storage [.int64_storage 1 semantic_tag.none,
        .empty_object_storage semantic_tag.none] semantic_tag.none)] semantic_tag.none⟩ []
      (fun _ _ => rfl)).2.1,
   (dump_events_well_formed recording_handler
      ⟨.object_storage [([97], .array_storage [.int64_storage 1 semantic_tag.none,
        .empty_object_storage semantic_tag.none] semantic_tag.none)] semantic_tag.none⟩ []
      (fun _ _ => rfl)).2.2.1⟩

end jsoncons
